import Mathlib

/-!
Shallow embedding of the Babel packet-authentication core
(`babeld/babel_auth.c` of quagga-RE) and proofs about it.

Packets are byte lists (`List Nat`, each byte < 256).  The quagga stream
primitives are modelled explicitly: a read cursor `p` into a fixed byte
list, with `stream_getc`/`stream_getw`/`stream_getl` returning 0 and not
advancing on underrun, and `stream_forward_getp` not moving when it would
pass the end, exactly as in `lib/stream.c`.
-/

set_option maxHeartbeats 1000000

namespace BabelAuth

/-- Message type of the PAD1 TLV (babeld/message.h): 0 in the Babel wire
format. -/
def MESSAGE_PAD1 : Nat := 0

/-- Message type of the TS/PC TLV.  Modelled from the spec: message.h is
outside the file under review; the spec gives the TS/PC TLV as
`0x0B, 0x06, PC(2), TS(4)` and treats the numeric as an opaque constant. -/
def MESSAGE_TSPC : Nat := 11

/-- Message type of the HMAC TLV.  Modelled from the spec: message.h is
outside the file under review; the spec treats the numeric as an opaque
constant distinct from PAD1 and TS/PC. -/
def MESSAGE_HMAC : Nat := 12

/-- Modelled from the spec: babel_auth.h is outside the file under review;
the spec calls `BABEL_MAXDIGESTSIN` a small positive compile-time constant
(the protocol default is 4). -/
def BABEL_MAXDIGESTSIN : Nat := 4

/-- Modelled from the spec: babel_auth.h is outside the file under review;
the spec calls `BABEL_MAXDIGESTSOUT` a small positive compile-time constant
(the protocol default is 4). -/
def BABEL_MAXDIGESTSOUT : Nat := 4

def BABEL_TS_BASE_ZERO : Nat := 0

def BABEL_TS_BASE_UNIX : Nat := 1

def IPV6_MAX_BYTELEN : Nat := 16

/-- First header byte of an outbound packet (the protocol number).  The
inbound walkers never read the header, so only its width matters. -/
def RTPROT_BABEL : Nat := 42

/-- Modelled from the spec: the digest-length table of the external hash
library (`hash_digest_length[]` in lib/cryptohash).  The spec fixes
`digest_length(SHA256) = 32`; every supported digest is between 16 and 64
bytes wide. -/
def hash_digest_length (algo : Nat) : Nat :=
  if algo = 2 then 32 else if algo = 3 then 48 else if algo = 4 then 64 else 20

/-- Byte of `d` at offset `i`, 0 when out of range (quagga streams are
zero-filled on allocation). -/
def byteAt (d : List Nat) (i : Nat) : Nat := d.getD i 0

/-- stream_getc: returns (byte, new getp); on underrun returns 0 without
advancing. -/
def getc (d : List Nat) (p : Nat) : Nat × Nat :=
  if p + 1 ≤ d.length then (byteAt d p, p + 1) else (0, p)

/-- stream_getw: big-endian 16-bit read. -/
def getw (d : List Nat) (p : Nat) : Nat × Nat :=
  if p + 2 ≤ d.length then (256 * byteAt d p + byteAt d (p + 1), p + 2) else (0, p)

/-- stream_getl: big-endian 32-bit read. -/
def getl (d : List Nat) (p : Nat) : Nat × Nat :=
  if p + 4 ≤ d.length then
    (16777216 * byteAt d p + 65536 * byteAt d (p + 1) + 256 * byteAt d (p + 2) +
       byteAt d (p + 3), p + 4)
  else (0, p)

/-- stream_forward_getp: moves the cursor only when it stays in bounds. -/
def forward (d : List Nat) (p n : Nat) : Nat :=
  if p + n ≤ d.length then p + n else p

/-- stream_getw_from: big-endian 16-bit read at an absolute offset. -/
def getwFrom (d : List Nat) (p : Nat) : Nat := (getw d p).1

/-- stream_getl_from: big-endian 32-bit read at an absolute offset. -/
def getlFrom (d : List Nat) (p : Nat) : Nat := (getl d p).1

/-- Big-endian encoding of a 16-bit value (stream_putw). -/
def be16 (n : Nat) : List Nat := [n / 256 % 256, n % 256]

/-- Big-endian encoding of a 32-bit value (stream_putl). -/
def be32 (n : Nat) : List Nat :=
  [n / 16777216 % 256, n / 65536 % 256, n / 256 % 256, n % 256]

/-- Structured view of one TLV: PAD1 is the single byte 0; every other TLV
is `type ‖ length ‖ value`. -/
inductive TLV where
  | pad1 : TLV
  | raw : Nat → List Nat → TLV
deriving DecidableEq, Repr

def serializeTLV : TLV → List Nat
  | .pad1 => [MESSAGE_PAD1]
  | .raw t v => t :: v.length :: v

def serializeTLVs : List TLV → List Nat
  | [] => []
  | t :: r => serializeTLV t ++ serializeTLVs r

/-- Well-formedness of a structured TLV: byte-sized fields, a correct
length byte (forced by serialization), a 6-byte value on TS/PC TLVs and at
least `key_id(2) ‖ address(16)` worth of value on HMAC TLVs. -/
def wfTLV : TLV → Prop
  | .pad1 => True
  | .raw t v => t ≠ MESSAGE_PAD1 ∧ t < 256 ∧ v.length ≤ 255 ∧ (∀ b ∈ v, b < 256) ∧
      (t = MESSAGE_TSPC → v.length = 6) ∧ (t = MESSAGE_HMAC → 18 ≤ v.length)

instance instDecWfTLV : (t : TLV) → Decidable (wfTLV t)
  | .pad1 => .isTrue trivial
  | .raw t v =>
    inferInstanceAs (Decidable (t ≠ MESSAGE_PAD1 ∧ t < 256 ∧ v.length ≤ 255 ∧
      (∀ b ∈ v, b < 256) ∧ (t = MESSAGE_TSPC → v.length = 6) ∧
      (t = MESSAGE_HMAC → 18 ≤ v.length)))

/-- Packet counter carried in the first two value bytes of a TS/PC TLV
(also the KeyID field of an HMAC TLV value). -/
def tlvPc (v : List Nat) : Nat := 256 * byteAt v 0 + byteAt v 1

/-- Timestamp carried in value bytes 2..5 of a TS/PC TLV. -/
def tlvTs (v : List Nat) : Nat :=
  16777216 * byteAt v 2 + 65536 * byteAt v 3 + 256 * byteAt v 4 + byteAt v 5

/-- KeyID field of an HMAC TLV value (first two value bytes, big-endian). -/
def tlvKeyId (v : List Nat) : Nat := 256 * byteAt v 0 + byteAt v 1

/-- The (pc, ts) pair of the first TS/PC TLV of a structured packet. -/
def firstTspcPair : List TLV → Option (Nat × Nat)
  | [] => none
  | .pad1 :: r => firstTspcPair r
  | .raw t v :: r => if t = MESSAGE_TSPC then some (tlvPc v, tlvTs v) else firstTspcPair r

/-- Strict lexicographic order on (timestamp, packet-counter) pairs. -/
def tsPcLt (a b : Nat × Nat) : Prop := a.1 < b.1 ∨ (a.1 = b.1 ∧ a.2 < b.2)

instance instDecTsPcLt (a b : Nat × Nat) : Decidable (tsPcLt a b) :=
  inferInstanceAs (Decidable (_ ∨ _))

/-- MSG_OK / MSG_NG result values. -/
inductive Msg where
  | ok : Msg
  | ng : Msg
deriving DecidableEq, Repr

/-- Statistics record (struct babel_auth_stats). -/
structure Stats where
  plain_recv : Nat
  plain_sent : Nat
  auth_sent : Nat
  auth_sent_ng_nokeys : Nat
  auth_recv_ok : Nat
  auth_recv_ng_nokeys : Nat
  auth_recv_ng_no_tspc : Nat
  auth_recv_ng_tspc : Nat
  auth_recv_ng_hmac : Nat
  internal_err : Nat
deriving DecidableEq, Repr

def stats0 : Stats := ⟨0, 0, 0, 0, 0, 0, 0, 0, 0, 0⟩

def bumpPlainRecv (s : Stats) : Stats := { s with plain_recv := s.plain_recv + 1 }

def bumpPlainSent (s : Stats) : Stats := { s with plain_sent := s.plain_sent + 1 }

def bumpAuthSent (s : Stats) : Stats := { s with auth_sent := s.auth_sent + 1 }

def bumpSentNokeys (s : Stats) : Stats :=
  { s with auth_sent_ng_nokeys := s.auth_sent_ng_nokeys + 1 }

def bumpRecvOk (s : Stats) : Stats := { s with auth_recv_ok := s.auth_recv_ok + 1 }

def bumpRecvNokeys (s : Stats) : Stats :=
  { s with auth_recv_ng_nokeys := s.auth_recv_ng_nokeys + 1 }

def bumpNoTspc (s : Stats) : Stats :=
  { s with auth_recv_ng_no_tspc := s.auth_recv_ng_no_tspc + 1 }

def bumpNgTspc (s : Stats) : Stats :=
  { s with auth_recv_ng_tspc := s.auth_recv_ng_tspc + 1 }

def bumpNgHmac (s : Stats) : Stats :=
  { s with auth_recv_ng_hmac := s.auth_recv_ng_hmac + 1 }

def bumpInternalErr (s : Stats) : Stats := { s with internal_err := s.internal_err + 1 }

def addInternalErr (n : Nat) (s : Stats) : Stats := { s with internal_err := s.internal_err + n }

/-- One key of a keychain (lib/keychain.h: numeric index and a
NUL-terminated secret string). -/
structure Key where
  index : Nat
  string : List Nat
deriving DecidableEq, Repr

structure Keychain where
  name : String
  keys : List Key
deriving DecidableEq, Repr

/-- Configured security association (struct babel_csa_item). -/
structure CsaItem where
  keychain_name : String
  hash_algo : Nat
deriving DecidableEq, Repr

/-- Effective security association (struct babel_esa_item).  `key_len` of
the C struct is `key_secret.length` here. -/
structure EsaItem where
  sort_order_major : Nat
  sort_order_minor : Nat
  hash_algo : Nat
  key_id : Nat
  key_secret : List Nat
deriving DecidableEq, Repr

instance : Inhabited EsaItem := ⟨⟨0, 0, 0, 0, []⟩⟩

/-- keychain_lookup over the process keychain list. -/
def keychain_lookup (env : List Keychain) (name : String) : Option Keychain :=
  env.find? (fun kc => kc.name == name)

/-- The bytes of a key secret actually used by the C code:
`strlen (key->string)` bytes starting at the string, i.e. the bytes before
the first NUL. -/
def keyBytes (k : Key) : List Nat := k.string.takeWhile (fun b => b ≠ 0)

/-- babel_esa_item_cmp: lexicographic compare on (major, minor). -/
def babel_esa_item_cmp (a b : EsaItem) : Int :=
  if a.sort_order_major < b.sort_order_major then -1
  else if a.sort_order_major > b.sort_order_major then 1
  else if a.sort_order_minor < b.sort_order_minor then -1
  else if a.sort_order_minor > b.sort_order_minor then 1
  else 0

/-- listnode_add_sort: insert before the first element comparing greater
(stable for ties). -/
def listnode_add_sort (e : EsaItem) : List EsaItem → List EsaItem
  | [] => [e]
  | x :: xs =>
    if babel_esa_item_cmp e x < 0 then e :: x :: xs else x :: listnode_add_sort e xs

/-- babel_esa_item_exists: a full duplicate shares hash_algo, key_id,
key length and key bytes. -/
def babel_esa_item_exists (l : List EsaItem) (algo keyId : Nat) (secret : List Nat) : Bool :=
  l.any (fun e => e.hash_algo == algo && e.key_id == keyId && e.key_secret == secret)

/-- Inner loop of babel_esalist_derive over one CSA's filtered key list.
`key_counter` advances only when a key is inserted: the duplicate branch
of the C code `continue`s before the `key_counter++`. -/
def deriveKeys (algo csaCounter : Nat) (keys : List Key) (keyCounter : Nat)
    (acc : List EsaItem) : List EsaItem :=
  match keys with
  | [] => acc
  | k :: rest =>
    if babel_esa_item_exists acc algo (k.index % 65536) (keyBytes k) then
      deriveKeys algo csaCounter rest keyCounter acc
    else
      deriveKeys algo csaCounter rest (keyCounter + 1)
        (listnode_add_sort ⟨keyCounter, csaCounter, algo, k.index % 65536, keyBytes k⟩ acc)

/-- Outer loop of babel_esalist_derive over the CSA list.  A CSA whose
keychain does not resolve is skipped by `continue`, which also skips the
`csa_counter++` at the bottom of the loop body. -/
def deriveCsas (env : List Keychain) (filterF : Keychain → Nat → List Key) (now : Nat) :
    List CsaItem → Nat → List EsaItem → List EsaItem
  | [], _, acc => acc
  | csa :: rest, csaCounter, acc =>
    match keychain_lookup env csa.keychain_name with
    | none => deriveCsas env filterF now rest csaCounter acc
    | some kc =>
      deriveCsas env filterF now rest (csaCounter + 1)
        (deriveKeys csa.hash_algo csaCounter (filterF kc now) 0 acc)

/-- babel_esalist_derive. -/
def babel_esalist_derive (env : List Keychain) (filterF : Keychain → Nat → List Key)
    (csalist : List CsaItem) (now : Nat) : List EsaItem :=
  deriveCsas env filterF now csalist 0 []

/-- Authentic-neighbors-memory record (struct babel_anm_item). -/
structure AnmRecord where
  address : List Nat
  ifindex : Nat
  last_recv : Nat
  last_pc : Nat
  last_ts : Nat
deriving DecidableEq, Repr

/-- babel_anm_lookup: first record with the given (address, interface). -/
def babel_anm_lookup (anml : List AnmRecord) (address : List Nat) (ifindex : Nat) :
    Option AnmRecord :=
  anml.find? (fun a => a.address == address && a.ifindex == ifindex)

/-- babel_anm_get followed by the three field writes of the success path of
babel_auth_check_packet: update the first matching record, or append a new
one (listnode_add appends at the tail). -/
def anmUpdate (anml : List AnmRecord) (address : List Nat) (ifindex : Nat)
    (pc ts now : Nat) : List AnmRecord :=
  match anml with
  | [] => [⟨address, ifindex, now, pc, ts⟩]
  | a :: rest =>
    if a.address == address && a.ifindex == ifindex then
      ⟨address, ifindex, now, pc, ts⟩ :: rest
    else a :: anmUpdate rest address ifindex pc ts now

/-- The (pc, ts) pair babel_auth_check_packet uses as the stored reference:
the ANM record's values, or (0, 0) when no record exists. -/
def storedPcTs (anml : List AnmRecord) (address : List Nat) (ifindex : Nat) : Nat × Nat :=
  match babel_anm_lookup anml address ifindex with
  | some a => (a.last_pc, a.last_ts)
  | none => (0, 0)

/-- Per-interface state visible to this subsystem (struct babel_interface
fields used by babel_auth.c). -/
structure BabelInterface where
  ifindex : Nat
  csalist : List CsaItem
  authrxreq : Bool
  auth_timestamp : Nat
  auth_packetcounter : Nat
deriving DecidableEq, Repr

/-- babel_auth_bump_tspc.  Under the UNIX base with `now > auth_timestamp`
the pair becomes (now, 0); otherwise control falls through into the ZERO
rule: the 16-bit packet counter is incremented, carrying into the 32-bit
timestamp on wrap.  Assignments to the u32/u16 fields reduce mod 2^32 and
2^16. -/
def babel_auth_bump_tspc (ts_base now ts pc : Nat) : Nat × Nat :=
  if ts_base = BABEL_TS_BASE_UNIX ∧ now > ts then (now % 4294967296, 0)
  else if ts_base = BABEL_TS_BASE_UNIX ∨ ts_base = BABEL_TS_BASE_ZERO then
    if (pc + 1) % 65536 = 0 then ((ts + 1) % 4294967296, (pc + 1) % 65536)
    else (ts, (pc + 1) % 65536)
  else (ts, pc)

/-- Result of babel_auth_check_tspc: the "stream getp" coordinate of the
accepted PC/TS value, or the failure kind (each failure bumps the matching
counter pair in the C code). -/
inductive TspcRes where
  | ok : Nat → TspcRes
  | badTspc : TspcRes
  | noTspc : TspcRes
deriving DecidableEq, Repr

theorem getc_snd_ge (d : List Nat) (p : Nat) : p ≤ (getc d p).2 := by
  unfold getc; split <;> simp

theorem getw_snd_ge (d : List Nat) (p : Nat) : p ≤ (getw d p).2 := by
  unfold getw; split <;> simp

theorem getl_snd_ge (d : List Nat) (p : Nat) : p ≤ (getl d p).2 := by
  unfold getl; split <;> simp

theorem forward_ge (d : List Nat) (p n : Nat) : p ≤ forward d p n := by
  unfold forward; split <;> simp

/-- TLV walk of babel_auth_check_tspc from cursor `p`.  Only the first
TS/PC TLV matters; PAD1 bytes are skipped one by one; other TLVs are
skipped by their length byte. -/
def checkTspcLoop (d : List Nat) (stor_pc stor_ts : Nat) (p : Nat) : TspcRes :=
  if h : p < d.length then
    if byteAt d p = MESSAGE_PAD1 then checkTspcLoop d stor_pc stor_ts (p + 1)
    else if byteAt d p ≠ MESSAGE_TSPC then
      checkTspcLoop d stor_pc stor_ts (forward d (getc d (p + 1)).2 (getc d (p + 1)).1)
    else if (getl d (getw d (getc d (p + 1)).2).2).1 > stor_ts ∨
            ((getl d (getw d (getc d (p + 1)).2).2).1 = stor_ts ∧
             (getw d (getc d (p + 1)).2).1 > stor_pc) then
      .ok ((getl d (getw d (getc d (p + 1)).2).2).2 - 6)
    else .badTspc
  else .noTspc
termination_by d.length - p
decreasing_by
  all_goals
    (try have h1 := getc_snd_ge d (p + 1));
    (try have h2 := forward_ge d (getc d (p + 1)).2 (getc d (p + 1)).1);
    omega

/-- babel_auth_check_tspc: the walk starts right after the 4-byte header. -/
def babel_auth_check_tspc (packet : List Nat) (stor_pc stor_ts : Nat) : TspcRes :=
  checkTspcLoop packet stor_pc stor_ts 4

/-- TLV walk of babel_auth_pad_packet from cursor `p`, emitting the padded
byte stream.  Non-HMAC TLVs are carried over verbatim (the C code forwards
the write cursor of a duplicate of the packet); the digest field of an
HMAC TLV is overwritten with the 16 sender address bytes followed by
zeros. -/
def padLoop (d addr : List Nat) (p : Nat) : List Nat :=
  if h : p < d.length then
    if byteAt d p = MESSAGE_PAD1 then byteAt d p :: padLoop d addr (p + 1)
    else if byteAt d p ≠ MESSAGE_HMAC then
      (d.drop p).take (2 + (getc d (p + 1)).1) ++
        padLoop d addr (forward d (getc d (p + 1)).2 (getc d (p + 1)).1)
    else
      (d.drop p).take 4 ++ addr ++ List.replicate ((getc d (p + 1)).1 - 18) 0 ++
        padLoop d addr (forward d (getc d (p + 1)).2 (getc d (p + 1)).1)
  else []
termination_by d.length - p
decreasing_by
  all_goals
    (try have h1 := getc_snd_ge d (p + 1));
    (try have h2 := forward_ge d (getc d (p + 1)).2 (getc d (p + 1)).1);
    omega

/-- babel_auth_pad_packet: header copied verbatim, then the TLV walk. -/
def babel_auth_pad_packet (packet addr : List Nat) : List Nat :=
  packet.take 4 ++ padLoop packet addr 4

/-- Result of babel_auth_try_hmac_tlvs, carrying the digests-done counter
after the call.  `err` is the internal-error exit (the hash primitive
failed; the C code returns MSG_NG after bumping internal_err). -/
inductive TryRes where
  | ok : Nat → TryRes
  | ng : Nat → TryRes
  | err : Nat → TryRes
deriving DecidableEq, Repr

/-- TLV walk of babel_auth_try_hmac_tlvs.  `localDigest` holds the local
digest once it has been computed (`got_local_digest` in the C code); the
computation happens lazily at the first HMAC TLV whose length and KeyID
fields fit the ESA, and bumps `done`. -/
def tryHmacLoop (hmacF : Nat → List Nat → List Nat → Option (List Nat))
    (d padded : List Nat) (esa_algo esa_key_id : Nat) (esa_key : List Nat)
    (p : Nat) (localDigest : Option (List Nat)) (done : Nat) : TryRes :=
  if h : p < d.length then
    if byteAt d p = MESSAGE_PAD1 then
      tryHmacLoop hmacF d padded esa_algo esa_key_id esa_key (p + 1) localDigest done
    else if byteAt d p ≠ MESSAGE_HMAC ∨
            (getc d (p + 1)).1 ≠ hash_digest_length esa_algo + 2 then
      tryHmacLoop hmacF d padded esa_algo esa_key_id esa_key
        (forward d (getc d (p + 1)).2 (getc d (p + 1)).1) localDigest done
    else if (getw d (getc d (p + 1)).2).1 ≠ esa_key_id then
      tryHmacLoop hmacF d padded esa_algo esa_key_id esa_key
        (forward d (getw d (getc d (p + 1)).2).2 ((getc d (p + 1)).1 - 2))
        localDigest done
    else
      match localDigest with
      | some L =>
        if (d.drop (getw d (getc d (p + 1)).2).2).take ((getc d (p + 1)).1 - 2) = L then
          .ok done
        else
          tryHmacLoop hmacF d padded esa_algo esa_key_id esa_key
            (forward d (getw d (getc d (p + 1)).2).2 ((getc d (p + 1)).1 - 2))
            (some L) done
      | none =>
        match hmacF esa_algo padded esa_key with
        | none => .err done
        | some L =>
          if (d.drop (getw d (getc d (p + 1)).2).2).take ((getc d (p + 1)).1 - 2) = L then
            .ok (done + 1)
          else
            tryHmacLoop hmacF d padded esa_algo esa_key_id esa_key
              (forward d (getw d (getc d (p + 1)).2).2 ((getc d (p + 1)).1 - 2))
              (some L) (done + 1)
  else .ng done
termination_by d.length - p
decreasing_by
  all_goals
    (try have h1 := getc_snd_ge d (p + 1));
    (try have h2 := forward_ge d (getc d (p + 1)).2 (getc d (p + 1)).1);
    (try have h3 := getw_snd_ge d (getc d (p + 1)).2);
    (try have h4 := forward_ge d (getw d (getc d (p + 1)).2).2 ((getc d (p + 1)).1 - 2));
    omega

/-- babel_auth_try_hmac_tlvs: the per-packet digest cap is checked on
entry, then the TLV walk starts after the 4-byte header with no local
digest computed yet. -/
def babel_auth_try_hmac_tlvs (hmacF : Nat → List Nat → List Nat → Option (List Nat))
    (d padded : List Nat) (esa : EsaItem) (done : Nat) : TryRes :=
  if done = BABEL_MAXDIGESTSIN then .ng done
  else tryHmacLoop hmacF d padded esa.hash_algo esa.key_id esa.key_secret 4 none done

/-- State of the ESA loop of babel_auth_check_packet: the result variable,
the digests-done counter, the number of internal-error exits of
babel_auth_try_hmac_tlvs, and the number of invocations of the HMAC
primitive (an instrumentation observable: every call of `hash_make_hmac`
either bumps `digests_done` or takes the error exit). -/
structure EsaLoopRes where
  result : Msg
  done : Nat
  errs : Nat
  inv : Nat
deriving DecidableEq, Repr

/-- The ESA loop of babel_auth_check_packet: try each ESA in order and
stop at the first MSG_OK; MSG_NG (including the internal-error exit)
continues with the next ESA. -/
def esaLoop (hmacF : Nat → List Nat → List Nat → Option (List Nat))
    (d padded : List Nat) : List EsaItem → Nat → EsaLoopRes
  | [], done => ⟨.ng, done, 0, 0⟩
  | e :: es, done =>
    match babel_auth_try_hmac_tlvs hmacF d padded e done with
    | .ok d2 => ⟨.ok, d2, 0, d2 - done⟩
    | .ng d2 =>
      let r := esaLoop hmacF d padded es d2
      ⟨r.result, r.done, r.errs, (d2 - done) + r.inv⟩
    | .err d2 =>
      let r := esaLoop hmacF d padded es d2
      ⟨r.result, r.done, 1 + r.errs, ((d2 - done) + 1) + r.inv⟩

/-- Observable outcome of babel_auth_check_packet: the returned value, the
internal `result` variable (MSG_OK exactly when an HMAC TLV matched), the
digest counters, the ANM list and both statistics pools after the call. -/
structure CheckResult where
  retval : Msg
  result : Msg
  digests_done : Nat
  hmac_invocations : Nat
  anmlist : List AnmRecord
  stats : Stats
  if_stats : Stats
deriving DecidableEq, Repr

/-- babel_auth_check_packet.  `env` is the process keychain list,
`keys_valid_for_acc` the accept-filter of lib/keychain, `hmacF` the HMAC
primitive (`none` = hash function error), `gstats`/`istats` the global and
per-interface statistics pools on entry. -/
def babel_auth_check_packet (env : List Keychain)
    (keys_valid_for_acc : Keychain → Nat → List Key)
    (hmacF : Nat → List Nat → List Nat → Option (List Nat))
    (ifp : BabelInterface) (anml : List AnmRecord) (gstats istats : Stats)
    (from_addr input : List Nat) (now : Nat) : CheckResult :=
  if ifp.csalist = [] then
    ⟨.ok, .ng, 0, 0, anml, bumpPlainRecv gstats, bumpPlainRecv istats⟩
  else
    let stored := storedPcTs anml from_addr ifp.ifindex
    match babel_auth_check_tspc input stored.1 stored.2 with
    | .noTspc =>
      ⟨if ifp.authrxreq then .ng else .ok, .ng, 0, 0, anml,
       bumpNoTspc gstats, bumpNoTspc istats⟩
    | .badTspc =>
      ⟨if ifp.authrxreq then .ng else .ok, .ng, 0, 0, anml,
       bumpNgTspc gstats, bumpNgTspc istats⟩
    | .ok tspc_getp =>
      let padded := babel_auth_pad_packet input from_addr
      let esalist := babel_esalist_derive env keys_valid_for_acc ifp.csalist now
      let gs1 := if esalist.isEmpty then bumpRecvNokeys gstats else gstats
      let is1 := if esalist.isEmpty then bumpRecvNokeys istats else istats
      let r := esaLoop hmacF input padded esalist 0
      let gs2 := addInternalErr r.errs gs1
      let is2 := addInternalErr r.errs is1
      if r.result = .ok then
        ⟨.ok, .ok, r.done, r.inv,
         anmUpdate anml from_addr ifp.ifindex (getwFrom input tspc_getp)
           (getlFrom input (tspc_getp + 2)) now,
         bumpRecvOk gs2, bumpRecvOk is2⟩
      else
        ⟨if ifp.authrxreq then .ng else .ok, .ng, r.done, r.inv, anml,
         bumpNgHmac gs2, bumpNgHmac is2⟩

/-- Truncate or zero-extend a digest to `n` bytes: the HMAC primitive
writes exactly `hash_digest_length[algo]` bytes into its result buffer, so
this is the identity whenever the primitive honours its contract. -/
def padTrunc (n : Nat) (L : List Nat) : List Nat :=
  L.take n ++ List.replicate (n - L.length) 0

/-- Placeholder HMAC TLV appended by babel_auth_make_packet before the
digests are computed: type, length, KeyID, then the 16 source address
bytes and zeros up to the digest length. -/
def placeholderTLV (addr : List Nat) (e : EsaItem) : List Nat :=
  MESSAGE_HMAC :: (2 + hash_digest_length e.hash_algo) :: be16 e.key_id ++ addr ++
    List.replicate (hash_digest_length e.hash_algo - 16) 0

/-- HMAC TLV after its digest has been filled in. -/
def digestTLV (e : EsaItem) (L : List Nat) : List Nat :=
  MESSAGE_HMAC :: (2 + hash_digest_length e.hash_algo) :: be16 e.key_id ++
    padTrunc (hash_digest_length e.hash_algo) L

/-- The digest-filling loop of babel_auth_make_packet: one HMAC over the
fixed padded image per ESA; the first hash error aborts the packet. -/
def fillDigests (hmacF : Nat → List Nat → List Nat → Option (List Nat))
    (msg : List Nat) : List EsaItem → Option (List (List Nat))
  | [] => some []
  | e :: es =>
    match hmacF e.hash_algo msg e.key_secret with
    | none => none
    | some L =>
      match fillDigests hmacF msg es with
      | none => none
      | some ls => some (L :: ls)

/-- Observable outcome of babel_auth_make_packet: the returned body length,
the caller's body buffer after the call, the per-interface send counters
and both statistics pools after the call. -/
structure MakeResult where
  retLen : Nat
  bodyOut : List Nat
  auth_timestamp : Nat
  auth_packetcounter : Nat
  stats : Stats
  if_stats : Stats
deriving DecidableEq, Repr

/-- The TS/PC TLV appended by babel_auth_make_packet (PC first, then TS). -/
def tspcTLV (pc ts : Nat) : List Nat := MESSAGE_TSPC :: 6 :: be16 pc ++ be32 ts

/-- Authenticated body length produced by babel_auth_make_packet: original
body, 8-byte TS/PC TLV and the appended HMAC TLVs (`new_body_len = endp -
4` in the C code). -/
def makeNewBodyLen (addr body : List Nat) (esasOut : List EsaItem) : Nat :=
  body.length + 8 + ((esasOut.map (placeholderTLV addr)).map List.length).sum

/-- The packet image hashed by babel_auth_make_packet: header with the
patched body length, original body, TS/PC TLV and placeholder HMAC TLVs.
The C code duplicates the stream after stream_putw_at, so every digest is
computed over this fixed image. -/
def makeAuthImage (addr body : List Nat) (pc ts : Nat) (esasOut : List EsaItem) :
    List Nat :=
  RTPROT_BABEL :: 2 :: be16 (makeNewBodyLen addr body esasOut % 65536) ++ body ++
    tspcTLV pc ts ++ (esasOut.map (placeholderTLV addr)).flatten

/-- The transmitted packet image after the digests have been written over
the placeholder regions. -/
def makeFinalImage (addr body : List Nat) (pc ts : Nat) (esasOut : List EsaItem)
    (ls : List (List Nat)) : List Nat :=
  RTPROT_BABEL :: 2 :: be16 (makeNewBodyLen addr body esasOut % 65536) ++ body ++
    tspcTLV pc ts ++ (List.zipWith digestTLV esasOut ls).flatten

/-- babel_auth_make_packet.  `addrOpt` is the link-local source address
found by babel_auth_got_source_address (`none` when the interface has no
link-local address).  The caller's buffer `body` is returned extended by
the appended TLVs exactly when authentication succeeded. -/
def babel_auth_make_packet (env : List Keychain)
    (keys_valid_for_snd : Keychain → Nat → List Key)
    (hmacF : Nat → List Nat → List Nat → Option (List Nat))
    (ts_base : Nat) (ifp : BabelInterface) (addrOpt : Option (List Nat))
    (body : List Nat) (now : Nat) (gstats istats : Stats) : MakeResult :=
  if ifp.csalist = [] then
    ⟨body.length, body, ifp.auth_timestamp, ifp.auth_packetcounter,
     bumpPlainSent gstats, bumpPlainSent istats⟩
  else
    match addrOpt with
    | none =>
      ⟨body.length, body, ifp.auth_timestamp, ifp.auth_packetcounter,
       bumpInternalErr gstats, bumpInternalErr istats⟩
    | some addr =>
      let esalist := babel_esalist_derive env keys_valid_for_snd ifp.csalist now
      let gs1 := if esalist.isEmpty then bumpSentNokeys gstats else gstats
      let is1 := if esalist.isEmpty then bumpSentNokeys istats else istats
      let tp := babel_auth_bump_tspc ts_base now ifp.auth_timestamp ifp.auth_packetcounter
      let esasOut := esalist.take BABEL_MAXDIGESTSOUT
      match fillDigests hmacF (makeAuthImage addr body tp.2 tp.1 esasOut) esasOut with
      | none =>
        ⟨body.length, body, tp.1, tp.2, bumpInternalErr gs1, bumpInternalErr is1⟩
      | some ls =>
        ⟨makeNewBodyLen addr body esasOut,
         body ++ (makeFinalImage addr body tp.2 tp.1 esasOut ls).drop (4 + body.length),
         tp.1, tp.2, bumpAuthSent gs1, bumpAuthSent is1⟩

/-! Toolkit: reading a serialized TLV stream through the cursor model. -/

theorem drop_cons_byteAt {d s : List Nat} {p x : Nat} (hd : d.drop p = x :: s) :
    byteAt d p = x := by
  have h0 : (d.drop p)[0]? = some x := by rw [hd]; simp
  rw [List.getElem?_drop] at h0
  simp only [byteAt, List.getD_eq_getElem?_getD]
  simp only [Nat.add_zero] at h0
  rw [h0]
  rfl

theorem drop_cons_succ {d s : List Nat} {p x : Nat} (hd : d.drop p = x :: s) :
    d.drop (p + 1) = s := by
  rw [← List.drop_drop, hd]
  rfl

theorem drop_cons_lt {d s : List Nat} {p x : Nat} (hd : d.drop p = x :: s) :
    p < d.length :=
  List.length_lt_of_drop_ne_nil (by rw [hd]; simp)

theorem drop_eq_len {d s : List Nat} {p : Nat} (hd : d.drop p = s) (hne : s ≠ []) :
    d.length = p + s.length := by
  have h1 : p < d.length := List.length_lt_of_drop_ne_nil (by rw [hd]; exact hne)
  have h2 := congrArg List.length hd
  rw [List.length_drop] at h2
  omega

theorem drop_append_shift {d a s : List Nat} {p : Nat} (hd : d.drop p = a ++ s) :
    d.drop (p + a.length) = s := by
  rw [← List.drop_drop, hd, List.drop_left]

theorem getc_eval {d s : List Nat} {p x : Nat} (hd : d.drop p = x :: s) :
    getc d p = (x, p + 1) := by
  have hb := drop_cons_byteAt hd
  have hl := drop_cons_lt hd
  unfold getc
  rw [if_pos (by omega), hb]

theorem getw_eval {d s : List Nat} {p a b : Nat} (hd : d.drop p = a :: b :: s) :
    getw d p = (256 * a + b, p + 2) := by
  have h0 := drop_cons_byteAt hd
  have h1 := drop_cons_byteAt (drop_cons_succ hd)
  have hl := drop_eq_len hd (by simp)
  unfold getw
  rw [if_pos (by simp at hl; omega), h0, h1]

theorem getl_eval {d s : List Nat} {p a b c e : Nat}
    (hd : d.drop p = a :: b :: c :: e :: s) :
    getl d p = (16777216 * a + 65536 * b + 256 * c + e, p + 4) := by
  have h0 := drop_cons_byteAt hd
  have h1 := drop_cons_byteAt (drop_cons_succ hd)
  have h2 := drop_cons_byteAt (drop_cons_succ (drop_cons_succ hd))
  have h3 := drop_cons_byteAt (drop_cons_succ (drop_cons_succ (drop_cons_succ hd)))
  have hl := drop_eq_len hd (by simp)
  unfold getl
  rw [if_pos (by simp at hl; omega), h0, h1, h2, h3]

theorem forward_eval {d s : List Nat} {p n : Nat} (hd : d.drop p = s)
    (hn : n ≤ s.length) : forward d p n = p + n := by
  rcases eq_or_ne s [] with rfl | hne
  · have hz : n = 0 := by simpa using hn
    subst hz
    unfold forward
    split <;> omega
  · have := drop_eq_len hd hne
    unfold forward
    rw [if_pos (by omega)]

theorem serializeTLVs_append (xs ys : List TLV) :
    serializeTLVs (xs ++ ys) = serializeTLVs xs ++ serializeTLVs ys := by
  induction xs with
  | nil => rfl
  | cons t r ih => simp [serializeTLVs, ih, List.append_assoc]

/-- The TS/PC acceptance condition of babel_auth_check_tspc, stated on the
TLV's values and the stored reference pair. -/
def tspcAccept (pc ts stor_pc stor_ts : Nat) : Prop :=
  ts > stor_ts ∨ (ts = stor_ts ∧ pc > stor_pc)

instance instDecTspcAccept (pc ts a b : Nat) : Decidable (tspcAccept pc ts a b) :=
  inferInstanceAs (Decidable (_ ∨ _))

theorem length_eq_six {v : List Nat} (h : v.length = 6) :
    ∃ b0 b1 b2 b3 b4 b5, v = [b0, b1, b2, b3, b4, b5] := by
  match v, h with
  | [b0, b1, b2, b3, b4, b5], _ => exact ⟨b0, b1, b2, b3, b4, b5, rfl⟩

/-- Behaviour of the babel_auth_check_tspc walk on a serialized well-formed
TLV stream: the first TS/PC TLV decides the result, and on acceptance the
returned cursor coordinate reads back the TLV's PC and TS fields. -/
theorem checkTspcLoop_serialized (stor_pc stor_ts : Nat) :
    ∀ (tlvs : List TLV) (d : List Nat) (p : Nat),
      (∀ t ∈ tlvs, wfTLV t) → d.drop p = serializeTLVs tlvs →
      (firstTspcPair tlvs = none → checkTspcLoop d stor_pc stor_ts p = .noTspc) ∧
      (∀ pc ts, firstTspcPair tlvs = some (pc, ts) →
        (tspcAccept pc ts stor_pc stor_ts →
          ∃ off, checkTspcLoop d stor_pc stor_ts p = .ok off ∧
            getwFrom d off = pc ∧ getlFrom d (off + 2) = ts) ∧
        (¬ tspcAccept pc ts stor_pc stor_ts →
          checkTspcLoop d stor_pc stor_ts p = .badTspc))
  | [], d, p, _, hd => by
    have hlen : d.length ≤ p := List.drop_eq_nil_iff.mp hd
    constructor
    · intro _
      unfold checkTspcLoop
      rw [dif_neg (by omega)]
    · intro pc ts h
      simp [firstTspcPair] at h
  | .pad1 :: rest, d, p, hwf, hd => by
    have hd' : d.drop p = MESSAGE_PAD1 :: serializeTLVs rest := hd
    have hb := drop_cons_byteAt hd'
    have hlt := drop_cons_lt hd'
    have ih := checkTspcLoop_serialized stor_pc stor_ts rest d (p + 1)
      (fun t ht => hwf t (List.mem_cons_of_mem _ ht)) (drop_cons_succ hd')
    have hstep : checkTspcLoop d stor_pc stor_ts p =
        checkTspcLoop d stor_pc stor_ts (p + 1) := by
      conv_lhs => rw [checkTspcLoop]
      rw [dif_pos hlt, hb, if_pos rfl]
    rw [show firstTspcPair (TLV.pad1 :: rest) = firstTspcPair rest from rfl, hstep]
    exact ih
  | .raw t v :: rest, d, p, hwf, hd => by
    have hwf0 : wfTLV (.raw t v) := hwf _ (List.mem_cons_self _ _)
    obtain ⟨ht0, _, _, _, htspc, _⟩ := hwf0
    have hd' : d.drop p = t :: v.length :: (v ++ serializeTLVs rest) := by
      simpa [serializeTLV, List.append_assoc] using hd
    have hb := drop_cons_byteAt hd'
    have hlt := drop_cons_lt hd'
    have hd1 : d.drop (p + 1) = v.length :: (v ++ serializeTLVs rest) :=
      drop_cons_succ hd'
    have hgc : getc d (p + 1) = (v.length, p + 2) := getc_eval hd1
    have hd2 : d.drop (p + 2) = v ++ serializeTLVs rest := by
      have := drop_cons_succ hd1
      simpa [Nat.add_assoc] using this
    by_cases htt : t = MESSAGE_TSPC
    · subst htt
      obtain ⟨b0, b1, b2, b3, b4, b5, hv⟩ := length_eq_six (htspc rfl)
      subst hv
      have hd2' : d.drop (p + 2) =
          b0 :: b1 :: b2 :: b3 :: b4 :: b5 :: serializeTLVs rest := by
        simpa using hd2
      have hgw : getw d (p + 2) = (256 * b0 + b1, p + 4) := getw_eval hd2'
      have hd4 : d.drop (p + 4) = b2 :: b3 :: b4 :: b5 :: serializeTLVs rest := by
        have := drop_cons_succ (drop_cons_succ hd2')
        simpa [Nat.add_assoc] using this
      have hgl : getl d (p + 4) =
          (16777216 * b2 + 65536 * b3 + 256 * b4 + b5, p + 8) := getl_eval hd4
      have hpcv : tlvPc [b0, b1, b2, b3, b4, b5] = 256 * b0 + b1 := rfl
      have htsv : tlvTs [b0, b1, b2, b3, b4, b5] =
          16777216 * b2 + 65536 * b3 + 256 * b4 + b5 := rfl
      have hfirst : firstTspcPair (TLV.raw MESSAGE_TSPC [b0, b1, b2, b3, b4, b5] :: rest) =
          some (256 * b0 + b1, 16777216 * b2 + 65536 * b3 + 256 * b4 + b5) := by
        simp [firstTspcPair, hpcv, htsv]
      constructor
      · intro h
        rw [hfirst] at h
        cases h
      · intro pc ts h
        rw [hfirst] at h
        injection h with h
        injection h with h1 h2
        subst h1; subst h2
        have hloop : checkTspcLoop d stor_pc stor_ts p =
            if (16777216 * b2 + 65536 * b3 + 256 * b4 + b5) > stor_ts ∨
               ((16777216 * b2 + 65536 * b3 + 256 * b4 + b5) = stor_ts ∧
                (256 * b0 + b1) > stor_pc)
            then .ok (p + 8 - 6) else .badTspc := by
          conv_lhs => rw [checkTspcLoop]
          rw [dif_pos hlt, hb, if_neg (by decide), if_neg (by simp)]
          simp only [hgc, hgw, hgl]
        constructor
        · intro hacc
          have hacc' : (16777216 * b2 + 65536 * b3 + 256 * b4 + b5) > stor_ts ∨
              ((16777216 * b2 + 65536 * b3 + 256 * b4 + b5) = stor_ts ∧
               (256 * b0 + b1) > stor_pc) := hacc
          refine ⟨p + 2, ?_, ?_, ?_⟩
          · rw [hloop, if_pos hacc']
            exact congrArg TspcRes.ok (by omega)
          · rw [getwFrom, getw_eval hd2']
          · rw [getlFrom, getl_eval hd4]
        · intro hrej
          have hrej' : ¬ ((16777216 * b2 + 65536 * b3 + 256 * b4 + b5) > stor_ts ∨
              ((16777216 * b2 + 65536 * b3 + 256 * b4 + b5) = stor_ts ∧
               (256 * b0 + b1) > stor_pc)) := hrej
          rw [hloop, if_neg hrej']
    · have hfwd : forward d (p + 2) v.length = p + 2 + v.length := by
        refine forward_eval hd2 (by simp)
      have hd3 : d.drop (p + 2 + v.length) = serializeTLVs rest := by
        have := drop_append_shift hd2
        simpa [Nat.add_assoc] using this
      have ih := checkTspcLoop_serialized stor_pc stor_ts rest d (p + 2 + v.length)
        (fun u hu => hwf u (List.mem_cons_of_mem _ hu)) hd3
      have hstep : checkTspcLoop d stor_pc stor_ts p =
          checkTspcLoop d stor_pc stor_ts (p + 2 + v.length) := by
        conv_lhs => rw [checkTspcLoop]
        rw [dif_pos hlt, hb, if_neg ht0, if_pos htt]
        simp only [hgc]
        rw [hfwd]
      have hfirst : firstTspcPair (TLV.raw t v :: rest) = firstTspcPair rest := by
        simp [firstTspcPair, htt]
      rw [hfirst, hstep]
      exact ih

/-- Padded image of one TLV, written from the spec's words (§4.2): every
TLV is copied verbatim except HMAC TLVs, whose type, length and key_id
bytes are copied verbatim and whose digest bytes are replaced by the 16
sender address bytes followed by zeros, `length - 2` bytes in total. -/
def padTLVspec (addr : List Nat) : TLV → List Nat
  | .pad1 => [MESSAGE_PAD1]
  | .raw t v =>
    if t = MESSAGE_HMAC then
      t :: v.length :: (v.take 2 ++ addr ++ List.replicate (v.length - 18) 0)
    else t :: v.length :: v

def padTLVsSpec (addr : List Nat) : List TLV → List Nat
  | [] => []
  | t :: r => padTLVspec addr t ++ padTLVsSpec addr r

theorem length_eq_two_add (v : List Nat) (h : 2 ≤ v.length) :
    ∃ v0 v1 v', v = v0 :: v1 :: v' := by
  match v, h with
  | v0 :: v1 :: v', _ => exact ⟨v0, v1, v', rfl⟩

/-- Behaviour of the babel_auth_pad_packet walk on a serialized well-formed
TLV stream: each TLV is transformed exactly as the spec's padding rule
describes. -/
theorem padLoop_serialized (addr : List Nat) :
    ∀ (tlvs : List TLV) (d : List Nat) (p : Nat),
      (∀ t ∈ tlvs, wfTLV t) → d.drop p = serializeTLVs tlvs →
      padLoop d addr p = padTLVsSpec addr tlvs
  | [], d, p, _, hd => by
    have hlen : d.length ≤ p := List.drop_eq_nil_iff.mp hd
    unfold padLoop
    rw [dif_neg (by omega)]
    rfl
  | .pad1 :: rest, d, p, hwf, hd => by
    have hd' : d.drop p = MESSAGE_PAD1 :: serializeTLVs rest := hd
    have hb := drop_cons_byteAt hd'
    have hlt := drop_cons_lt hd'
    have ih := padLoop_serialized addr rest d (p + 1)
      (fun t ht => hwf t (List.mem_cons_of_mem _ ht)) (drop_cons_succ hd')
    conv_lhs => rw [padLoop]
    rw [dif_pos hlt, hb, if_pos rfl, ih]
    rfl
  | .raw t v :: rest, d, p, hwf, hd => by
    have hwf0 : wfTLV (.raw t v) := hwf _ (List.mem_cons_self _ _)
    obtain ⟨ht0, _, _, _, _, hhm⟩ := hwf0
    have hd' : d.drop p = t :: v.length :: (v ++ serializeTLVs rest) := by
      simpa [serializeTLV, List.append_assoc] using hd
    have hb := drop_cons_byteAt hd'
    have hlt := drop_cons_lt hd'
    have hd1 : d.drop (p + 1) = v.length :: (v ++ serializeTLVs rest) :=
      drop_cons_succ hd'
    have hgc : getc d (p + 1) = (v.length, p + 2) := getc_eval hd1
    have hd2 : d.drop (p + 2) = v ++ serializeTLVs rest := by
      have := drop_cons_succ hd1
      simpa [Nat.add_assoc] using this
    have hfwd : forward d (p + 2) v.length = p + 2 + v.length := by
      refine forward_eval hd2 (by simp)
    have hd3 : d.drop (p + 2 + v.length) = serializeTLVs rest := by
      have := drop_append_shift hd2
      simpa [Nat.add_assoc] using this
    have ih := padLoop_serialized addr rest d (p + 2 + v.length)
      (fun u hu => hwf u (List.mem_cons_of_mem _ hu)) hd3
    have htake : (d.drop p).take (2 + v.length) = t :: v.length :: v := by
      rw [hd']
      have : t :: v.length :: (v ++ serializeTLVs rest) =
          (t :: v.length :: v) ++ serializeTLVs rest := by simp
      rw [this]
      exact List.take_left' (by simp only [List.length_cons]; omega)
    by_cases hh : t = MESSAGE_HMAC
    · subst hh
      obtain ⟨v0, v1, v', hv⟩ := length_eq_two_add v (by have := hhm rfl; omega)
      have htake4 : (d.drop p).take 4 =
          MESSAGE_HMAC :: v.length :: v.take 2 := by
        rw [hd', hv]
        rfl
      conv_lhs => rw [padLoop]
      rw [dif_pos hlt, hb, if_neg ht0, if_neg (by simp)]
      simp only [hgc]
      rw [hfwd, ih, htake4]
      simp [padTLVsSpec, padTLVspec, List.append_assoc]
    · conv_lhs => rw [padLoop]
      rw [dif_pos hlt, hb, if_neg ht0, if_pos hh]
      simp only [hgc]
      rw [hfwd, ih, htake]
      simp [padTLVsSpec, padTLVspec, hh, List.append_assoc]

/-- babel_auth_pad_packet on a well-formed serialized packet: header
verbatim, then the per-TLV padding rule. -/
theorem pad_packet_serialized (hdr addr : List Nat) (tlvs : List TLV)
    (hh : hdr.length = 4) (hwf : ∀ t ∈ tlvs, wfTLV t) :
    babel_auth_pad_packet (hdr ++ serializeTLVs tlvs) addr =
      hdr ++ padTLVsSpec addr tlvs := by
  unfold babel_auth_pad_packet
  rw [List.take_left' hh]
  congr 1
  exact padLoop_serialized addr tlvs _ 4 hwf (by rw [← hh, List.drop_left])

/-- Digest fields of the HMAC TLVs of a structured packet whose length and
KeyID fields fit an ESA with hash algorithm `algo` and key id `kid` — the
TLVs babel_auth_try_hmac_tlvs compares against the local digest. -/
def hmacDigestsIn (algo kid : Nat) : List TLV → List (List Nat)
  | [] => []
  | .pad1 :: r => hmacDigestsIn algo kid r
  | .raw t v :: r =>
    if t = MESSAGE_HMAC ∧ v.length = hash_digest_length algo + 2 ∧ tlvKeyId v = kid then
      v.drop 2 :: hmacDigestsIn algo kid r
    else hmacDigestsIn algo kid r

theorem hash_digest_length_ge (algo : Nat) : 16 ≤ hash_digest_length algo := by
  unfold hash_digest_length
  split
  · omega
  · split
    · omega
    · split <;> omega

theorem hash_digest_length_le (algo : Nat) : hash_digest_length algo ≤ 64 := by
  unfold hash_digest_length
  split
  · omega
  · split
    · omega
    · split <;> omega

/-- Behaviour of the babel_auth_try_hmac_tlvs walk once the local digest
has been computed: the walk succeeds exactly when some fitting HMAC TLV
carries the local digest, and never touches the done counter again. -/
theorem tryHmacLoop_serialized_some (hmacF : Nat → List Nat → List Nat → Option (List Nat))
    (padded : List Nat) (algo kid : Nat) (key L : List Nat) :
    ∀ (tlvs : List TLV) (d : List Nat) (p done : Nat),
      (∀ t ∈ tlvs, wfTLV t) → d.drop p = serializeTLVs tlvs →
      tryHmacLoop hmacF d padded algo kid key p (some L) done =
        if L ∈ hmacDigestsIn algo kid tlvs then .ok done else .ng done
  | [], d, p, done, _, hd => by
    have hlen : d.length ≤ p := List.drop_eq_nil_iff.mp hd
    unfold tryHmacLoop
    rw [dif_neg (by omega)]
    simp [hmacDigestsIn]
  | .pad1 :: rest, d, p, done, hwf, hd => by
    have hd' : d.drop p = MESSAGE_PAD1 :: serializeTLVs rest := hd
    have hb := drop_cons_byteAt hd'
    have hlt := drop_cons_lt hd'
    have ih := tryHmacLoop_serialized_some hmacF padded algo kid key L rest d (p + 1) done
      (fun t ht => hwf t (List.mem_cons_of_mem _ ht)) (drop_cons_succ hd')
    conv_lhs => rw [tryHmacLoop]
    rw [dif_pos hlt, hb, if_pos rfl, ih]
    rfl
  | .raw t v :: rest, d, p, done, hwf, hd => by
    have hwf0 : wfTLV (.raw t v) := hwf _ (List.mem_cons_self _ _)
    obtain ⟨ht0, _, _, _, _, hhm⟩ := hwf0
    have hd' : d.drop p = t :: v.length :: (v ++ serializeTLVs rest) := by
      simpa [serializeTLV, List.append_assoc] using hd
    have hb := drop_cons_byteAt hd'
    have hlt := drop_cons_lt hd'
    have hd1 : d.drop (p + 1) = v.length :: (v ++ serializeTLVs rest) :=
      drop_cons_succ hd'
    have hgc : getc d (p + 1) = (v.length, p + 2) := getc_eval hd1
    have hd2 : d.drop (p + 2) = v ++ serializeTLVs rest := by
      have := drop_cons_succ hd1
      simpa [Nat.add_assoc] using this
    have hd3 : d.drop (p + 2 + v.length) = serializeTLVs rest := by
      have := drop_append_shift hd2
      simpa [Nat.add_assoc] using this
    have ih := tryHmacLoop_serialized_some hmacF padded algo kid key L rest d
      (p + 2 + v.length) done
      (fun u hu => hwf u (List.mem_cons_of_mem _ hu)) hd3
    by_cases hmatch : t = MESSAGE_HMAC ∧ v.length = hash_digest_length algo + 2
    · obtain ⟨hth, hvl⟩ := hmatch
      subst hth
      obtain ⟨v0, v1, v', hv⟩ := length_eq_two_add v
        (by have := hash_digest_length_ge algo; omega)
      have hd2' : d.drop (p + 2) = v0 :: v1 :: (v' ++ serializeTLVs rest) := by
        rw [hd2, hv]
        simp
      have hgw : getw d (p + 2) = (256 * v0 + v1, p + 4) := getw_eval hd2'
      have hd4 : d.drop (p + 4) = v' ++ serializeTLVs rest := by
        have := drop_cons_succ (drop_cons_succ hd2')
        simpa [Nat.add_assoc] using this
      have hv'len : v'.length = v.length - 2 := by
        rw [hv]; simp
      have hfwd : forward d (p + 4) (v.length - 2) = p + 2 + v.length := by
        have h1 : forward d (p + 4) (v.length - 2) = p + 4 + (v.length - 2) :=
          forward_eval hd4 (by simp [hv'len])
        have h2 : 2 ≤ v.length := by rw [hv]; simp
        omega
      have hslice : (d.drop (p + 4)).take (v.length - 2) = v.drop 2 := by
        rw [hd4, ← hv'len, List.take_left, hv]
        rfl
      have hkid : tlvKeyId v = 256 * v0 + v1 := by
        rw [hv]; rfl
      have hcond2 : ¬ (MESSAGE_HMAC ≠ MESSAGE_HMAC ∨
          v.length ≠ hash_digest_length algo + 2) := by
        simp [hvl]
      by_cases hk : 256 * v0 + v1 = kid
      · have hcond3 : ¬ (256 * v0 + v1 ≠ kid) := by simpa using hk
        have hdig : hmacDigestsIn algo kid (TLV.raw MESSAGE_HMAC v :: rest) =
            v.drop 2 :: hmacDigestsIn algo kid rest := by
          simp only [hmacDigestsIn]
          rw [if_pos ⟨trivial, hvl, by rw [hkid]; exact hk⟩]
        have hred : tryHmacLoop hmacF d padded algo kid key p (some L) done =
            if v.drop 2 = L then .ok done
            else tryHmacLoop hmacF d padded algo kid key (p + 2 + v.length) (some L) done := by
          conv_lhs => rw [tryHmacLoop]
          rw [dif_pos hlt, hb, if_neg ht0]
          simp only [hgc, hgw, hslice, hfwd]
          rw [if_neg hcond2, if_neg hcond3]
        rw [hred, hdig]
        by_cases hLeq : v.drop 2 = L
        · rw [if_pos hLeq, if_pos (by rw [← hLeq]; exact List.mem_cons_self _ _)]
        · rw [if_neg hLeq, ih]
          by_cases hLmem : L ∈ hmacDigestsIn algo kid rest
          · rw [if_pos hLmem, if_pos (List.mem_cons_of_mem _ hLmem)]
          · rw [if_neg hLmem, if_neg (by
              intro hc
              rcases List.mem_cons.mp hc with hc | hc
              · exact hLeq hc.symm
              · exact hLmem hc)]
      · have hcond3 : (256 * v0 + v1 ≠ kid) := hk
        have hdig : hmacDigestsIn algo kid (TLV.raw MESSAGE_HMAC v :: rest) =
            hmacDigestsIn algo kid rest := by
          simp only [hmacDigestsIn]
          rw [if_neg (by rw [hkid]; tauto)]
        have hred : tryHmacLoop hmacF d padded algo kid key p (some L) done =
            tryHmacLoop hmacF d padded algo kid key (p + 2 + v.length) (some L) done := by
          conv_lhs => rw [tryHmacLoop]
          rw [dif_pos hlt, hb, if_neg ht0]
          simp only [hgc, hgw, hfwd]
          rw [if_neg hcond2, if_pos hcond3]
        rw [hred, ih, hdig]
    · have hfwd : forward d (p + 2) v.length = p + 2 + v.length := by
        refine forward_eval hd2 (by simp)
      have hdig : hmacDigestsIn algo kid (TLV.raw t v :: rest) =
          hmacDigestsIn algo kid rest := by
        simp only [hmacDigestsIn]
        rw [if_neg (by tauto)]
      have hcond2 : (byteAt d p ≠ MESSAGE_HMAC ∨
          v.length ≠ hash_digest_length algo + 2) := by
        rw [hb]
        by_cases h1 : t = MESSAGE_HMAC
        · right
          intro h2
          exact hmatch ⟨h1, h2⟩
        · left
          exact h1
      have hred : tryHmacLoop hmacF d padded algo kid key p (some L) done =
          tryHmacLoop hmacF d padded algo kid key (p + 2 + v.length) (some L) done := by
        conv_lhs => rw [tryHmacLoop]
        rw [dif_pos hlt]
        rw [if_neg (by rw [hb]; exact ht0)]
        simp only [hgc, hfwd]
        rw [if_pos hcond2]
      rw [hred, ih, hdig]

/-- Behaviour of the babel_auth_try_hmac_tlvs walk before any local digest
has been computed, when the HMAC primitive fails: with no fitting HMAC TLV
the walk fails without computing anything; otherwise the hash error is the
internal-error exit, with done untouched. -/
theorem tryHmacLoop_serialized_none_err
    (hmacF : Nat → List Nat → List Nat → Option (List Nat))
    (padded : List Nat) (algo kid : Nat) (key : List Nat)
    (hres : hmacF algo padded key = none) :
    ∀ (tlvs : List TLV) (d : List Nat) (p done : Nat),
      (∀ t ∈ tlvs, wfTLV t) → d.drop p = serializeTLVs tlvs →
      tryHmacLoop hmacF d padded algo kid key p none done =
        if hmacDigestsIn algo kid tlvs = [] then .ng done else .err done
  | [], d, p, done, _, hd => by
    have hlen : d.length ≤ p := List.drop_eq_nil_iff.mp hd
    unfold tryHmacLoop
    rw [dif_neg (by omega)]
    simp [hmacDigestsIn]
  | .pad1 :: rest, d, p, done, hwf, hd => by
    have hd' : d.drop p = MESSAGE_PAD1 :: serializeTLVs rest := hd
    have hb := drop_cons_byteAt hd'
    have hlt := drop_cons_lt hd'
    have ih := tryHmacLoop_serialized_none_err hmacF padded algo kid key hres rest d
      (p + 1) done (fun t ht => hwf t (List.mem_cons_of_mem _ ht)) (drop_cons_succ hd')
    conv_lhs => rw [tryHmacLoop]
    rw [dif_pos hlt, hb, if_pos rfl, ih]
    rfl
  | .raw t v :: rest, d, p, done, hwf, hd => by
    have hwf0 : wfTLV (.raw t v) := hwf _ (List.mem_cons_self _ _)
    obtain ⟨ht0, _, _, _, _, hhm⟩ := hwf0
    have hd' : d.drop p = t :: v.length :: (v ++ serializeTLVs rest) := by
      simpa [serializeTLV, List.append_assoc] using hd
    have hb := drop_cons_byteAt hd'
    have hlt := drop_cons_lt hd'
    have hd1 : d.drop (p + 1) = v.length :: (v ++ serializeTLVs rest) :=
      drop_cons_succ hd'
    have hgc : getc d (p + 1) = (v.length, p + 2) := getc_eval hd1
    have hd2 : d.drop (p + 2) = v ++ serializeTLVs rest := by
      have := drop_cons_succ hd1
      simpa [Nat.add_assoc] using this
    have hd3 : d.drop (p + 2 + v.length) = serializeTLVs rest := by
      have := drop_append_shift hd2
      simpa [Nat.add_assoc] using this
    have hwfrest : ∀ u ∈ rest, wfTLV u := fun u hu => hwf u (List.mem_cons_of_mem _ hu)
    have ih := tryHmacLoop_serialized_none_err hmacF padded algo kid key hres rest d
      (p + 2 + v.length) done hwfrest hd3
    by_cases hmatch : t = MESSAGE_HMAC ∧ v.length = hash_digest_length algo + 2
    · obtain ⟨hth, hvl⟩ := hmatch
      subst hth
      obtain ⟨v0, v1, v', hv⟩ := length_eq_two_add v
        (by have := hash_digest_length_ge algo; omega)
      have hd2' : d.drop (p + 2) = v0 :: v1 :: (v' ++ serializeTLVs rest) := by
        rw [hd2, hv]
        simp
      have hgw : getw d (p + 2) = (256 * v0 + v1, p + 4) := getw_eval hd2'
      have hd4 : d.drop (p + 4) = v' ++ serializeTLVs rest := by
        have := drop_cons_succ (drop_cons_succ hd2')
        simpa [Nat.add_assoc] using this
      have hv'len : v'.length = v.length - 2 := by
        rw [hv]; simp
      have hfwd : forward d (p + 4) (v.length - 2) = p + 2 + v.length := by
        have h1 : forward d (p + 4) (v.length - 2) = p + 4 + (v.length - 2) :=
          forward_eval hd4 (by simp [hv'len])
        have h2 : 2 ≤ v.length := by rw [hv]; simp
        omega
      have hkid : tlvKeyId v = 256 * v0 + v1 := by
        rw [hv]; rfl
      have hcond2 : ¬ (MESSAGE_HMAC ≠ MESSAGE_HMAC ∨
          v.length ≠ hash_digest_length algo + 2) := by
        simp [hvl]
      by_cases hk : 256 * v0 + v1 = kid
      · have hcond3 : ¬ (256 * v0 + v1 ≠ kid) := by simpa using hk
        have hdig : hmacDigestsIn algo kid (TLV.raw MESSAGE_HMAC v :: rest) =
            v.drop 2 :: hmacDigestsIn algo kid rest := by
          simp only [hmacDigestsIn]
          rw [if_pos ⟨trivial, hvl, by rw [hkid]; exact hk⟩]
        have hred : tryHmacLoop hmacF d padded algo kid key p none done = .err done := by
          conv_lhs => rw [tryHmacLoop]
          rw [dif_pos hlt, hb, if_neg ht0]
          simp only [hgc, hgw, hfwd, hres]
          rw [if_neg hcond2, if_neg hcond3]
        have hne : (v.drop 2 :: hmacDigestsIn algo kid rest) ≠ [] := by simp
        rw [hred, hdig, if_neg hne]
      · have hcond3 : (256 * v0 + v1 ≠ kid) := hk
        have hdig : hmacDigestsIn algo kid (TLV.raw MESSAGE_HMAC v :: rest) =
            hmacDigestsIn algo kid rest := by
          simp only [hmacDigestsIn]
          rw [if_neg (by rw [hkid]; tauto)]
        have hred : tryHmacLoop hmacF d padded algo kid key p none done =
            tryHmacLoop hmacF d padded algo kid key (p + 2 + v.length) none done := by
          conv_lhs => rw [tryHmacLoop]
          rw [dif_pos hlt, hb, if_neg ht0]
          simp only [hgc, hgw, hfwd]
          rw [if_neg hcond2, if_pos hcond3]
        rw [hred, ih, hdig]
    · have hfwd : forward d (p + 2) v.length = p + 2 + v.length := by
        refine forward_eval hd2 (by simp)
      have hdig : hmacDigestsIn algo kid (TLV.raw t v :: rest) =
          hmacDigestsIn algo kid rest := by
        simp only [hmacDigestsIn]
        rw [if_neg (by tauto)]
      have hcond2 : (byteAt d p ≠ MESSAGE_HMAC ∨
          v.length ≠ hash_digest_length algo + 2) := by
        rw [hb]
        by_cases h1 : t = MESSAGE_HMAC
        · right
          intro h2
          exact hmatch ⟨h1, h2⟩
        · left
          exact h1
      have hred : tryHmacLoop hmacF d padded algo kid key p none done =
          tryHmacLoop hmacF d padded algo kid key (p + 2 + v.length) none done := by
        conv_lhs => rw [tryHmacLoop]
        rw [dif_pos hlt]
        rw [if_neg (by rw [hb]; exact ht0)]
        simp only [hgc, hfwd]
        rw [if_pos hcond2]
      rw [hred, ih, hdig]

/-- Behaviour of the babel_auth_try_hmac_tlvs walk before any local digest
has been computed, when the HMAC primitive returns digest `L`: with no
fitting HMAC TLV the walk fails without computing anything; otherwise one
local digest is computed (bumping done) and the walk succeeds exactly when
some fitting TLV carries `L`. -/
theorem tryHmacLoop_serialized_none_some
    (hmacF : Nat → List Nat → List Nat → Option (List Nat))
    (padded : List Nat) (algo kid : Nat) (key L : List Nat)
    (hres : hmacF algo padded key = some L) :
    ∀ (tlvs : List TLV) (d : List Nat) (p done : Nat),
      (∀ t ∈ tlvs, wfTLV t) → d.drop p = serializeTLVs tlvs →
      tryHmacLoop hmacF d padded algo kid key p none done =
        if hmacDigestsIn algo kid tlvs = [] then .ng done
        else if L ∈ hmacDigestsIn algo kid tlvs then .ok (done + 1)
        else .ng (done + 1)
  | [], d, p, done, _, hd => by
    have hlen : d.length ≤ p := List.drop_eq_nil_iff.mp hd
    unfold tryHmacLoop
    rw [dif_neg (by omega)]
    simp [hmacDigestsIn]
  | .pad1 :: rest, d, p, done, hwf, hd => by
    have hd' : d.drop p = MESSAGE_PAD1 :: serializeTLVs rest := hd
    have hb := drop_cons_byteAt hd'
    have hlt := drop_cons_lt hd'
    have ih := tryHmacLoop_serialized_none_some hmacF padded algo kid key L hres rest d
      (p + 1) done (fun t ht => hwf t (List.mem_cons_of_mem _ ht)) (drop_cons_succ hd')
    conv_lhs => rw [tryHmacLoop]
    rw [dif_pos hlt, hb, if_pos rfl, ih]
    rfl
  | .raw t v :: rest, d, p, done, hwf, hd => by
    have hwf0 : wfTLV (.raw t v) := hwf _ (List.mem_cons_self _ _)
    obtain ⟨ht0, _, _, _, _, hhm⟩ := hwf0
    have hd' : d.drop p = t :: v.length :: (v ++ serializeTLVs rest) := by
      simpa [serializeTLV, List.append_assoc] using hd
    have hb := drop_cons_byteAt hd'
    have hlt := drop_cons_lt hd'
    have hd1 : d.drop (p + 1) = v.length :: (v ++ serializeTLVs rest) :=
      drop_cons_succ hd'
    have hgc : getc d (p + 1) = (v.length, p + 2) := getc_eval hd1
    have hd2 : d.drop (p + 2) = v ++ serializeTLVs rest := by
      have := drop_cons_succ hd1
      simpa [Nat.add_assoc] using this
    have hd3 : d.drop (p + 2 + v.length) = serializeTLVs rest := by
      have := drop_append_shift hd2
      simpa [Nat.add_assoc] using this
    have hwfrest : ∀ u ∈ rest, wfTLV u := fun u hu => hwf u (List.mem_cons_of_mem _ hu)
    have ih := tryHmacLoop_serialized_none_some hmacF padded algo kid key L hres rest d
      (p + 2 + v.length) done hwfrest hd3
    by_cases hmatch : t = MESSAGE_HMAC ∧ v.length = hash_digest_length algo + 2
    · obtain ⟨hth, hvl⟩ := hmatch
      subst hth
      obtain ⟨v0, v1, v', hv⟩ := length_eq_two_add v
        (by have := hash_digest_length_ge algo; omega)
      have hd2' : d.drop (p + 2) = v0 :: v1 :: (v' ++ serializeTLVs rest) := by
        rw [hd2, hv]
        simp
      have hgw : getw d (p + 2) = (256 * v0 + v1, p + 4) := getw_eval hd2'
      have hd4 : d.drop (p + 4) = v' ++ serializeTLVs rest := by
        have := drop_cons_succ (drop_cons_succ hd2')
        simpa [Nat.add_assoc] using this
      have hv'len : v'.length = v.length - 2 := by
        rw [hv]; simp
      have hfwd : forward d (p + 4) (v.length - 2) = p + 2 + v.length := by
        have h1 : forward d (p + 4) (v.length - 2) = p + 4 + (v.length - 2) :=
          forward_eval hd4 (by simp [hv'len])
        have h2 : 2 ≤ v.length := by rw [hv]; simp
        omega
      have hslice : (d.drop (p + 4)).take (v.length - 2) = v.drop 2 := by
        rw [hd4, ← hv'len, List.take_left, hv]
        rfl
      have hkid : tlvKeyId v = 256 * v0 + v1 := by
        rw [hv]; rfl
      have hcond2 : ¬ (MESSAGE_HMAC ≠ MESSAGE_HMAC ∨
          v.length ≠ hash_digest_length algo + 2) := by
        simp [hvl]
      by_cases hk : 256 * v0 + v1 = kid
      · have hcond3 : ¬ (256 * v0 + v1 ≠ kid) := by simpa using hk
        have hdig : hmacDigestsIn algo kid (TLV.raw MESSAGE_HMAC v :: rest) =
            v.drop 2 :: hmacDigestsIn algo kid rest := by
          simp only [hmacDigestsIn]
          rw [if_pos ⟨trivial, hvl, by rw [hkid]; exact hk⟩]
        have hred : tryHmacLoop hmacF d padded algo kid key p none done =
            if v.drop 2 = L then .ok (done + 1)
            else tryHmacLoop hmacF d padded algo kid key (p + 2 + v.length)
              (some L) (done + 1) := by
          conv_lhs => rw [tryHmacLoop]
          rw [dif_pos hlt, hb, if_neg ht0]
          simp only [hgc, hgw, hslice, hfwd, hres]
          rw [if_neg hcond2, if_neg hcond3]
        have hne : (v.drop 2 :: hmacDigestsIn algo kid rest) ≠ [] := by simp
        rw [hred, hdig, if_neg hne]
        by_cases hLeq : v.drop 2 = L
        · rw [if_pos hLeq, if_pos (by rw [← hLeq]; exact List.mem_cons_self _ _)]
        · rw [if_neg hLeq]
          rw [tryHmacLoop_serialized_some hmacF padded algo kid key L rest d
            (p + 2 + v.length) (done + 1) hwfrest hd3]
          by_cases hLmem : L ∈ hmacDigestsIn algo kid rest
          · rw [if_pos hLmem, if_pos (List.mem_cons_of_mem _ hLmem)]
          · rw [if_neg hLmem, if_neg (by
              intro hc
              rcases List.mem_cons.mp hc with hc | hc
              · exact hLeq hc.symm
              · exact hLmem hc)]
      · have hcond3 : (256 * v0 + v1 ≠ kid) := hk
        have hdig : hmacDigestsIn algo kid (TLV.raw MESSAGE_HMAC v :: rest) =
            hmacDigestsIn algo kid rest := by
          simp only [hmacDigestsIn]
          rw [if_neg (by rw [hkid]; tauto)]
        have hred : tryHmacLoop hmacF d padded algo kid key p none done =
            tryHmacLoop hmacF d padded algo kid key (p + 2 + v.length) none done := by
          conv_lhs => rw [tryHmacLoop]
          rw [dif_pos hlt, hb, if_neg ht0]
          simp only [hgc, hgw, hfwd]
          rw [if_neg hcond2, if_pos hcond3]
        rw [hred, ih, hdig]
    · have hfwd : forward d (p + 2) v.length = p + 2 + v.length := by
        refine forward_eval hd2 (by simp)
      have hdig : hmacDigestsIn algo kid (TLV.raw t v :: rest) =
          hmacDigestsIn algo kid rest := by
        simp only [hmacDigestsIn]
        rw [if_neg (by tauto)]
      have hcond2 : (byteAt d p ≠ MESSAGE_HMAC ∨
          v.length ≠ hash_digest_length algo + 2) := by
        rw [hb]
        by_cases h1 : t = MESSAGE_HMAC
        · right
          intro h2
          exact hmatch ⟨h1, h2⟩
        · left
          exact h1
      have hred : tryHmacLoop hmacF d padded algo kid key p none done =
          tryHmacLoop hmacF d padded algo kid key (p + 2 + v.length) none done := by
        conv_lhs => rw [tryHmacLoop]
        rw [dif_pos hlt]
        rw [if_neg (by rw [hb]; exact ht0)]
        simp only [hgc, hfwd]
        rw [if_pos hcond2]
      rw [hred, ih, hdig]

/-- Digests-done counter carried by a TryRes. -/
def doneOf : TryRes → Nat
  | .ok n => n
  | .ng n => n
  | .err n => n

/-- Whether a TryRes is the internal-error exit. -/
def isErrR : TryRes → Bool
  | .err _ => true
  | _ => false

/-- Counter accounting of the babel_auth_try_hmac_tlvs walk on arbitrary
input bytes: the done counter never decreases, grows by at most one (and
only when no local digest had been computed yet), and the error exit
leaves it untouched and can only happen before a digest was computed. -/
theorem tryHmacLoop_done_bounds (hmacF : Nat → List Nat → List Nat → Option (List Nat))
    (d padded : List Nat) (algo kid : Nat) (key : List Nat) (p : Nat)
    (ld : Option (List Nat)) (done : Nat) :
    done ≤ doneOf (tryHmacLoop hmacF d padded algo kid key p ld done) ∧
    doneOf (tryHmacLoop hmacF d padded algo kid key p ld done) ≤
      done + (if ld = none then 1 else 0) ∧
    (ld ≠ none → doneOf (tryHmacLoop hmacF d padded algo kid key p ld done) = done) ∧
    (isErrR (tryHmacLoop hmacF d padded algo kid key p ld done) = true →
      doneOf (tryHmacLoop hmacF d padded algo kid key p ld done) = done ∧ ld = none) := by
  induction p, ld, done using tryHmacLoop.induct hmacF d padded algo kid key
  case case1 p ld done h1 h2 ih =>
    have hstep : tryHmacLoop hmacF d padded algo kid key p ld done =
        tryHmacLoop hmacF d padded algo kid key (p + 1) ld done := by
      conv_lhs => rw [tryHmacLoop.eq_def]
      rw [dif_pos h1, if_pos h2]
    rw [hstep]
    exact ih
  case case2 p ld done h1 h2 h3 ih =>
    have hstep : tryHmacLoop hmacF d padded algo kid key p ld done =
        tryHmacLoop hmacF d padded algo kid key
          (forward d (getc d (p + 1)).2 (getc d (p + 1)).1) ld done := by
      conv_lhs => rw [tryHmacLoop.eq_def]
      rw [dif_pos h1, if_neg h2, if_pos h3]
    rw [hstep]
    exact ih
  case case3 p ld done h1 h2 h3 h4 ih =>
    have hstep : tryHmacLoop hmacF d padded algo kid key p ld done =
        tryHmacLoop hmacF d padded algo kid key
          (forward d (getw d (getc d (p + 1)).2).2 ((getc d (p + 1)).1 - 2)) ld done := by
      conv_lhs => rw [tryHmacLoop.eq_def]
      rw [dif_pos h1, if_neg h2, if_neg h3, if_pos h4]
    rw [hstep]
    exact ih
  case case4 p done h1 h2 h3 h4 =>
    have hstep : tryHmacLoop hmacF d padded algo kid key p
        (some ((d.drop (getw d (getc d (p + 1)).2).2).take ((getc d (p + 1)).1 - 2)))
        done = .ok done := by
      conv_lhs => rw [tryHmacLoop]
      rw [dif_pos h1, if_neg h2, if_neg h3, if_neg h4]
      simp
    rw [hstep]
    refine ⟨by simp [doneOf], by simp [doneOf], fun _ => by simp [doneOf],
      by simp [isErrR]⟩
  case case5 p done h1 h2 h3 h4 L h5 ih =>
    have hstep : tryHmacLoop hmacF d padded algo kid key p (some L) done =
        tryHmacLoop hmacF d padded algo kid key
          (forward d (getw d (getc d (p + 1)).2).2 ((getc d (p + 1)).1 - 2))
          (some L) done := by
      conv_lhs => rw [tryHmacLoop]
      rw [dif_pos h1, if_neg h2, if_neg h3, if_neg h4]
      simp [h5]
    rw [hstep]
    exact ih
  case case6 p done h1 h2 h3 h4 h5 =>
    have hstep : tryHmacLoop hmacF d padded algo kid key p none done = .err done := by
      conv_lhs => rw [tryHmacLoop]
      rw [dif_pos h1, if_neg h2, if_neg h3, if_neg h4]
      simp [h5]
    rw [hstep]
    refine ⟨by simp [doneOf], by simp [doneOf], by simp, fun _ => ⟨by simp [doneOf], rfl⟩⟩
  case case7 p done h1 h2 h3 h4 h5 =>
    have hstep : tryHmacLoop hmacF d padded algo kid key p none done =
        .ok (done + 1) := by
      conv_lhs => rw [tryHmacLoop]
      rw [dif_pos h1, if_neg h2, if_neg h3, if_neg h4]
      simp [h5]
    rw [hstep]
    refine ⟨by simp [doneOf], by simp [doneOf], by simp, by simp [isErrR]⟩
  case case8 p done h1 h2 h3 h4 L h5 h6 ih =>
    have hstep : tryHmacLoop hmacF d padded algo kid key p none done =
        tryHmacLoop hmacF d padded algo kid key
          (forward d (getw d (getc d (p + 1)).2).2 ((getc d (p + 1)).1 - 2))
          (some L) (done + 1) := by
      conv_lhs => rw [tryHmacLoop]
      rw [dif_pos h1, if_neg h2, if_neg h3, if_neg h4]
      simp [h5, h6]
    rw [hstep]
    obtain ⟨ha, hb', hc, hd''⟩ := ih
    refine ⟨by omega, by simp at hb' ⊢; omega, by simp, ?_⟩
    intro herr
    obtain ⟨_, hcontra⟩ := hd'' herr
    cases hcontra
  case case9 p ld done h1 =>
    have hstep : tryHmacLoop hmacF d padded algo kid key p ld done = .ng done := by
      rw [tryHmacLoop.eq_def, dif_neg h1]
    rw [hstep]
    refine ⟨by simp [doneOf], ?_, fun _ => by simp [doneOf], by simp [isErrR]⟩
    simp only [doneOf]
    split <;> omega

/-- With a total HMAC primitive the walk never takes the error exit. -/
theorem tryHmacLoop_no_err (hmacF : Nat → List Nat → List Nat → Option (List Nat))
    (d padded : List Nat) (algo kid : Nat) (key : List Nat)
    (htot : ∀ a m k, hmacF a m k ≠ none) (p : Nat) (ld : Option (List Nat)) (done : Nat) :
    isErrR (tryHmacLoop hmacF d padded algo kid key p ld done) = false := by
  induction p, ld, done using tryHmacLoop.induct hmacF d padded algo kid key
  case case1 p ld done h1 h2 ih =>
    have hstep : tryHmacLoop hmacF d padded algo kid key p ld done =
        tryHmacLoop hmacF d padded algo kid key (p + 1) ld done := by
      conv_lhs => rw [tryHmacLoop.eq_def]
      rw [dif_pos h1, if_pos h2]
    rw [hstep]
    exact ih
  case case2 p ld done h1 h2 h3 ih =>
    have hstep : tryHmacLoop hmacF d padded algo kid key p ld done =
        tryHmacLoop hmacF d padded algo kid key
          (forward d (getc d (p + 1)).2 (getc d (p + 1)).1) ld done := by
      conv_lhs => rw [tryHmacLoop.eq_def]
      rw [dif_pos h1, if_neg h2, if_pos h3]
    rw [hstep]
    exact ih
  case case3 p ld done h1 h2 h3 h4 ih =>
    have hstep : tryHmacLoop hmacF d padded algo kid key p ld done =
        tryHmacLoop hmacF d padded algo kid key
          (forward d (getw d (getc d (p + 1)).2).2 ((getc d (p + 1)).1 - 2)) ld done := by
      conv_lhs => rw [tryHmacLoop.eq_def]
      rw [dif_pos h1, if_neg h2, if_neg h3, if_pos h4]
    rw [hstep]
    exact ih
  case case4 p done h1 h2 h3 h4 =>
    have hstep : tryHmacLoop hmacF d padded algo kid key p
        (some ((d.drop (getw d (getc d (p + 1)).2).2).take ((getc d (p + 1)).1 - 2)))
        done = .ok done := by
      conv_lhs => rw [tryHmacLoop]
      rw [dif_pos h1, if_neg h2, if_neg h3, if_neg h4]
      simp
    rw [hstep]
    rfl
  case case5 p done h1 h2 h3 h4 L h5 ih =>
    have hstep : tryHmacLoop hmacF d padded algo kid key p (some L) done =
        tryHmacLoop hmacF d padded algo kid key
          (forward d (getw d (getc d (p + 1)).2).2 ((getc d (p + 1)).1 - 2))
          (some L) done := by
      conv_lhs => rw [tryHmacLoop]
      rw [dif_pos h1, if_neg h2, if_neg h3, if_neg h4]
      simp [h5]
    rw [hstep]
    exact ih
  case case6 p done h1 h2 h3 h4 h5 =>
    exact absurd h5 (htot _ _ _)
  case case7 p done h1 h2 h3 h4 h5 =>
    have hstep : tryHmacLoop hmacF d padded algo kid key p none done =
        .ok (done + 1) := by
      conv_lhs => rw [tryHmacLoop]
      rw [dif_pos h1, if_neg h2, if_neg h3, if_neg h4]
      simp [h5]
    rw [hstep]
    rfl
  case case8 p done h1 h2 h3 h4 L h5 h6 ih =>
    have hstep : tryHmacLoop hmacF d padded algo kid key p none done =
        tryHmacLoop hmacF d padded algo kid key
          (forward d (getw d (getc d (p + 1)).2).2 ((getc d (p + 1)).1 - 2))
          (some L) (done + 1) := by
      conv_lhs => rw [tryHmacLoop]
      rw [dif_pos h1, if_neg h2, if_neg h3, if_neg h4]
      simp [h5, h6]
    rw [hstep]
    exact ih
  case case9 p ld done h1 =>
    have hstep : tryHmacLoop hmacF d padded algo kid key p ld done = .ng done := by
      rw [tryHmacLoop.eq_def, dif_neg h1]
    rw [hstep]
    rfl

/-- Counter accounting of one babel_auth_try_hmac_tlvs call. -/
theorem try_hmac_tlvs_bounds (hmacF : Nat → List Nat → List Nat → Option (List Nat))
    (d padded : List Nat) (esa : EsaItem) (done : Nat) :
    done ≤ doneOf (babel_auth_try_hmac_tlvs hmacF d padded esa done) ∧
    doneOf (babel_auth_try_hmac_tlvs hmacF d padded esa done) ≤ done + 1 ∧
    (done = BABEL_MAXDIGESTSIN →
      babel_auth_try_hmac_tlvs hmacF d padded esa done = .ng done) ∧
    (isErrR (babel_auth_try_hmac_tlvs hmacF d padded esa done) = true →
      doneOf (babel_auth_try_hmac_tlvs hmacF d padded esa done) = done) := by
  unfold babel_auth_try_hmac_tlvs
  by_cases hm : done = BABEL_MAXDIGESTSIN
  · rw [if_pos hm]
    exact ⟨by simp [doneOf], by simp [doneOf], fun _ => rfl, by simp [doneOf]⟩
  · rw [if_neg hm]
    obtain ⟨h1, h2, _, h4⟩ := tryHmacLoop_done_bounds hmacF d padded esa.hash_algo
      esa.key_id esa.key_secret 4 none done
    exact ⟨h1, by simpa using h2, fun hc => absurd hc hm, fun hc => (h4 hc).1⟩

/-- With a total HMAC primitive babel_auth_try_hmac_tlvs never reports an
internal error. -/
theorem try_hmac_tlvs_no_err (hmacF : Nat → List Nat → List Nat → Option (List Nat))
    (d padded : List Nat) (esa : EsaItem) (done : Nat)
    (htot : ∀ a m k, hmacF a m k ≠ none) :
    isErrR (babel_auth_try_hmac_tlvs hmacF d padded esa done) = false := by
  unfold babel_auth_try_hmac_tlvs
  by_cases hm : done = BABEL_MAXDIGESTSIN
  · rw [if_pos hm]
    rfl
  · rw [if_neg hm]
    exact tryHmacLoop_no_err hmacF d padded esa.hash_algo esa.key_id esa.key_secret
      htot 4 none done

/-- The ESA loop performs at most one HMAC invocation per ESA. -/
theorem esaLoop_inv_le_length (hmacF : Nat → List Nat → List Nat → Option (List Nat))
    (d padded : List Nat) :
    ∀ (esas : List EsaItem) (done : Nat),
      (esaLoop hmacF d padded esas done).inv ≤ esas.length := by
  intro esas
  induction esas with
  | nil => intro done; simp [esaLoop]
  | cons e es ih =>
    intro done
    obtain ⟨hb1, hb2, _, hb4⟩ := try_hmac_tlvs_bounds hmacF d padded e done
    rw [esaLoop]
    rcases hcall : babel_auth_try_hmac_tlvs hmacF d padded e done with d2 | d2 | d2 <;>
      rw [hcall] at hb1 hb2 hb4 <;> simp only [doneOf] at hb1 hb2 hb4
    · simp only [List.length_cons]
      omega
    · have := ih d2
      simp only [List.length_cons]
      omega
    · have := ih d2
      have hde : d2 = done := hb4 rfl
      simp only [List.length_cons]
      omega

/-- With a total HMAC primitive the ESA loop performs at most
`BABEL_MAXDIGESTSIN - done` HMAC invocations and keeps the done counter
within the cap. -/
theorem esaLoop_inv_maxin (hmacF : Nat → List Nat → List Nat → Option (List Nat))
    (d padded : List Nat) (htot : ∀ a m k, hmacF a m k ≠ none) :
    ∀ (esas : List EsaItem) (done : Nat), done ≤ BABEL_MAXDIGESTSIN →
      (esaLoop hmacF d padded esas done).inv ≤ BABEL_MAXDIGESTSIN - done ∧
      done ≤ (esaLoop hmacF d padded esas done).done ∧
      (esaLoop hmacF d padded esas done).done ≤ BABEL_MAXDIGESTSIN := by
  intro esas
  induction esas with
  | nil => intro done hdone; simp [esaLoop]; omega
  | cons e es ih =>
    intro done hdone
    obtain ⟨hb1, hb2, hb3, _⟩ := try_hmac_tlvs_bounds hmacF d padded e done
    have hnoerr := try_hmac_tlvs_no_err hmacF d padded e done htot
    by_cases hm : done = BABEL_MAXDIGESTSIN
    · rw [esaLoop, hb3 hm]
      have := ih done hdone
      simp only []
      omega
    · rcases hcall : babel_auth_try_hmac_tlvs hmacF d padded e done with d2 | d2 | d2 <;>
        rw [hcall] at hb1 hb2 hnoerr <;> simp only [doneOf, isErrR] at hb1 hb2 hnoerr
      · rw [esaLoop, hcall]
        simp only []
        omega
      · rw [esaLoop, hcall]
        have := ih d2 (by omega)
        simp only []
        omega
      · cases hnoerr

/-- Specialization of the walk characterization to whole packets (the walk
of babel_auth_check_tspc starts at offset 4, after the header). -/
theorem check_tspc_packet (hdr : List Nat) (tlvs : List TLV) (stor_pc stor_ts : Nat)
    (hh : hdr.length = 4) (hwf : ∀ t ∈ tlvs, wfTLV t) :
    (firstTspcPair tlvs = none →
      babel_auth_check_tspc (hdr ++ serializeTLVs tlvs) stor_pc stor_ts = .noTspc) ∧
    (∀ pc ts, firstTspcPair tlvs = some (pc, ts) →
      (tspcAccept pc ts stor_pc stor_ts →
        ∃ off, babel_auth_check_tspc (hdr ++ serializeTLVs tlvs) stor_pc stor_ts = .ok off ∧
          getwFrom (hdr ++ serializeTLVs tlvs) off = pc ∧
          getlFrom (hdr ++ serializeTLVs tlvs) (off + 2) = ts) ∧
      (¬ tspcAccept pc ts stor_pc stor_ts →
        babel_auth_check_tspc (hdr ++ serializeTLVs tlvs) stor_pc stor_ts = .badTspc)) := by
  have hd : (hdr ++ serializeTLVs tlvs).drop 4 = serializeTLVs tlvs := by
    rw [← hh, List.drop_left]
  exact checkTspcLoop_serialized stor_pc stor_ts tlvs (hdr ++ serializeTLVs tlvs) 4 hwf hd

/-- The badTspc exit of babel_auth_check_packet. -/
theorem check_packet_badTspc (env : List Keychain) (kacc : Keychain → Nat → List Key)
    (hmacF : Nat → List Nat → List Nat → Option (List Nat))
    (ifp : BabelInterface) (anml : List AnmRecord) (gstats istats : Stats)
    (from_addr input : List Nat) (now : Nat)
    (hcs : ifp.csalist ≠ [])
    (h : babel_auth_check_tspc input (storedPcTs anml from_addr ifp.ifindex).1
      (storedPcTs anml from_addr ifp.ifindex).2 = .badTspc) :
    babel_auth_check_packet env kacc hmacF ifp anml gstats istats from_addr input now =
      ⟨if ifp.authrxreq then .ng else .ok, .ng, 0, 0, anml,
       bumpNgTspc gstats, bumpNgTspc istats⟩ := by
  unfold babel_auth_check_packet
  rw [if_neg hcs]
  simp only [h]

/-- The noTspc exit of babel_auth_check_packet. -/
theorem check_packet_noTspc (env : List Keychain) (kacc : Keychain → Nat → List Key)
    (hmacF : Nat → List Nat → List Nat → Option (List Nat))
    (ifp : BabelInterface) (anml : List AnmRecord) (gstats istats : Stats)
    (from_addr input : List Nat) (now : Nat)
    (hcs : ifp.csalist ≠ [])
    (h : babel_auth_check_tspc input (storedPcTs anml from_addr ifp.ifindex).1
      (storedPcTs anml from_addr ifp.ifindex).2 = .noTspc) :
    babel_auth_check_packet env kacc hmacF ifp anml gstats istats from_addr input now =
      ⟨if ifp.authrxreq then .ng else .ok, .ng, 0, 0, anml,
       bumpNoTspc gstats, bumpNoTspc istats⟩ := by
  unfold babel_auth_check_packet
  rw [if_neg hcs]
  simp only [h]

/-- Claim C2: the inbound checker accepts the first TS/PC TLV exactly when
`tlv_ts > last_ts` or `tlv_ts = last_ts` and `tlv_pc > last_pc`, where the
stored pair comes from the ANM record for (sender, interface) and defaults
to (0, 0); on failure `auth_recv_ng_tspc` is incremented in both the global
and the per-interface statistics pool, the ANM is untouched, and the check
returns NG exactly when `authrxreq` is set. -/
theorem tspc_acceptance_rule
    (env : List Keychain) (kacc : Keychain → Nat → List Key)
    (hmacF : Nat → List Nat → List Nat → Option (List Nat))
    (ifp : BabelInterface) (anml : List AnmRecord) (gstats istats : Stats)
    (from_addr hdr : List Nat) (tlvs : List TLV) (now pc ts : Nat)
    (hh : hdr.length = 4) (hwf : ∀ t ∈ tlvs, wfTLV t)
    (hcs : ifp.csalist ≠ [])
    (hfirst : firstTspcPair tlvs = some (pc, ts)) :
    ((∃ off, babel_auth_check_tspc (hdr ++ serializeTLVs tlvs)
        (storedPcTs anml from_addr ifp.ifindex).1
        (storedPcTs anml from_addr ifp.ifindex).2 = .ok off) ↔
      (ts > (storedPcTs anml from_addr ifp.ifindex).2 ∨
       (ts = (storedPcTs anml from_addr ifp.ifindex).2 ∧
        pc > (storedPcTs anml from_addr ifp.ifindex).1))) ∧
    (¬ (ts > (storedPcTs anml from_addr ifp.ifindex).2 ∨
        (ts = (storedPcTs anml from_addr ifp.ifindex).2 ∧
         pc > (storedPcTs anml from_addr ifp.ifindex).1)) →
      (babel_auth_check_packet env kacc hmacF ifp anml gstats istats from_addr
          (hdr ++ serializeTLVs tlvs) now).retval =
        (if ifp.authrxreq then Msg.ng else Msg.ok) ∧
      (babel_auth_check_packet env kacc hmacF ifp anml gstats istats from_addr
          (hdr ++ serializeTLVs tlvs) now).stats.auth_recv_ng_tspc =
        gstats.auth_recv_ng_tspc + 1 ∧
      (babel_auth_check_packet env kacc hmacF ifp anml gstats istats from_addr
          (hdr ++ serializeTLVs tlvs) now).if_stats.auth_recv_ng_tspc =
        istats.auth_recv_ng_tspc + 1 ∧
      (babel_auth_check_packet env kacc hmacF ifp anml gstats istats from_addr
          (hdr ++ serializeTLVs tlvs) now).anmlist = anml) := by
  obtain ⟨-, hsome⟩ := check_tspc_packet hdr tlvs
    (storedPcTs anml from_addr ifp.ifindex).1
    (storedPcTs anml from_addr ifp.ifindex).2 hh hwf
  obtain ⟨hacc, hrej⟩ := hsome pc ts hfirst
  constructor
  · constructor
    · rintro ⟨off, hoff⟩
      by_contra hc
      rw [hrej hc] at hoff
      cases hoff
    · intro hc
      obtain ⟨off, hoff, -, -⟩ := hacc hc
      exact ⟨off, hoff⟩
  · intro hc
    rw [check_packet_badTspc env kacc hmacF ifp anml gstats istats from_addr
      (hdr ++ serializeTLVs tlvs) now hcs (hrej hc)]
    exact ⟨rfl, rfl, rfl, rfl⟩

/-- Claim C10: a packet whose first TS/PC TLV carries (ts, pc) = (0, 0) is
never accepted by the TS/PC check — also from a fresh neighbor with no ANM
record — because the stored reference pair is never lexicographically
below (0, 0); in required mode the check returns NG and bumps
`auth_recv_ng_tspc` in both pools, leaving the ANM unchanged. -/
theorem zero_tspc_never_accepted
    (env : List Keychain) (kacc : Keychain → Nat → List Key)
    (hmacF : Nat → List Nat → List Nat → Option (List Nat))
    (ifp : BabelInterface) (anml : List AnmRecord) (gstats istats : Stats)
    (from_addr hdr : List Nat) (tlvs : List TLV) (now : Nat)
    (hh : hdr.length = 4) (hwf : ∀ t ∈ tlvs, wfTLV t)
    (hcs : ifp.csalist ≠ [])
    (hfirst : firstTspcPair tlvs = some (0, 0)) :
    babel_auth_check_tspc (hdr ++ serializeTLVs tlvs)
      (storedPcTs anml from_addr ifp.ifindex).1
      (storedPcTs anml from_addr ifp.ifindex).2 = .badTspc ∧
    (babel_auth_check_packet env kacc hmacF ifp anml gstats istats from_addr
        (hdr ++ serializeTLVs tlvs) now).result = .ng ∧
    (babel_auth_check_packet env kacc hmacF ifp anml gstats istats from_addr
        (hdr ++ serializeTLVs tlvs) now).retval =
      (if ifp.authrxreq then Msg.ng else Msg.ok) ∧
    (babel_auth_check_packet env kacc hmacF ifp anml gstats istats from_addr
        (hdr ++ serializeTLVs tlvs) now).stats.auth_recv_ng_tspc =
      gstats.auth_recv_ng_tspc + 1 ∧
    (babel_auth_check_packet env kacc hmacF ifp anml gstats istats from_addr
        (hdr ++ serializeTLVs tlvs) now).if_stats.auth_recv_ng_tspc =
      istats.auth_recv_ng_tspc + 1 ∧
    (babel_auth_check_packet env kacc hmacF ifp anml gstats istats from_addr
        (hdr ++ serializeTLVs tlvs) now).anmlist = anml := by
  obtain ⟨-, hsome⟩ := check_tspc_packet hdr tlvs
    (storedPcTs anml from_addr ifp.ifindex).1
    (storedPcTs anml from_addr ifp.ifindex).2 hh hwf
  obtain ⟨-, hrej⟩ := hsome 0 0 hfirst
  have hbad : babel_auth_check_tspc (hdr ++ serializeTLVs tlvs)
      (storedPcTs anml from_addr ifp.ifindex).1
      (storedPcTs anml from_addr ifp.ifindex).2 = .badTspc := by
    refine hrej ?_
    unfold tspcAccept
    omega
  rw [check_packet_badTspc env kacc hmacF ifp anml gstats istats from_addr
    (hdr ++ serializeTLVs tlvs) now hcs hbad]
  exact ⟨hbad, rfl, rfl, rfl, rfl, rfl⟩

theorem tspc_acceptance_rule_witness :
    (babel_auth_check_packet [] (fun kc _ => kc.keys) (fun _ _ _ => none)
        ⟨1, [⟨"kc", 2⟩], true, 0, 0⟩
        [⟨List.replicate 16 1, 1, 0, 7, 200⟩] stats0 stats0
        (List.replicate 16 1)
        ([42, 2, 0, 8] ++ serializeTLVs [TLV.raw MESSAGE_TSPC [0, 5, 0, 0, 0, 100]])
        0).stats.auth_recv_ng_tspc = stats0.auth_recv_ng_tspc + 1 :=
  ((tspc_acceptance_rule [] (fun kc _ => kc.keys) (fun _ _ _ => none)
    ⟨1, [⟨"kc", 2⟩], true, 0, 0⟩
    [⟨List.replicate 16 1, 1, 0, 7, 200⟩] stats0 stats0
    (List.replicate 16 1) [42, 2, 0, 8] [TLV.raw MESSAGE_TSPC [0, 5, 0, 0, 0, 100]]
    0 5 100 (by decide) (by decide) (by decide) (by decide)).2 (by decide)).2.1

theorem zero_tspc_never_accepted_witness :
    (babel_auth_check_packet [] (fun kc _ => kc.keys) (fun _ _ _ => none)
        ⟨1, [⟨"kc", 2⟩], true, 0, 0⟩ [] stats0 stats0
        (List.replicate 16 1)
        ([42, 2, 0, 8] ++ serializeTLVs [TLV.raw MESSAGE_TSPC [0, 0, 0, 0, 0, 0]])
        0).result = Msg.ng :=
  (zero_tspc_never_accepted [] (fun kc _ => kc.keys) (fun _ _ _ => none)
    ⟨1, [⟨"kc", 2⟩], true, 0, 0⟩ [] stats0 stats0
    (List.replicate 16 1) [42, 2, 0, 8] [TLV.raw MESSAGE_TSPC [0, 0, 0, 0, 0, 0]]
    0 (by decide) (by decide) (by decide) (by decide)).2.1

/-- On every exit path of babel_auth_check_packet the HMAC invocation
count is either zero (paths that never reach the ESA loop) or the
invocation count of the ESA loop started at zero digests done. -/
theorem check_packet_inv_cases (env : List Keychain) (kacc : Keychain → Nat → List Key)
    (hmacF : Nat → List Nat → List Nat → Option (List Nat))
    (ifp : BabelInterface) (anml : List AnmRecord) (gstats istats : Stats)
    (from_addr input : List Nat) (now : Nat) :
    (babel_auth_check_packet env kacc hmacF ifp anml gstats istats from_addr
        input now).hmac_invocations = 0 ∨
    (babel_auth_check_packet env kacc hmacF ifp anml gstats istats from_addr
        input now).hmac_invocations =
      (esaLoop hmacF input (babel_auth_pad_packet input from_addr)
        (babel_esalist_derive env kacc ifp.csalist now) 0).inv := by
  unfold babel_auth_check_packet
  by_cases hcs : ifp.csalist = []
  · rw [if_pos hcs]
    left
    rfl
  · rw [if_neg hcs]
    cases h : babel_auth_check_tspc input (storedPcTs anml from_addr ifp.ifindex).1
      (storedPcTs anml from_addr ifp.ifindex).2 with
    | ok off =>
      right
      simp only [h]
      split <;> rfl
    | badTspc =>
      left
      simp only [h]
    | noTspc =>
      left
      simp only [h]

/-- Claim C4: one inbound check performs at most one HMAC computation per
ESA of the derived accept list, and — whenever the HMAC primitive itself
does not fail — at most `BABEL_MAXDIGESTSIN` HMAC computations in total,
regardless of how many fitting HMAC TLVs the packet carries. -/
theorem bounded_inbound_digest_work (env : List Keychain) (kacc : Keychain → Nat → List Key)
    (hmacF : Nat → List Nat → List Nat → Option (List Nat))
    (ifp : BabelInterface) (anml : List AnmRecord) (gstats istats : Stats)
    (from_addr input : List Nat) (now : Nat) :
    (babel_auth_check_packet env kacc hmacF ifp anml gstats istats from_addr
        input now).hmac_invocations ≤
      (babel_esalist_derive env kacc ifp.csalist now).length ∧
    ((∀ a m k, hmacF a m k ≠ none) →
      (babel_auth_check_packet env kacc hmacF ifp anml gstats istats from_addr
          input now).hmac_invocations ≤ BABEL_MAXDIGESTSIN) := by
  rcases check_packet_inv_cases env kacc hmacF ifp anml gstats istats from_addr
    input now with hz | he
  · rw [hz]
    exact ⟨Nat.zero_le _, fun _ => Nat.zero_le _⟩
  · rw [he]
    constructor
    · exact esaLoop_inv_le_length hmacF input
        (babel_auth_pad_packet input from_addr)
        (babel_esalist_derive env kacc ifp.csalist now) 0
    · intro htot
      have h := esaLoop_inv_maxin hmacF input
        (babel_auth_pad_packet input from_addr) htot
        (babel_esalist_derive env kacc ifp.csalist now) 0 (by decide)
      omega

theorem bounded_inbound_digest_work_witness :
    (babel_auth_check_packet [⟨"kc", [⟨5, [97]⟩]⟩] (fun kc _ => kc.keys)
        (fun a m k => some (List.replicate (hash_digest_length a) ((m.sum + k.sum) % 256)))
        ⟨1, [⟨"kc", 1⟩], true, 0, 0⟩ [] stats0 stats0
        (List.replicate 16 1)
        ([42, 2, 0, 8] ++ serializeTLVs [TLV.raw MESSAGE_TSPC [0, 5, 0, 0, 0, 100]])
        0).hmac_invocations ≤ 1 ∧
    (babel_auth_check_packet [⟨"kc", [⟨5, [97]⟩]⟩] (fun kc _ => kc.keys)
        (fun a m k => some (List.replicate (hash_digest_length a) ((m.sum + k.sum) % 256)))
        ⟨1, [⟨"kc", 1⟩], true, 0, 0⟩ [] stats0 stats0
        (List.replicate 16 1)
        ([42, 2, 0, 8] ++ serializeTLVs [TLV.raw MESSAGE_TSPC [0, 5, 0, 0, 0, 100]])
        0).hmac_invocations ≤ BABEL_MAXDIGESTSIN := by
  have h := bounded_inbound_digest_work [⟨"kc", [⟨5, [97]⟩]⟩] (fun kc _ => kc.keys)
    (fun a m k => some (List.replicate (hash_digest_length a) ((m.sum + k.sum) % 256)))
    ⟨1, [⟨"kc", 1⟩], true, 0, 0⟩ [] stats0 stats0
    (List.replicate 16 1)
    ([42, 2, 0, 8] ++ serializeTLVs [TLV.raw MESSAGE_TSPC [0, 5, 0, 0, 0, 100]])
    0
  refine ⟨?_, h.2 (fun a m k => by simp)⟩
  have h1 := h.1
  have h2 : (babel_esalist_derive [⟨"kc", [⟨5, [97]⟩]⟩] (fun kc _ => kc.keys)
      (⟨1, [⟨"kc", 1⟩], true, 0, 0⟩ : BabelInterface).csalist 0).length = 1 := by decide
  omega

theorem padTLVspec_length (addr : List Nat) (hA : addr.length = 16) :
    ∀ t : TLV, wfTLV t → (padTLVspec addr t).length = (serializeTLV t).length
  | .pad1, _ => rfl
  | .raw t v, hwf => by
    obtain ⟨-, -, -, -, -, hhm⟩ := hwf
    simp only [padTLVspec, serializeTLV]
    by_cases hh : t = MESSAGE_HMAC
    · rw [if_pos hh]
      have h18 := hhm hh
      simp [hA, List.length_take]
      omega
    · rw [if_neg hh]

theorem padTLVsSpec_length (addr : List Nat) (hA : addr.length = 16) :
    ∀ tlvs : List TLV, (∀ t ∈ tlvs, wfTLV t) →
      (padTLVsSpec addr tlvs).length = (serializeTLVs tlvs).length
  | [], _ => rfl
  | t :: rest, hwf => by
    unfold padTLVsSpec serializeTLVs
    rw [List.length_append, List.length_append,
      padTLVspec_length addr hA t (hwf t (List.mem_cons_self _ _)),
      padTLVsSpec_length addr hA rest (fun u hu => hwf u (List.mem_cons_of_mem _ hu))]

/-- Claim C5: for a well-formed packet and a 16-byte sender address, the
padded image equals the source with every HMAC TLV's digest field replaced
by the sender address bytes followed by zeros (type, length and key_id
bytes and all non-HMAC TLVs copied verbatim, as `padTLVspec` states), and
it has byte-identical length to the source. -/
theorem pad_packet_postcondition (hdr addr : List Nat) (tlvs : List TLV)
    (hh : hdr.length = 4) (hA : addr.length = 16) (hwf : ∀ t ∈ tlvs, wfTLV t) :
    babel_auth_pad_packet (hdr ++ serializeTLVs tlvs) addr =
      hdr ++ padTLVsSpec addr tlvs ∧
    (babel_auth_pad_packet (hdr ++ serializeTLVs tlvs) addr).length =
      (hdr ++ serializeTLVs tlvs).length := by
  have h1 := pad_packet_serialized hdr addr tlvs hh hwf
  refine ⟨h1, ?_⟩
  rw [h1, List.length_append, List.length_append,
    padTLVsSpec_length addr hA tlvs hwf]

theorem pad_packet_postcondition_witness :
    babel_auth_pad_packet
        ([42, 2, 0, 36] ++ serializeTLVs
          [TLV.raw MESSAGE_TSPC [0, 5, 0, 0, 0, 100], TLV.pad1,
           TLV.raw MESSAGE_HMAC ([0, 5] ++ List.replicate 20 7),
           TLV.raw 4 [9, 9]])
        (List.replicate 16 3) =
      [42, 2, 0, 36] ++ padTLVsSpec (List.replicate 16 3)
        [TLV.raw MESSAGE_TSPC [0, 5, 0, 0, 0, 100], TLV.pad1,
         TLV.raw MESSAGE_HMAC ([0, 5] ++ List.replicate 20 7),
         TLV.raw 4 [9, 9]] ∧
    (babel_auth_pad_packet
        ([42, 2, 0, 36] ++ serializeTLVs
          [TLV.raw MESSAGE_TSPC [0, 5, 0, 0, 0, 100], TLV.pad1,
           TLV.raw MESSAGE_HMAC ([0, 5] ++ List.replicate 20 7),
           TLV.raw 4 [9, 9]])
        (List.replicate 16 3)).length =
      ([42, 2, 0, 36] ++ serializeTLVs
        [TLV.raw MESSAGE_TSPC [0, 5, 0, 0, 0, 100], TLV.pad1,
         TLV.raw MESSAGE_HMAC ([0, 5] ++ List.replicate 20 7),
         TLV.raw 4 [9, 9]]).length :=
  pad_packet_postcondition [42, 2, 0, 36] (List.replicate 16 3)
    [TLV.raw MESSAGE_TSPC [0, 5, 0, 0, 0, 100], TLV.pad1,
     TLV.raw MESSAGE_HMAC ([0, 5] ++ List.replicate 20 7),
     TLV.raw 4 [9, 9]]
    (by decide) (by decide) (by decide)

/-- Claim C6 counterexample: with the UNIX base and non-decreasing input
`now`, two counter-advance steps starting from (0, 0) produce first
(2^32 - 1, 0) and then — because the u32 assignment truncates `now = 2^32`
mod 2^32 — the pair (0, 0), which is not a lexicographic increase.  The
claim's universal strict monotonicity therefore fails at the 32-bit
timestamp wrap. -/
theorem bump_tspc_wrap_counterexample :
    babel_auth_bump_tspc BABEL_TS_BASE_UNIX 4294967295 0 0 = (4294967295, 0) ∧
    babel_auth_bump_tspc BABEL_TS_BASE_UNIX 4294967296 4294967295 0 = (0, 0) ∧
    ¬ tsPcLt (4294967295, 0) (0, 0) := by
  refine ⟨by decide, by decide, ?_⟩
  unfold tsPcLt
  decide

/-- Claim C6 (amended): each counter-advance step strictly increases
(auth_timestamp, auth_packetcounter) lexicographically provided `now`
fits in 32 bits and the pair is not at its maximum (2^32 - 1, 2^16 - 1)
(where the ZERO-rule increment wraps to (0, 0)); and under the UNIX base
with `now ≤ auth_timestamp` the step falls through to the ZERO rule, so
the pair is never left unchanged. -/
theorem bump_tspc_monotonic (ts_base now ts pc : Nat)
    (hbase : ts_base = BABEL_TS_BASE_ZERO ∨ ts_base = BABEL_TS_BASE_UNIX)
    (hts : ts < 4294967296) (hpc : pc < 65536) (hnow : now < 4294967296)
    (hwrap : ¬ (ts = 4294967295 ∧ pc = 65535)) :
    tsPcLt (ts, pc) (babel_auth_bump_tspc ts_base now ts pc) ∧
    (ts_base = BABEL_TS_BASE_UNIX → now ≤ ts →
      babel_auth_bump_tspc ts_base now ts pc =
        babel_auth_bump_tspc BABEL_TS_BASE_ZERO now ts pc) := by
  constructor
  · unfold babel_auth_bump_tspc
    split_ifs with h1 h2 h3
    · exact Or.inl (show ts < now % 4294967296 by omega)
    · exact Or.inl (show ts < (ts + 1) % 4294967296 by omega)
    · exact Or.inr ⟨rfl, show pc < (pc + 1) % 65536 by omega⟩
    · exfalso
      rcases hbase with hb | hb
      · exact h2 (Or.inr hb)
      · exact h2 (Or.inl hb)
  · intro hU hle
    subst hU
    have hL : babel_auth_bump_tspc BABEL_TS_BASE_UNIX now ts pc =
        (if (pc + 1) % 65536 = 0 then ((ts + 1) % 4294967296, (pc + 1) % 65536)
         else (ts, (pc + 1) % 65536)) := by
      unfold babel_auth_bump_tspc
      rw [if_neg (fun h => absurd h.2 (by omega)), if_pos (Or.inl rfl)]
    have hR : babel_auth_bump_tspc BABEL_TS_BASE_ZERO now ts pc =
        (if (pc + 1) % 65536 = 0 then ((ts + 1) % 4294967296, (pc + 1) % 65536)
         else (ts, (pc + 1) % 65536)) := by
      unfold babel_auth_bump_tspc
      rw [if_neg (fun h => by
          have := h.1
          unfold BABEL_TS_BASE_ZERO BABEL_TS_BASE_UNIX at this
          omega),
        if_pos (Or.inr rfl)]
    rw [hL, hR]

theorem bump_tspc_monotonic_witness :
    tsPcLt (3, 7) (babel_auth_bump_tspc BABEL_TS_BASE_UNIX 2 3 7) ∧
    (BABEL_TS_BASE_UNIX = BABEL_TS_BASE_UNIX → 2 ≤ 3 →
      babel_auth_bump_tspc BABEL_TS_BASE_UNIX 2 3 7 =
        babel_auth_bump_tspc BABEL_TS_BASE_ZERO 2 3 7) :=
  bump_tspc_monotonic BABEL_TS_BASE_UNIX 2 3 7 (Or.inr rfl)
    (by decide) (by decide) (by decide) (by decide)

/-- The sort_order_major values of the ESAs of one CSA slot (one value of
`sort_order_minor`) in a derived ESA list. -/
def esaMajorsFor (c : Nat) (l : List EsaItem) : List Nat :=
  (l.filter (fun e => e.sort_order_minor == c)).map (fun e => e.sort_order_major)

theorem listnode_add_sort_perm (e : EsaItem) :
    ∀ l : List EsaItem, (listnode_add_sort e l).Perm (e :: l)
  | [] => List.Perm.refl _
  | x :: xs => by
    unfold listnode_add_sort
    split
    · exact List.Perm.refl _
    · exact ((listnode_add_sort_perm e xs).cons x).trans (List.Perm.swap e x xs)

theorem esaMajorsFor_perm {l l' : List EsaItem} (c : Nat) (h : l.Perm l') :
    (esaMajorsFor c l).Perm (esaMajorsFor c l') :=
  (h.filter _).map _

theorem esaMajorsFor_cons_eq (c : Nat) (e : EsaItem) (l : List EsaItem)
    (h : e.sort_order_minor = c) :
    esaMajorsFor c (e :: l) = e.sort_order_major :: esaMajorsFor c l := by
  simp [esaMajorsFor, h]

theorem esaMajorsFor_cons_ne (c : Nat) (e : EsaItem) (l : List EsaItem)
    (h : e.sort_order_minor ≠ c) :
    esaMajorsFor c (e :: l) = esaMajorsFor c l := by
  simp [esaMajorsFor, h]

/-- Inner key loop: starting from an accumulator whose majors for the
current CSA slot are exactly 0..keyCounter-1, the loop extends them to
0..m-1 for some m (key_counter advances only on insertion, so the majors
stay contiguous). -/
theorem deriveKeys_majors (algo cc : Nat) :
    ∀ (keys : List Key) (keyCounter : Nat) (acc : List EsaItem),
      (esaMajorsFor cc acc).Perm (List.range keyCounter) →
      ∃ m, keyCounter ≤ m ∧
        (esaMajorsFor cc (deriveKeys algo cc keys keyCounter acc)).Perm (List.range m)
  | [], keyCounter, acc, h => ⟨keyCounter, le_refl _, h⟩
  | k :: rest, keyCounter, acc, h => by
    unfold deriveKeys
    split
    · exact deriveKeys_majors algo cc rest keyCounter acc h
    · have hstep : (esaMajorsFor cc (listnode_add_sort
          ⟨keyCounter, cc, algo, k.index % 65536, keyBytes k⟩ acc)).Perm
          (List.range (keyCounter + 1)) := by
        refine (esaMajorsFor_perm cc (listnode_add_sort_perm _ acc)).trans ?_
        rw [esaMajorsFor_cons_eq cc _ acc rfl, List.range_succ]
        exact (h.cons keyCounter).trans (List.perm_append_singleton _ _).symm
      obtain ⟨m, hm, hp⟩ := deriveKeys_majors algo cc rest (keyCounter + 1) _ hstep
      exact ⟨m, by omega, hp⟩

/-- Inner key loop: CSA slots other than the current one are untouched up
to permutation. -/
theorem deriveKeys_majors_other (algo cc : Nat) :
    ∀ (keys : List Key) (keyCounter : Nat) (acc : List EsaItem) (c : Nat), c ≠ cc →
      (esaMajorsFor c (deriveKeys algo cc keys keyCounter acc)).Perm
        (esaMajorsFor c acc)
  | [], _, acc, c, _ => List.Perm.refl _
  | k :: rest, keyCounter, acc, c, hne => by
    unfold deriveKeys
    split
    · exact deriveKeys_majors_other algo cc rest keyCounter acc c hne
    · refine (deriveKeys_majors_other algo cc rest (keyCounter + 1) _ c hne).trans ?_
      refine (esaMajorsFor_perm c (listnode_add_sort_perm _ acc)).trans ?_
      rw [esaMajorsFor_cons_ne c _ acc (by simpa using fun hc => hne hc.symm)]

/-- Outer CSA loop invariant: every CSA slot of the accumulator holds a
contiguous block of majors, and slots at or above the current csa_counter
are empty. -/
theorem deriveCsas_majors (env : List Keychain) (filterF : Keychain → Nat → List Key)
    (now : Nat) :
    ∀ (csal : List CsaItem) (cc : Nat) (acc : List EsaItem),
      (∀ c, ∃ m, (esaMajorsFor c acc).Perm (List.range m)) →
      (∀ c, cc ≤ c → esaMajorsFor c acc = []) →
      ∀ c, ∃ m, (esaMajorsFor c (deriveCsas env filterF now csal cc acc)).Perm
        (List.range m)
  | [], _, acc, hc, _, c => hc c
  | csa :: rest, cc, acc, hc, hz, c => by
    unfold deriveCsas
    cases hkc : keychain_lookup env csa.keychain_name with
    | none =>
      simp only [hkc]
      exact deriveCsas_majors env filterF now rest cc acc hc hz c
    | some kc =>
      simp only [hkc]
      refine deriveCsas_majors env filterF now rest (cc + 1)
        (deriveKeys csa.hash_algo cc (filterF kc now) 0 acc) ?_ ?_ c
      · intro c'
        by_cases hcc : c' = cc
        · subst hcc
          obtain ⟨m, -, hp⟩ := deriveKeys_majors csa.hash_algo c'
            (filterF kc now) 0 acc (by rw [hz c' (le_refl _)]; exact List.Perm.nil)
          exact ⟨m, hp⟩
        · obtain ⟨m, hp⟩ := hc c'
          exact ⟨m, (deriveKeys_majors_other csa.hash_algo cc
            (filterF kc now) 0 acc c' hcc).trans hp⟩
      · intro c' hcc
        have hother := deriveKeys_majors_other csa.hash_algo cc
          (filterF kc now) 0 acc c' (by omega)
        rw [hz c' (by omega)] at hother
        exact List.Perm.eq_nil hother

/-- Claim C7 counterexample: a keychain whose second key is a full
duplicate of the first.  The code drops the duplicate with `continue`
before `key_counter++`, so the two surviving ESAs of the CSA carry
sort_order_major values 0 and 1 — contiguous, with no gap — whereas the
claim predicts majors 0 and 2. -/
theorem esa_duplicate_counter_counterexample :
    (babel_esalist_derive [⟨"kc", [⟨5, [97]⟩, ⟨5, [97]⟩, ⟨7, [98]⟩]⟩]
        (fun kc _ => kc.keys) [⟨"kc", 2⟩] 0).map (fun e => e.sort_order_major) =
      [0, 1] ∧
    ¬ (2 ∈ (babel_esalist_derive [⟨"kc", [⟨5, [97]⟩, ⟨5, [97]⟩, ⟨7, [98]⟩]⟩]
        (fun kc _ => kc.keys) [⟨"kc", 2⟩] 0).map (fun e => e.sort_order_major)) := by
  constructor
  · decide
  · decide

/-- Claim C7 (amended): in the ESA builder the per-CSA key_counter is
advanced only for keys actually inserted — a key dropped as a full
duplicate is skipped by `continue` before `key_counter++` — so for every
CSA slot the surviving ESAs carry exactly the sort_order_major values
0..m-1 where m is their count: dropped duplicates leave no gaps. -/
theorem esa_duplicate_counter_contiguous (env : List Keychain)
    (filterF : Keychain → Nat → List Key) (csalist : List CsaItem) (now c : Nat) :
    (esaMajorsFor c (babel_esalist_derive env filterF csalist now)).Perm
      (List.range (esaMajorsFor c (babel_esalist_derive env filterF csalist now)).length) := by
  obtain ⟨m, hp⟩ := deriveCsas_majors env filterF now csalist 0 []
    (fun c' => ⟨0, List.Perm.nil⟩) (fun c' _ => rfl) c
  have hm : (esaMajorsFor c (babel_esalist_derive env filterF csalist now)).length = m := by
    have := hp.length_eq
    simpa using this
  rw [hm]
  exact hp

theorem make_image_drop (k : Nat) (body rest1 rest2 : List Nat) :
    (RTPROT_BABEL :: 2 :: be16 k ++ body ++ rest1 ++ rest2).drop (4 + body.length) =
      rest1 ++ rest2 := by
  have hre : RTPROT_BABEL :: 2 :: be16 k ++ body ++ rest1 ++ rest2 =
      ((RTPROT_BABEL :: 2 :: be16 k) ++ body) ++ (rest1 ++ rest2) := by
    simp [List.append_assoc]
  rw [hre]
  refine List.drop_left' ?_
  simp [be16]
  omega

/-- The hash-error exit of babel_auth_make_packet. -/
theorem make_packet_hash_error (env : List Keychain)
    (ksnd : Keychain → Nat → List Key)
    (hmacF : Nat → List Nat → List Nat → Option (List Nat))
    (ts_base : Nat) (ifp : BabelInterface) (addr body : List Nat) (now : Nat)
    (gstats istats : Stats)
    (hcs : ifp.csalist ≠ [])
    (hfill : fillDigests hmacF
      (makeAuthImage addr body
        (babel_auth_bump_tspc ts_base now ifp.auth_timestamp ifp.auth_packetcounter).2
        (babel_auth_bump_tspc ts_base now ifp.auth_timestamp ifp.auth_packetcounter).1
        ((babel_esalist_derive env ksnd ifp.csalist now).take BABEL_MAXDIGESTSOUT))
      ((babel_esalist_derive env ksnd ifp.csalist now).take BABEL_MAXDIGESTSOUT) =
      none) :
    babel_auth_make_packet env ksnd hmacF ts_base ifp (some addr) body now gstats istats =
      ⟨body.length, body,
       (babel_auth_bump_tspc ts_base now ifp.auth_timestamp ifp.auth_packetcounter).1,
       (babel_auth_bump_tspc ts_base now ifp.auth_timestamp ifp.auth_packetcounter).2,
       bumpInternalErr (if (babel_esalist_derive env ksnd ifp.csalist now).isEmpty
         then bumpSentNokeys gstats else gstats),
       bumpInternalErr (if (babel_esalist_derive env ksnd ifp.csalist now).isEmpty
         then bumpSentNokeys istats else istats)⟩ := by
  unfold babel_auth_make_packet
  rw [if_neg hcs]
  simp only [hfill]

/-- The successful exit of babel_auth_make_packet. -/
theorem make_packet_success (env : List Keychain)
    (ksnd : Keychain → Nat → List Key)
    (hmacF : Nat → List Nat → List Nat → Option (List Nat))
    (ts_base : Nat) (ifp : BabelInterface) (addr body : List Nat) (now : Nat)
    (gstats istats : Stats) (ls : List (List Nat))
    (hcs : ifp.csalist ≠ [])
    (hfill : fillDigests hmacF
      (makeAuthImage addr body
        (babel_auth_bump_tspc ts_base now ifp.auth_timestamp ifp.auth_packetcounter).2
        (babel_auth_bump_tspc ts_base now ifp.auth_timestamp ifp.auth_packetcounter).1
        ((babel_esalist_derive env ksnd ifp.csalist now).take BABEL_MAXDIGESTSOUT))
      ((babel_esalist_derive env ksnd ifp.csalist now).take BABEL_MAXDIGESTSOUT) =
      some ls) :
    babel_auth_make_packet env ksnd hmacF ts_base ifp (some addr) body now gstats istats =
      ⟨makeNewBodyLen addr body
         ((babel_esalist_derive env ksnd ifp.csalist now).take BABEL_MAXDIGESTSOUT),
       body ++ (makeFinalImage addr body
         (babel_auth_bump_tspc ts_base now ifp.auth_timestamp ifp.auth_packetcounter).2
         (babel_auth_bump_tspc ts_base now ifp.auth_timestamp ifp.auth_packetcounter).1
         ((babel_esalist_derive env ksnd ifp.csalist now).take BABEL_MAXDIGESTSOUT)
         ls).drop (4 + body.length),
       (babel_auth_bump_tspc ts_base now ifp.auth_timestamp ifp.auth_packetcounter).1,
       (babel_auth_bump_tspc ts_base now ifp.auth_timestamp ifp.auth_packetcounter).2,
       bumpAuthSent (if (babel_esalist_derive env ksnd ifp.csalist now).isEmpty
         then bumpSentNokeys gstats else gstats),
       bumpAuthSent (if (babel_esalist_derive env ksnd ifp.csalist now).isEmpty
         then bumpSentNokeys istats else istats)⟩ := by
  unfold babel_auth_make_packet
  rw [if_neg hcs]
  simp only [hfill]

/-- Claim C8: when the HMAC primitive reports an error for any ESA during
the digest-filling loop, babel_auth_make_packet bumps internal_err in both
statistics pools, returns the original body length, and leaves the
caller's body buffer unmodified (the appended TLVs are copied into the
caller's buffer only after all digests have been computed). -/
theorem make_packet_atomic_on_hash_error (env : List Keychain)
    (ksnd : Keychain → Nat → List Key)
    (hmacF : Nat → List Nat → List Nat → Option (List Nat))
    (ts_base : Nat) (ifp : BabelInterface) (addr body : List Nat) (now : Nat)
    (gstats istats : Stats)
    (hcs : ifp.csalist ≠ [])
    (hfill : fillDigests hmacF
      (makeAuthImage addr body
        (babel_auth_bump_tspc ts_base now ifp.auth_timestamp ifp.auth_packetcounter).2
        (babel_auth_bump_tspc ts_base now ifp.auth_timestamp ifp.auth_packetcounter).1
        ((babel_esalist_derive env ksnd ifp.csalist now).take BABEL_MAXDIGESTSOUT))
      ((babel_esalist_derive env ksnd ifp.csalist now).take BABEL_MAXDIGESTSOUT) =
      none) :
    (babel_auth_make_packet env ksnd hmacF ts_base ifp (some addr) body now gstats
      istats).retLen = body.length ∧
    (babel_auth_make_packet env ksnd hmacF ts_base ifp (some addr) body now gstats
      istats).bodyOut = body ∧
    (babel_auth_make_packet env ksnd hmacF ts_base ifp (some addr) body now gstats
      istats).stats.internal_err = gstats.internal_err + 1 ∧
    (babel_auth_make_packet env ksnd hmacF ts_base ifp (some addr) body now gstats
      istats).if_stats.internal_err = istats.internal_err + 1 ∧
    (babel_auth_make_packet env ksnd hmacF ts_base ifp (some addr) body now gstats
      istats).stats.auth_sent = gstats.auth_sent ∧
    (babel_auth_make_packet env ksnd hmacF ts_base ifp (some addr) body now gstats
      istats).if_stats.auth_sent = istats.auth_sent := by
  rw [make_packet_hash_error env ksnd hmacF ts_base ifp addr body now gstats istats
    hcs hfill]
  refine ⟨rfl, rfl, ?_, ?_, ?_, ?_⟩ <;>
    by_cases he : (babel_esalist_derive env ksnd ifp.csalist now).isEmpty <;>
    simp [he, bumpInternalErr, bumpSentNokeys]

theorem make_packet_atomic_on_hash_error_witness :
    (babel_auth_make_packet [⟨"kc", [⟨5, [97]⟩]⟩] (fun kc _ => kc.keys)
      (fun _ _ _ => none) BABEL_TS_BASE_UNIX ⟨1, [⟨"kc", 1⟩], true, 0, 0⟩
      (some (List.replicate 16 1)) [1, 2, 3] 100 stats0 stats0).retLen = 3 ∧
    (babel_auth_make_packet [⟨"kc", [⟨5, [97]⟩]⟩] (fun kc _ => kc.keys)
      (fun _ _ _ => none) BABEL_TS_BASE_UNIX ⟨1, [⟨"kc", 1⟩], true, 0, 0⟩
      (some (List.replicate 16 1)) [1, 2, 3] 100 stats0 stats0).bodyOut = [1, 2, 3] ∧
    (babel_auth_make_packet [⟨"kc", [⟨5, [97]⟩]⟩] (fun kc _ => kc.keys)
      (fun _ _ _ => none) BABEL_TS_BASE_UNIX ⟨1, [⟨"kc", 1⟩], true, 0, 0⟩
      (some (List.replicate 16 1)) [1, 2, 3] 100 stats0 stats0).stats.internal_err = 1 := by
  have h := make_packet_atomic_on_hash_error [⟨"kc", [⟨5, [97]⟩]⟩] (fun kc _ => kc.keys)
    (fun _ _ _ => none) BABEL_TS_BASE_UNIX ⟨1, [⟨"kc", 1⟩], true, 0, 0⟩
    (List.replicate 16 1) [1, 2, 3] 100 stats0 stats0 (by decide) (by decide)
  refine ⟨?_, h.2.1, ?_⟩
  · rw [h.1]
    rfl
  · rw [h.2.2.1]
    rfl

/-- Claim C9: with configured CSAs but an empty send-filtered ESA list,
babel_auth_make_packet still advances the send counters, appends exactly
one 8-byte TS/PC TLV and no HMAC TLVs, returns body_len + 8, and bumps
both auth_sent_ng_nokeys and auth_sent in both statistics pools. -/
theorem make_packet_no_valid_keys (env : List Keychain)
    (ksnd : Keychain → Nat → List Key)
    (hmacF : Nat → List Nat → List Nat → Option (List Nat))
    (ts_base : Nat) (ifp : BabelInterface) (addr body : List Nat) (now : Nat)
    (gstats istats : Stats)
    (hcs : ifp.csalist ≠ [])
    (hempty : babel_esalist_derive env ksnd ifp.csalist now = []) :
    babel_auth_make_packet env ksnd hmacF ts_base ifp (some addr) body now gstats istats =
      ⟨body.length + 8,
       body ++ tspcTLV
         (babel_auth_bump_tspc ts_base now ifp.auth_timestamp ifp.auth_packetcounter).2
         (babel_auth_bump_tspc ts_base now ifp.auth_timestamp ifp.auth_packetcounter).1,
       (babel_auth_bump_tspc ts_base now ifp.auth_timestamp ifp.auth_packetcounter).1,
       (babel_auth_bump_tspc ts_base now ifp.auth_timestamp ifp.auth_packetcounter).2,
       bumpAuthSent (bumpSentNokeys gstats),
       bumpAuthSent (bumpSentNokeys istats)⟩ := by
  have htake : (babel_esalist_derive env ksnd ifp.csalist now).take
      BABEL_MAXDIGESTSOUT = [] := by
    rw [hempty]
    rfl
  have hfill : fillDigests hmacF
      (makeAuthImage addr body
        (babel_auth_bump_tspc ts_base now ifp.auth_timestamp ifp.auth_packetcounter).2
        (babel_auth_bump_tspc ts_base now ifp.auth_timestamp ifp.auth_packetcounter).1
        ((babel_esalist_derive env ksnd ifp.csalist now).take BABEL_MAXDIGESTSOUT))
      ((babel_esalist_derive env ksnd ifp.csalist now).take BABEL_MAXDIGESTSOUT) =
      some [] := by
    rw [htake]
    rfl
  rw [make_packet_success env ksnd hmacF ts_base ifp addr body now gstats istats []
    hcs hfill]
  have hlen : makeNewBodyLen addr body
      ((babel_esalist_derive env ksnd ifp.csalist now).take BABEL_MAXDIGESTSOUT) =
      body.length + 8 := by
    rw [htake]
    rfl
  have hdrop : (makeFinalImage addr body
      (babel_auth_bump_tspc ts_base now ifp.auth_timestamp ifp.auth_packetcounter).2
      (babel_auth_bump_tspc ts_base now ifp.auth_timestamp ifp.auth_packetcounter).1
      ((babel_esalist_derive env ksnd ifp.csalist now).take BABEL_MAXDIGESTSOUT)
      []).drop (4 + body.length) =
      tspcTLV
        (babel_auth_bump_tspc ts_base now ifp.auth_timestamp ifp.auth_packetcounter).2
        (babel_auth_bump_tspc ts_base now ifp.auth_timestamp ifp.auth_packetcounter).1 := by
    rw [htake]
    unfold makeFinalImage
    have := make_image_drop
      (makeNewBodyLen addr body ([] : List EsaItem) % 65536) body
      (tspcTLV
        (babel_auth_bump_tspc ts_base now ifp.auth_timestamp ifp.auth_packetcounter).2
        (babel_auth_bump_tspc ts_base now ifp.auth_timestamp ifp.auth_packetcounter).1)
      []
    simpa using this
  rw [hlen, hdrop]
  by_cases he : (babel_esalist_derive env ksnd ifp.csalist now).isEmpty
  · rw [if_pos he, if_pos he]
  · exfalso
    rw [hempty] at he
    exact he rfl

theorem make_packet_no_valid_keys_witness :
    babel_auth_make_packet [] (fun kc _ => kc.keys)
      (fun _ _ _ => none) BABEL_TS_BASE_UNIX ⟨1, [⟨"kc", 1⟩], true, 0, 0⟩
      (some (List.replicate 16 1)) [1, 2, 3] 100 stats0 stats0 =
      ⟨11, [1, 2, 3] ++ tspcTLV
        (babel_auth_bump_tspc BABEL_TS_BASE_UNIX 100 0 0).2
        (babel_auth_bump_tspc BABEL_TS_BASE_UNIX 100 0 0).1,
       (babel_auth_bump_tspc BABEL_TS_BASE_UNIX 100 0 0).1,
       (babel_auth_bump_tspc BABEL_TS_BASE_UNIX 100 0 0).2,
       bumpAuthSent (bumpSentNokeys stats0),
       bumpAuthSent (bumpSentNokeys stats0)⟩ := by
  have h := make_packet_no_valid_keys [] (fun kc _ => kc.keys)
    (fun _ _ _ => none) BABEL_TS_BASE_UNIX ⟨1, [⟨"kc", 1⟩], true, 0, 0⟩
    (List.replicate 16 1) [1, 2, 3] 100 stats0 stats0 (by decide) (by decide)
  rw [h]
  rfl

/-- The success exit of babel_auth_check_packet. -/
theorem check_packet_hmac_ok (env : List Keychain) (kacc : Keychain → Nat → List Key)
    (hmacF : Nat → List Nat → List Nat → Option (List Nat))
    (ifp : BabelInterface) (anml : List AnmRecord) (gstats istats : Stats)
    (from_addr input : List Nat) (now : Nat) (off : Nat)
    (hcs : ifp.csalist ≠ [])
    (htspc : babel_auth_check_tspc input (storedPcTs anml from_addr ifp.ifindex).1
      (storedPcTs anml from_addr ifp.ifindex).2 = .ok off)
    (hok : (esaLoop hmacF input (babel_auth_pad_packet input from_addr)
      (babel_esalist_derive env kacc ifp.csalist now) 0).result = .ok) :
    babel_auth_check_packet env kacc hmacF ifp anml gstats istats from_addr input now =
      ⟨.ok, .ok,
       (esaLoop hmacF input (babel_auth_pad_packet input from_addr)
         (babel_esalist_derive env kacc ifp.csalist now) 0).done,
       (esaLoop hmacF input (babel_auth_pad_packet input from_addr)
         (babel_esalist_derive env kacc ifp.csalist now) 0).inv,
       anmUpdate anml from_addr ifp.ifindex (getwFrom input off)
         (getlFrom input (off + 2)) now,
       bumpRecvOk (addInternalErr
         (esaLoop hmacF input (babel_auth_pad_packet input from_addr)
           (babel_esalist_derive env kacc ifp.csalist now) 0).errs
         (if (babel_esalist_derive env kacc ifp.csalist now).isEmpty
          then bumpRecvNokeys gstats else gstats)),
       bumpRecvOk (addInternalErr
         (esaLoop hmacF input (babel_auth_pad_packet input from_addr)
           (babel_esalist_derive env kacc ifp.csalist now) 0).errs
         (if (babel_esalist_derive env kacc ifp.csalist now).isEmpty
          then bumpRecvNokeys istats else istats))⟩ := by
  unfold babel_auth_check_packet
  rw [if_neg hcs]
  simp only [htspc]
  rw [if_pos hok]

/-- The HMAC-failure exit of babel_auth_check_packet. -/
theorem check_packet_hmac_ng (env : List Keychain) (kacc : Keychain → Nat → List Key)
    (hmacF : Nat → List Nat → List Nat → Option (List Nat))
    (ifp : BabelInterface) (anml : List AnmRecord) (gstats istats : Stats)
    (from_addr input : List Nat) (now : Nat) (off : Nat)
    (hcs : ifp.csalist ≠ [])
    (htspc : babel_auth_check_tspc input (storedPcTs anml from_addr ifp.ifindex).1
      (storedPcTs anml from_addr ifp.ifindex).2 = .ok off)
    (hng : (esaLoop hmacF input (babel_auth_pad_packet input from_addr)
      (babel_esalist_derive env kacc ifp.csalist now) 0).result ≠ .ok) :
    babel_auth_check_packet env kacc hmacF ifp anml gstats istats from_addr input now =
      ⟨if ifp.authrxreq then .ng else .ok, .ng,
       (esaLoop hmacF input (babel_auth_pad_packet input from_addr)
         (babel_esalist_derive env kacc ifp.csalist now) 0).done,
       (esaLoop hmacF input (babel_auth_pad_packet input from_addr)
         (babel_esalist_derive env kacc ifp.csalist now) 0).inv,
       anml,
       bumpNgHmac (addInternalErr
         (esaLoop hmacF input (babel_auth_pad_packet input from_addr)
           (babel_esalist_derive env kacc ifp.csalist now) 0).errs
         (if (babel_esalist_derive env kacc ifp.csalist now).isEmpty
          then bumpRecvNokeys gstats else gstats)),
       bumpNgHmac (addInternalErr
         (esaLoop hmacF input (babel_auth_pad_packet input from_addr)
           (babel_esalist_derive env kacc ifp.csalist now) 0).errs
         (if (babel_esalist_derive env kacc ifp.csalist now).isEmpty
          then bumpRecvNokeys istats else istats))⟩ := by
  unfold babel_auth_check_packet
  rw [if_neg hcs]
  simp only [htspc]
  rw [if_neg hng]

/-- After an update, the ANM lookup for the updated key returns exactly
the written record. -/
theorem anm_lookup_update (address : List Nat) (ifindex pc ts now : Nat) :
    ∀ anml : List AnmRecord,
      babel_anm_lookup (anmUpdate anml address ifindex pc ts now) address ifindex =
        some ⟨address, ifindex, now, pc, ts⟩
  | [] => by
    simp [babel_anm_lookup, anmUpdate]
  | a :: rest => by
    unfold anmUpdate
    by_cases h : a.address == address && a.ifindex == ifindex
    · rw [if_pos h]
      simp [babel_anm_lookup]
    · rw [if_neg h]
      unfold babel_anm_lookup
      rw [List.find?_cons_of_neg _ (by simpa using h)]
      exact anm_lookup_update address ifindex pc ts now rest

theorem storedPcTs_update (anml : List AnmRecord) (address : List Nat)
    (ifindex pc ts now : Nat) :
    storedPcTs (anmUpdate anml address ifindex pc ts now) address ifindex = (pc, ts) := by
  unfold storedPcTs
  rw [anm_lookup_update]

/-- Claim C3: after every successful inbound check the ANM record for
(sender, interface) holds exactly the accepted TLV's pair, which strictly
lexicographically exceeds the previously stored pair; and a byte-identical
replay is rejected by the TS/PC stage: the second check's internal result
is NG (so the returned value is NG in required mode), auth_recv_ng_tspc is
bumped in both pools, and the ANM is left unchanged. -/
theorem anm_replay_protection
    (env : List Keychain) (kacc : Keychain → Nat → List Key)
    (hmacF : Nat → List Nat → List Nat → Option (List Nat))
    (ifp : BabelInterface) (anml : List AnmRecord) (gstats istats : Stats)
    (from_addr hdr : List Nat) (tlvs : List TLV) (now : Nat)
    (hh : hdr.length = 4) (hwf : ∀ t ∈ tlvs, wfTLV t)
    (hres : (babel_auth_check_packet env kacc hmacF ifp anml gstats istats from_addr
      (hdr ++ serializeTLVs tlvs) now).result = .ok) :
    ∃ pc ts, firstTspcPair tlvs = some (pc, ts) ∧
      babel_anm_lookup
        (babel_auth_check_packet env kacc hmacF ifp anml gstats istats from_addr
          (hdr ++ serializeTLVs tlvs) now).anmlist from_addr ifp.ifindex =
        some ⟨from_addr, ifp.ifindex, now, pc, ts⟩ ∧
      tsPcLt ((storedPcTs anml from_addr ifp.ifindex).2,
              (storedPcTs anml from_addr ifp.ifindex).1) (ts, pc) ∧
      (∀ now2 gst2 ist2,
        (babel_auth_check_packet env kacc hmacF ifp
          (babel_auth_check_packet env kacc hmacF ifp anml gstats istats from_addr
            (hdr ++ serializeTLVs tlvs) now).anmlist gst2 ist2 from_addr
          (hdr ++ serializeTLVs tlvs) now2).result = .ng ∧
        (babel_auth_check_packet env kacc hmacF ifp
          (babel_auth_check_packet env kacc hmacF ifp anml gstats istats from_addr
            (hdr ++ serializeTLVs tlvs) now).anmlist gst2 ist2 from_addr
          (hdr ++ serializeTLVs tlvs) now2).retval =
          (if ifp.authrxreq then Msg.ng else Msg.ok) ∧
        (babel_auth_check_packet env kacc hmacF ifp
          (babel_auth_check_packet env kacc hmacF ifp anml gstats istats from_addr
            (hdr ++ serializeTLVs tlvs) now).anmlist gst2 ist2 from_addr
          (hdr ++ serializeTLVs tlvs) now2).stats.auth_recv_ng_tspc =
          gst2.auth_recv_ng_tspc + 1 ∧
        (babel_auth_check_packet env kacc hmacF ifp
          (babel_auth_check_packet env kacc hmacF ifp anml gstats istats from_addr
            (hdr ++ serializeTLVs tlvs) now).anmlist gst2 ist2 from_addr
          (hdr ++ serializeTLVs tlvs) now2).if_stats.auth_recv_ng_tspc =
          ist2.auth_recv_ng_tspc + 1 ∧
        (babel_auth_check_packet env kacc hmacF ifp
          (babel_auth_check_packet env kacc hmacF ifp anml gstats istats from_addr
            (hdr ++ serializeTLVs tlvs) now).anmlist gst2 ist2 from_addr
          (hdr ++ serializeTLVs tlvs) now2).anmlist =
        (babel_auth_check_packet env kacc hmacF ifp anml gstats istats from_addr
          (hdr ++ serializeTLVs tlvs) now).anmlist) := by
  by_cases hcs : ifp.csalist = []
  · exfalso
    unfold babel_auth_check_packet at hres
    rw [if_pos hcs] at hres
    cases hres
  cases htspc : babel_auth_check_tspc (hdr ++ serializeTLVs tlvs)
      (storedPcTs anml from_addr ifp.ifindex).1
      (storedPcTs anml from_addr ifp.ifindex).2 with
  | badTspc =>
    exfalso
    rw [check_packet_badTspc env kacc hmacF ifp anml gstats istats from_addr
      (hdr ++ serializeTLVs tlvs) now hcs htspc] at hres
    cases hres
  | noTspc =>
    exfalso
    rw [check_packet_noTspc env kacc hmacF ifp anml gstats istats from_addr
      (hdr ++ serializeTLVs tlvs) now hcs htspc] at hres
    cases hres
  | ok off =>
    by_cases hok : (esaLoop hmacF (hdr ++ serializeTLVs tlvs)
        (babel_auth_pad_packet (hdr ++ serializeTLVs tlvs) from_addr)
        (babel_esalist_derive env kacc ifp.csalist now) 0).result = .ok
    swap
    · exfalso
      rw [check_packet_hmac_ng env kacc hmacF ifp anml gstats istats from_addr
        (hdr ++ serializeTLVs tlvs) now off hcs htspc hok] at hres
      cases hres
    have hpack := check_packet_hmac_ok env kacc hmacF ifp anml gstats istats from_addr
      (hdr ++ serializeTLVs tlvs) now off hcs htspc hok
    rcases hfp : firstTspcPair tlvs with - | ⟨pc, ts⟩
    · exfalso
      obtain ⟨hnone, -⟩ := check_tspc_packet hdr tlvs
        (storedPcTs anml from_addr ifp.ifindex).1
        (storedPcTs anml from_addr ifp.ifindex).2 hh hwf
      have := hnone hfp
      rw [htspc] at this
      cases this
    obtain ⟨-, hsome⟩ := check_tspc_packet hdr tlvs
      (storedPcTs anml from_addr ifp.ifindex).1
      (storedPcTs anml from_addr ifp.ifindex).2 hh hwf
    obtain ⟨haccf, hrejf⟩ := hsome pc ts hfp
    by_cases hacc : tspcAccept pc ts (storedPcTs anml from_addr ifp.ifindex).1
      (storedPcTs anml from_addr ifp.ifindex).2
    swap
    · exfalso
      have := hrejf hacc
      rw [htspc] at this
      cases this
    obtain ⟨off', hoff', hw, hl⟩ := haccf hacc
    rw [htspc] at hoff'
    injection hoff' with hoe
    subst hoe
    have hanm : (babel_auth_check_packet env kacc hmacF ifp anml gstats istats
        from_addr (hdr ++ serializeTLVs tlvs) now).anmlist =
        anmUpdate anml from_addr ifp.ifindex pc ts now := by
      rw [hpack, hw, hl]
    refine ⟨pc, ts, rfl, ?_, ?_, ?_⟩
    · rw [hanm]
      exact anm_lookup_update from_addr ifp.ifindex pc ts now anml
    · unfold tspcAccept at hacc
      rcases hacc with h | ⟨h1, h2⟩
      · exact Or.inl h
      · exact Or.inr ⟨h1.symm, h2⟩
    · intro now2 gst2 ist2
      have hstored2 : storedPcTs (babel_auth_check_packet env kacc hmacF ifp anml
          gstats istats from_addr (hdr ++ serializeTLVs tlvs) now).anmlist
          from_addr ifp.ifindex = (pc, ts) := by
        rw [hanm]
        exact storedPcTs_update anml from_addr ifp.ifindex pc ts now
      obtain ⟨-, hsome2⟩ := check_tspc_packet hdr tlvs pc ts hh hwf
      obtain ⟨-, hrej2⟩ := hsome2 pc ts hfp
      have hbad2 : babel_auth_check_tspc (hdr ++ serializeTLVs tlvs)
          (storedPcTs (babel_auth_check_packet env kacc hmacF ifp anml gstats istats
            from_addr (hdr ++ serializeTLVs tlvs) now).anmlist from_addr ifp.ifindex).1
          (storedPcTs (babel_auth_check_packet env kacc hmacF ifp anml gstats istats
            from_addr (hdr ++ serializeTLVs tlvs) now).anmlist from_addr ifp.ifindex).2 =
          .badTspc := by
        rw [hstored2]
        refine hrej2 ?_
        unfold tspcAccept
        omega
      rw [check_packet_badTspc env kacc hmacF ifp _ gst2 ist2 from_addr
        (hdr ++ serializeTLVs tlvs) now2 hcs hbad2]
      exact ⟨rfl, rfl, rfl, rfl, rfl⟩

theorem anm_replay_protection_witness :
    (babel_auth_check_packet [⟨"kc", [⟨5, [97]⟩]⟩] (fun kc _ => kc.keys)
      (fun a m k => some (List.replicate (hash_digest_length a) ((m.sum + k.sum) % 256)))
      ⟨1, [⟨"kc", 1⟩], true, 0, 0⟩
      (babel_auth_check_packet [⟨"kc", [⟨5, [97]⟩]⟩] (fun kc _ => kc.keys)
        (fun a m k => some (List.replicate (hash_digest_length a) ((m.sum + k.sum) % 256)))
        ⟨1, [⟨"kc", 1⟩], true, 0, 0⟩ [] stats0 stats0 (List.replicate 16 1)
        ([42, 2, 0, 36] ++ serializeTLVs
          [TLV.raw MESSAGE_TSPC [0, 5, 0, 0, 0, 100],
           TLV.raw MESSAGE_HMAC ([0, 5] ++ List.replicate 20 98)]) 77).anmlist
      stats0 stats0 (List.replicate 16 1)
      ([42, 2, 0, 36] ++ serializeTLVs
        [TLV.raw MESSAGE_TSPC [0, 5, 0, 0, 0, 100],
         TLV.raw MESSAGE_HMAC ([0, 5] ++ List.replicate 20 98)]) 78).result = Msg.ng := by
  have h := anm_replay_protection [⟨"kc", [⟨5, [97]⟩]⟩] (fun kc _ => kc.keys)
    (fun a m k => some (List.replicate (hash_digest_length a) ((m.sum + k.sum) % 256)))
    ⟨1, [⟨"kc", 1⟩], true, 0, 0⟩ [] stats0 stats0 (List.replicate 16 1) [42, 2, 0, 36]
    [TLV.raw MESSAGE_TSPC [0, 5, 0, 0, 0, 100],
     TLV.raw MESSAGE_HMAC ([0, 5] ++ List.replicate 20 98)] 77
    (by decide) (by decide)
    (by simp [babel_auth_check_packet, babel_auth_check_tspc, storedPcTs, babel_anm_lookup,
      babel_auth_pad_packet, babel_esalist_derive, deriveCsas, deriveKeys, keychain_lookup,
      listnode_add_sort, babel_esa_item_cmp, babel_esa_item_exists, keyBytes,
      babel_auth_try_hmac_tlvs, esaLoop, serializeTLVs, serializeTLV,
      checkTspcLoop, padLoop, tryHmacLoop, byteAt, getc, getw, getl, getwFrom, getlFrom,
      forward, be16, be32, stats0, hash_digest_length, MESSAGE_PAD1, MESSAGE_TSPC,
      MESSAGE_HMAC, BABEL_MAXDIGESTSIN, List.replicate, List.getD])
  obtain ⟨pc, ts, -, -, -, hreplay⟩ := h
  exact (hreplay 78 stats0 stats0).1

/-! Toolkit for the outbound/inbound round trip (C1): serialized views of
the images built by babel_auth_make_packet. -/

theorem padTrunc_length (n : Nat) (L : List Nat) : (padTrunc n L).length = n := by
  simp [padTrunc]
  omega

theorem padTrunc_eq {n : Nat} {L : List Nat} (h : L.length = n) : padTrunc n L = L := by
  simp [padTrunc, h]

theorem tlvPc_be (pc : Nat) (rest : List Nat) (h : pc < 65536) :
    tlvPc (be16 pc ++ rest) = pc := by
  simp [tlvPc, byteAt, be16]
  omega

theorem tlvKeyId_be (kid : Nat) (rest : List Nat) (h : kid < 65536) :
    tlvKeyId (be16 kid ++ rest) = kid := by
  simp [tlvKeyId, byteAt, be16]
  omega

theorem tlvTs_be (pc ts : Nat) (h : ts < 4294967296) :
    tlvTs (be16 pc ++ be32 ts) = ts := by
  simp [tlvTs, byteAt, be16, be32]
  omega

/-- The TS and PC fields written by babel_auth_bump_tspc stay within their
wire widths whenever the previous pair did. -/
theorem bump_tspc_range (ts_base now ts pc : Nat)
    (hts : ts < 4294967296) (hpc : pc < 65536) :
    (babel_auth_bump_tspc ts_base now ts pc).1 < 4294967296 ∧
    (babel_auth_bump_tspc ts_base now ts pc).2 < 65536 := by
  unfold babel_auth_bump_tspc
  split_ifs <;> constructor <;> simp <;> omega

theorem mem_listnode_add_sort {x e : EsaItem} {l : List EsaItem}
    (h : x ∈ listnode_add_sort e l) : x = e ∨ x ∈ l := by
  have := (listnode_add_sort_perm e l).mem_iff.mp h
  simpa using this

theorem deriveKeys_key_id_lt (algo cc : Nat) :
    ∀ (keys : List Key) (kc : Nat) (acc : List EsaItem),
      (∀ e ∈ acc, e.key_id < 65536) →
      ∀ e ∈ deriveKeys algo cc keys kc acc, e.key_id < 65536
  | [], _, acc, hacc => hacc
  | k :: rest, kc, acc, hacc => by
    unfold deriveKeys
    by_cases hex : babel_esa_item_exists acc algo (k.index % 65536) (keyBytes k) = true
    · rw [if_pos hex]
      exact deriveKeys_key_id_lt algo cc rest kc acc hacc
    · rw [if_neg hex]
      refine deriveKeys_key_id_lt algo cc rest (kc + 1) _ ?_
      intro e he
      rcases mem_listnode_add_sort he with rfl | he2
      · exact Nat.mod_lt _ (by omega)
      · exact hacc e he2

theorem deriveCsas_key_id_lt (env : List Keychain) (filterF : Keychain → Nat → List Key)
    (now : Nat) :
    ∀ (cs : List CsaItem) (cc : Nat) (acc : List EsaItem),
      (∀ e ∈ acc, e.key_id < 65536) →
      ∀ e ∈ deriveCsas env filterF now cs cc acc, e.key_id < 65536
  | [], _, acc, hacc => hacc
  | csa :: rest, cc, acc, hacc => by
    unfold deriveCsas
    cases hkc : keychain_lookup env csa.keychain_name with
    | none =>
      simp only [hkc]
      exact deriveCsas_key_id_lt env filterF now rest cc acc hacc
    | some kc =>
      simp only [hkc]
      exact deriveCsas_key_id_lt env filterF now rest (cc + 1) _
        (deriveKeys_key_id_lt csa.hash_algo cc (filterF kc now) 0 acc hacc)

/-- Every ESA produced by babel_esalist_derive carries a key id already
truncated to 16 bits (the C code stores `key->index % (UINT16_MAX + 1)`). -/
theorem esalist_key_id_lt (env : List Keychain) (filterF : Keychain → Nat → List Key)
    (csalist : List CsaItem) (now : Nat) :
    ∀ e ∈ babel_esalist_derive env filterF csalist now, e.key_id < 65536 :=
  deriveCsas_key_id_lt env filterF now csalist 0 []
    (by intro e he; cases he)

/-- With a total HMAC primitive the digest-filling loop of
babel_auth_make_packet never fails and computes one digest per ESA over
the fixed image. -/
theorem fillDigests_total (hmacD : Nat → List Nat → List Nat → List Nat) (msg : List Nat) :
    ∀ es : List EsaItem,
      fillDigests (fun a m k => some (hmacD a m k)) msg es =
        some (es.map (fun e => hmacD e.hash_algo msg e.key_secret))
  | [] => rfl
  | e :: es => by
    simp [fillDigests, fillDigests_total hmacD msg es]

/-- Structured view of the TS/PC TLV appended by babel_auth_make_packet. -/
def tspcViewTLV (pc ts : Nat) : TLV := .raw MESSAGE_TSPC (be16 pc ++ be32 ts)

/-- Structured view of an HMAC TLV with its digest filled in. -/
def hmacFinalTLV (e : EsaItem) (L : List Nat) : TLV :=
  .raw MESSAGE_HMAC (be16 e.key_id ++ padTrunc (hash_digest_length e.hash_algo) L)

/-- Structured view of a placeholder HMAC TLV (digest field holding the
source address and zero padding). -/
def hmacPlaceholderTLV (addr : List Nat) (e : EsaItem) : TLV :=
  .raw MESSAGE_HMAC (be16 e.key_id ++ addr ++
    List.replicate (hash_digest_length e.hash_algo - 16) 0)

theorem tspcTLV_serialize (pc ts : Nat) :
    tspcTLV pc ts = serializeTLV (tspcViewTLV pc ts) := by
  simp [tspcTLV, tspcViewTLV, serializeTLV, be16, be32]

theorem digestTLV_serialize (e : EsaItem) (L : List Nat) :
    digestTLV e L = serializeTLV (hmacFinalTLV e L) := by
  simp [digestTLV, hmacFinalTLV, serializeTLV, be16, padTrunc_length]
  omega

theorem placeholderTLV_serialize (addr : List Nat) (e : EsaItem) (hA : addr.length = 16) :
    placeholderTLV addr e = serializeTLV (hmacPlaceholderTLV addr e) := by
  have h16 := hash_digest_length_ge e.hash_algo
  simp [placeholderTLV, hmacPlaceholderTLV, serializeTLV, be16, hA, List.append_assoc]
  omega

theorem flatten_map_serialize (h : EsaItem → TLV) (f : EsaItem → List Nat)
    (hf : ∀ x, f x = serializeTLV (h x)) :
    ∀ l : List EsaItem, (l.map f).flatten = serializeTLVs (l.map h)
  | [] => rfl
  | x :: r => by
    simp [serializeTLVs, hf x, flatten_map_serialize h f hf r]

/-- The transmitted image of babel_auth_make_packet is the serialization
of: original body TLVs, one TS/PC TLV, then one digest-filled HMAC TLV per
outbound ESA. -/
theorem makeFinalImage_serialized (addr : List Nat) (bodyT : List TLV) (pc ts : Nat)
    (esasOut : List EsaItem) (g : EsaItem → List Nat) :
    makeFinalImage addr (serializeTLVs bodyT) pc ts esasOut (esasOut.map g) =
      RTPROT_BABEL :: 2 ::
        be16 (makeNewBodyLen addr (serializeTLVs bodyT) esasOut % 65536) ++
        serializeTLVs (bodyT ++ tspcViewTLV pc ts ::
          esasOut.map (fun e => hmacFinalTLV e (g e))) := by
  unfold makeFinalImage
  have hzip : List.zipWith digestTLV esasOut (esasOut.map g) =
      esasOut.map (fun e => digestTLV e (g e)) := by
    rw [List.zipWith_map_right]
    exact List.zipWith_same _ _
  have hflat : (esasOut.map (fun e => digestTLV e (g e))).flatten =
      serializeTLVs (esasOut.map (fun e => hmacFinalTLV e (g e))) :=
    flatten_map_serialize (fun e => hmacFinalTLV e (g e))
      (fun e => digestTLV e (g e)) (fun e => digestTLV_serialize e (g e)) esasOut
  rw [hzip, hflat, serializeTLVs_append]
  rw [show serializeTLVs (tspcViewTLV pc ts ::
      esasOut.map (fun e => hmacFinalTLV e (g e))) =
    serializeTLV (tspcViewTLV pc ts) ++
      serializeTLVs (esasOut.map (fun e => hmacFinalTLV e (g e))) from rfl]
  rw [← tspcTLV_serialize]
  simp [List.append_assoc]

/-- The image hashed by babel_auth_make_packet is the serialization of:
original body TLVs, one TS/PC TLV, then one placeholder HMAC TLV per
outbound ESA. -/
theorem makeAuthImage_serialized (addr : List Nat) (bodyT : List TLV) (pc ts : Nat)
    (esasOut : List EsaItem) (hA : addr.length = 16) :
    makeAuthImage addr (serializeTLVs bodyT) pc ts esasOut =
      RTPROT_BABEL :: 2 ::
        be16 (makeNewBodyLen addr (serializeTLVs bodyT) esasOut % 65536) ++
        serializeTLVs (bodyT ++ tspcViewTLV pc ts ::
          esasOut.map (hmacPlaceholderTLV addr)) := by
  unfold makeAuthImage
  have hflat : (esasOut.map (placeholderTLV addr)).flatten =
      serializeTLVs (esasOut.map (hmacPlaceholderTLV addr)) :=
    flatten_map_serialize (hmacPlaceholderTLV addr) (placeholderTLV addr)
      (fun e => placeholderTLV_serialize addr e hA) esasOut
  rw [hflat, serializeTLVs_append]
  rw [show serializeTLVs (tspcViewTLV pc ts :: esasOut.map (hmacPlaceholderTLV addr)) =
    serializeTLV (tspcViewTLV pc ts) ++
      serializeTLVs (esasOut.map (hmacPlaceholderTLV addr)) from rfl]
  rw [← tspcTLV_serialize]
  simp [List.append_assoc]

theorem wf_tspcViewTLV (pc ts : Nat) : wfTLV (tspcViewTLV pc ts) := by
  simp only [tspcViewTLV, wfTLV]
  refine ⟨by decide, by decide, by simp [be16, be32], ?_, fun _ => by simp [be16, be32],
    fun h => absurd h (by decide)⟩
  intro b hb
  simp [be16, be32] at hb
  rcases hb with h | h | h | h | h | h <;> omega

theorem wf_hmacFinalTLV (e : EsaItem) (L : List Nat)
    (hL : L.length = hash_digest_length e.hash_algo) (hB : ∀ b ∈ L, b < 256) :
    wfTLV (hmacFinalTLV e L) := by
  have h16 := hash_digest_length_ge e.hash_algo
  have h64 := hash_digest_length_le e.hash_algo
  simp only [hmacFinalTLV, wfTLV]
  refine ⟨by decide, by decide, ?_, ?_, fun h => absurd h (by decide), ?_⟩
  · simp [be16, padTrunc_length]
    omega
  · intro b hb
    rcases List.mem_append.mp hb with h | h
    · simp [be16] at h
      rcases h with h | h <;> omega
    · rw [padTrunc_eq hL] at h
      exact hB b h
  · intro _
    simp [be16, padTrunc_length]
    omega

theorem firstTspcPair_append_none :
    ∀ (xs : List TLV), (∀ v, TLV.raw MESSAGE_TSPC v ∉ xs) → ∀ ys,
      firstTspcPair (xs ++ ys) = firstTspcPair ys
  | [], _, ys => rfl
  | .pad1 :: r, hx, ys => by
    simp only [List.cons_append, firstTspcPair]
    exact firstTspcPair_append_none r (fun v hv => hx v (List.mem_cons_of_mem _ hv)) ys
  | .raw t v :: r, hx, ys => by
    have ht : t ≠ MESSAGE_TSPC := by
      intro h
      subst h
      exact hx v (List.mem_cons_self _ _)
    simp only [List.cons_append, firstTspcPair, if_neg ht]
    exact firstTspcPair_append_none r (fun u hu => hx u (List.mem_cons_of_mem _ hu)) ys

theorem firstTspcPair_tspcView (pc ts : Nat) (rest : List TLV)
    (hpc : pc < 65536) (hts : ts < 4294967296) :
    firstTspcPair (tspcViewTLV pc ts :: rest) = some (pc, ts) := by
  simp only [tspcViewTLV, firstTspcPair, if_pos rfl]
  rw [tlvPc_be pc _ hpc, tlvTs_be pc ts hts]
  simp

theorem hmacDigestsIn_append (algo kid : Nat) :
    ∀ xs ys, hmacDigestsIn algo kid (xs ++ ys) =
      hmacDigestsIn algo kid xs ++ hmacDigestsIn algo kid ys
  | [], ys => rfl
  | .pad1 :: r, ys => by
    simp only [List.cons_append, hmacDigestsIn]
    exact hmacDigestsIn_append algo kid r ys
  | .raw t v :: r, ys => by
    simp only [List.cons_append, hmacDigestsIn]
    split <;> simp [hmacDigestsIn_append algo kid r ys]

/-- The digest written for an outbound ESA is among the digests the
inbound walk compares against the local digest for an ESA with the same
algorithm and key id. -/
theorem mem_hmacDigestsIn_map (g : EsaItem → List Nat) (esa : EsaItem)
    (hkid : esa.key_id < 65536)
    (hlen : (g esa).length = hash_digest_length esa.hash_algo) :
    ∀ l : List EsaItem, esa ∈ l →
      g esa ∈ hmacDigestsIn esa.hash_algo esa.key_id
        (l.map (fun e => hmacFinalTLV e (g e)))
  | [], h => absurd h (List.not_mem_nil _)
  | e :: es, h => by
    rcases List.mem_cons.mp h with rfl | htail
    · simp only [List.map_cons, hmacFinalTLV, hmacDigestsIn]
      have hvl : (be16 esa.key_id ++
          padTrunc (hash_digest_length esa.hash_algo) (g esa)).length =
          hash_digest_length esa.hash_algo + 2 := by
        simp [be16, padTrunc_length]
      have hkd : tlvKeyId (be16 esa.key_id ++
          padTrunc (hash_digest_length esa.hash_algo) (g esa)) = esa.key_id :=
        tlvKeyId_be _ _ hkid
      rw [if_pos ⟨trivial, hvl, hkd⟩]
      have hdrop : (be16 esa.key_id ++
          padTrunc (hash_digest_length esa.hash_algo) (g esa)).drop 2 =
          padTrunc (hash_digest_length esa.hash_algo) (g esa) := rfl
      rw [hdrop, padTrunc_eq hlen]
      exact List.mem_cons_self _ _
    · simp only [List.map_cons, hmacFinalTLV, hmacDigestsIn]
      have ih := mem_hmacDigestsIn_map g esa hkid hlen es htail
      split
      · exact List.mem_cons_of_mem _ ih
      · exact ih

theorem padTLVsSpec_append (addr : List Nat) :
    ∀ xs ys, padTLVsSpec addr (xs ++ ys) =
      padTLVsSpec addr xs ++ padTLVsSpec addr ys
  | [], ys => rfl
  | t :: r, ys => by
    simp [padTLVsSpec, padTLVsSpec_append addr r ys, List.append_assoc]

theorem padTLVspec_non_hmac (addr : List Nat) (t : TLV)
    (h : ∀ v, t ≠ TLV.raw MESSAGE_HMAC v) :
    padTLVspec addr t = serializeTLV t := by
  cases t with
  | pad1 => rfl
  | raw u v =>
    have hu : u ≠ MESSAGE_HMAC := by
      intro hc
      subst hc
      exact h v rfl
    simp [padTLVspec, serializeTLV, hu]

theorem padTLVsSpec_no_hmac (addr : List Nat) :
    ∀ xs : List TLV, (∀ v, TLV.raw MESSAGE_HMAC v ∉ xs) →
      padTLVsSpec addr xs = serializeTLVs xs
  | [], _ => rfl
  | t :: r, hx => by
    have ht : padTLVspec addr t = serializeTLV t := by
      refine padTLVspec_non_hmac addr t ?_
      intro v hv
      subst hv
      exact hx v (List.mem_cons_self _ _)
    simp only [padTLVsSpec, serializeTLVs, ht]
    rw [padTLVsSpec_no_hmac addr r (fun v hv => hx v (List.mem_cons_of_mem _ hv))]

/-- Padding a digest-filled HMAC TLV restores the placeholder TLV. -/
theorem padTLVspec_final (addr : List Nat) (e : EsaItem) (L : List Nat)
    (hA : addr.length = 16) :
    padTLVspec addr (hmacFinalTLV e L) = placeholderTLV addr e := by
  have h16 := hash_digest_length_ge e.hash_algo
  have htake : (be16 e.key_id ++
      padTrunc (hash_digest_length e.hash_algo) L).take 2 = be16 e.key_id := rfl
  simp only [hmacFinalTLV, padTLVspec, if_pos rfl, htake, placeholderTLV]
  have hvl : (be16 e.key_id ++
      padTrunc (hash_digest_length e.hash_algo) L).length =
      2 + hash_digest_length e.hash_algo := by
    simp [be16, padTrunc_length]
    omega
  rw [hvl]
  have hrep : 2 + hash_digest_length e.hash_algo - 18 =
      hash_digest_length e.hash_algo - 16 := by omega
  rw [hrep]
  simp [List.append_assoc]

theorem padTLVsSpec_final_map (addr : List Nat) (g : EsaItem → List Nat)
    (hA : addr.length = 16) :
    ∀ l : List EsaItem,
      padTLVsSpec addr (l.map (fun e => hmacFinalTLV e (g e))) =
        serializeTLVs (l.map (hmacPlaceholderTLV addr))
  | [] => rfl
  | e :: es => by
    simp only [List.map_cons, padTLVsSpec, serializeTLVs]
    rw [padTLVspec_final addr e (g e) hA, placeholderTLV_serialize addr e hA,
      padTLVsSpec_final_map addr g hA es]

/-- Padding the transmitted image of babel_auth_make_packet restores
exactly the image whose digests were computed. -/
theorem pad_final_eq_authImage (addr : List Nat) (bodyT : List TLV) (pc ts : Nat)
    (esasOut : List EsaItem) (g : EsaItem → List Nat)
    (hA : addr.length = 16)
    (hnoH : ∀ v, TLV.raw MESSAGE_HMAC v ∉ bodyT)
    (hwfF : ∀ t ∈ bodyT ++ tspcViewTLV pc ts ::
      esasOut.map (fun e => hmacFinalTLV e (g e)), wfTLV t) :
    babel_auth_pad_packet
      (RTPROT_BABEL :: 2 ::
        be16 (makeNewBodyLen addr (serializeTLVs bodyT) esasOut % 65536) ++
        serializeTLVs (bodyT ++ tspcViewTLV pc ts ::
          esasOut.map (fun e => hmacFinalTLV e (g e)))) addr =
      makeAuthImage addr (serializeTLVs bodyT) pc ts esasOut := by
  have hhdr : (RTPROT_BABEL :: 2 ::
      be16 (makeNewBodyLen addr (serializeTLVs bodyT) esasOut % 65536)).length = 4 := by
    simp [be16]
  rw [show RTPROT_BABEL :: 2 ::
      be16 (makeNewBodyLen addr (serializeTLVs bodyT) esasOut % 65536) ++
      serializeTLVs (bodyT ++ tspcViewTLV pc ts ::
        esasOut.map (fun e => hmacFinalTLV e (g e))) =
    (RTPROT_BABEL :: 2 ::
      be16 (makeNewBodyLen addr (serializeTLVs bodyT) esasOut % 65536)) ++
      serializeTLVs (bodyT ++ tspcViewTLV pc ts ::
        esasOut.map (fun e => hmacFinalTLV e (g e))) from rfl]
  rw [pad_packet_serialized _ addr _ hhdr hwfF]
  rw [makeAuthImage_serialized addr bodyT pc ts esasOut hA]
  rw [show RTPROT_BABEL :: 2 ::
      be16 (makeNewBodyLen addr (serializeTLVs bodyT) esasOut % 65536) ++
      serializeTLVs (bodyT ++ tspcViewTLV pc ts ::
        esasOut.map (hmacPlaceholderTLV addr)) =
    (RTPROT_BABEL :: 2 ::
      be16 (makeNewBodyLen addr (serializeTLVs bodyT) esasOut % 65536)) ++
      serializeTLVs (bodyT ++ tspcViewTLV pc ts ::
        esasOut.map (hmacPlaceholderTLV addr)) from rfl]
  congr 1
  rw [padTLVsSpec_append, serializeTLVs_append]
  rw [padTLVsSpec_no_hmac addr bodyT hnoH]
  congr 1
  have htspc : padTLVspec addr (tspcViewTLV pc ts) = serializeTLV (tspcViewTLV pc ts) := by
    refine padTLVspec_non_hmac addr _ ?_
    intro v hv
    simp only [tspcViewTLV, TLV.raw.injEq] at hv
    exact absurd hv.1 (by decide)
  simp only [padTLVsSpec, serializeTLVs, htspc]
  rw [padTLVsSpec_final_map addr g hA esasOut]

/-- If some accept-list ESA within the digest budget carries a matching
digest in the packet, the ESA loop of babel_auth_check_packet succeeds
(with a total HMAC primitive). -/
theorem esaLoop_ok_of_mem_digest (hmacD : Nat → List Nat → List Nat → List Nat)
    (d padded : List Nat) (tlvs : List TLV)
    (hwf : ∀ t ∈ tlvs, wfTLV t) (hd : d.drop 4 = serializeTLVs tlvs) :
    ∀ (esas : List EsaItem) (done j : Nat) (hj : j < esas.length),
      done + j < BABEL_MAXDIGESTSIN →
      hmacD (esas.get ⟨j, hj⟩).hash_algo padded (esas.get ⟨j, hj⟩).key_secret ∈
        hmacDigestsIn (esas.get ⟨j, hj⟩).hash_algo (esas.get ⟨j, hj⟩).key_id tlvs →
      (esaLoop (fun a m k => some (hmacD a m k)) d padded esas done).result = .ok
  | [], done, j, hj, hbud, hmem => absurd hj (by simp)
  | e :: es, done, j, hj, hbud, hmem => by
    have h4 : BABEL_MAXDIGESTSIN = 4 := rfl
    have hmax : done ≠ BABEL_MAXDIGESTSIN := by omega
    cases j with
    | zero =>
      have hL := tryHmacLoop_serialized_none_some (fun a m k => some (hmacD a m k))
        padded e.hash_algo e.key_id e.key_secret
        (hmacD e.hash_algo padded e.key_secret) rfl tlvs d 4 done hwf hd
      have hmem0 : hmacD e.hash_algo padded e.key_secret ∈
          hmacDigestsIn e.hash_algo e.key_id tlvs := hmem
      have htry : babel_auth_try_hmac_tlvs (fun a m k => some (hmacD a m k))
          d padded e done = .ok (done + 1) := by
        unfold babel_auth_try_hmac_tlvs
        rw [if_neg hmax, hL]
        have hne : hmacDigestsIn e.hash_algo e.key_id tlvs ≠ [] := by
          intro hc
          rw [hc] at hmem0
          cases hmem0
        rw [if_neg hne, if_pos hmem0]
      simp [esaLoop, htry]
    | succ i =>
      obtain ⟨hb1, hb2, _, _⟩ := try_hmac_tlvs_bounds (fun a m k => some (hmacD a m k))
        d padded e done
      have hilen : i < es.length := by
        simp only [List.length_cons] at hj
        omega
      have hmem2 : hmacD (es.get ⟨i, hilen⟩).hash_algo padded
          (es.get ⟨i, hilen⟩).key_secret ∈
          hmacDigestsIn (es.get ⟨i, hilen⟩).hash_algo (es.get ⟨i, hilen⟩).key_id tlvs :=
        hmem
      rcases hcall : babel_auth_try_hmac_tlvs (fun a m k => some (hmacD a m k))
          d padded e done with d2 | d2 | d2
      · simp [esaLoop, hcall]
      · rw [hcall] at hb1 hb2
        simp only [doneOf] at hb1 hb2
        have ih := esaLoop_ok_of_mem_digest hmacD d padded tlvs hwf hd es d2 i hilen
          (by omega) hmem2
        simp [esaLoop, hcall, ih]
      · have hne := try_hmac_tlvs_no_err (fun a m k => some (hmacD a m k)) d padded e
          done (fun a m k => by simp)
        rw [hcall] at hne
        cases hne

/-- General successful round trip: proved as `round_trip_input_serialized`
plus the walk characterizations; see `authenticated_round_trip`. -/
theorem round_trip_input_serialized (addr : List Nat) (bodyT : List TLV) (pc ts : Nat)
    (esasOut : List EsaItem) (g : EsaItem → List Nat) :
    RTPROT_BABEL :: 2 ::
        be16 (makeNewBodyLen addr (serializeTLVs bodyT) esasOut % 65536) ++
      (serializeTLVs bodyT ++
        (makeFinalImage addr (serializeTLVs bodyT) pc ts esasOut (esasOut.map g)).drop
          (4 + (serializeTLVs bodyT).length)) =
    RTPROT_BABEL :: 2 ::
        be16 (makeNewBodyLen addr (serializeTLVs bodyT) esasOut % 65536) ++
      serializeTLVs (bodyT ++ tspcViewTLV pc ts ::
        esasOut.map (fun e => hmacFinalTLV e (g e))) := by
  have h1 : makeFinalImage addr (serializeTLVs bodyT) pc ts esasOut (esasOut.map g) =
      RTPROT_BABEL :: 2 ::
          be16 (makeNewBodyLen addr (serializeTLVs bodyT) esasOut % 65536) ++
        serializeTLVs bodyT ++ tspcTLV pc ts ++
        (List.zipWith digestTLV esasOut (esasOut.map g)).flatten := rfl
  have h2 := make_image_drop (makeNewBodyLen addr (serializeTLVs bodyT) esasOut % 65536)
    (serializeTLVs bodyT) (tspcTLV pc ts)
    ((List.zipWith digestTLV esasOut (esasOut.map g)).flatten)
  have h3 := makeFinalImage_serialized addr bodyT pc ts esasOut g
  rw [h1, h2, ← h3, h1]
  simp [List.append_assoc]

/-- Claim C1 (amended): the packet built by babel_auth_make_packet is
accepted by babel_auth_check_packet whenever the original body is a
well-formed TLV stream free of TS/PC and HMAC TLVs, the HMAC primitive is
total and honours its digest-length contract, the sender counters are
within their wire widths, some outbound ESA (within the first
BABEL_MAXDIGESTSOUT) agrees with an accept-side ESA within the first
BABEL_MAXDIGESTSIN positions on algorithm, key id and secret, and the
receiver's stored TS/PC pair lies strictly below the bumped pair. -/
theorem authenticated_round_trip
    (env_s env_r : List Keychain) (ksnd kacc : Keychain → Nat → List Key)
    (hmacD : Nat → List Nat → List Nat → List Nat)
    (ts_base now_s now_r : Nat) (ifp_s ifp_r : BabelInterface)
    (addr : List Nat) (bodyT : List TLV) (anml : List AnmRecord)
    (gs1 is1 gs2 is2 : Stats) (j : Nat) (esa esar : EsaItem)
    (hlen : ∀ a m k, (hmacD a m k).length = hash_digest_length a)
    (hbyte : ∀ a m k b, b ∈ hmacD a m k → b < 256)
    (haddr : addr.length = 16)
    (hwfB : ∀ t ∈ bodyT, wfTLV t)
    (hnoT : ∀ v, TLV.raw MESSAGE_TSPC v ∉ bodyT)
    (hnoH : ∀ v, TLV.raw MESSAGE_HMAC v ∉ bodyT)
    (hts : ifp_s.auth_timestamp < 4294967296)
    (hpc : ifp_s.auth_packetcounter < 65536)
    (hsend : esa ∈ ((babel_esalist_derive env_s ksnd ifp_s.csalist now_s).take BABEL_MAXDIGESTSOUT))
    (hrecv : (babel_esalist_derive env_r kacc ifp_r.csalist now_r)[j]? = some esar)
    (hj : j < BABEL_MAXDIGESTSIN)
    (halgo : esar.hash_algo = esa.hash_algo)
    (hkid : esar.key_id = esa.key_id)
    (hkey : esar.key_secret = esa.key_secret)
    (hstored : tsPcLt ((storedPcTs anml addr ifp_r.ifindex).2, (storedPcTs anml addr ifp_r.ifindex).1) ((babel_auth_bump_tspc ts_base now_s ifp_s.auth_timestamp ifp_s.auth_packetcounter).1, (babel_auth_bump_tspc ts_base now_s ifp_s.auth_timestamp ifp_s.auth_packetcounter).2)) :
    (babel_auth_check_packet env_r kacc (fun a m k => some (hmacD a m k)) ifp_r anml gs2 is2 addr (RTPROT_BABEL :: 2 :: be16 ((babel_auth_make_packet env_s ksnd (fun a m k => some (hmacD a m k)) ts_base ifp_s (some addr) (serializeTLVs bodyT) now_s gs1 is1).retLen % 65536) ++ (babel_auth_make_packet env_s ksnd (fun a m k => some (hmacD a m k)) ts_base ifp_s (some addr) (serializeTLVs bodyT) now_s gs1 is1).bodyOut) now_r).result = Msg.ok ∧ (babel_auth_check_packet env_r kacc (fun a m k => some (hmacD a m k)) ifp_r anml gs2 is2 addr (RTPROT_BABEL :: 2 :: be16 ((babel_auth_make_packet env_s ksnd (fun a m k => some (hmacD a m k)) ts_base ifp_s (some addr) (serializeTLVs bodyT) now_s gs1 is1).retLen % 65536) ++ (babel_auth_make_packet env_s ksnd (fun a m k => some (hmacD a m k)) ts_base ifp_s (some addr) (serializeTLVs bodyT) now_s gs1 is1).bodyOut) now_r).retval = Msg.ok := by
  have hcs_s : ifp_s.csalist ≠ [] := by
    intro hc
    rw [hc] at hsend
    simp [babel_esalist_derive, deriveCsas] at hsend
  have hcs_r : ifp_r.csalist ≠ [] := by
    intro hc
    rw [hc] at hrecv
    simp [babel_esalist_derive, deriveCsas] at hrecv
  obtain ⟨hts2, hpc2⟩ := bump_tspc_range ts_base now_s ifp_s.auth_timestamp
    ifp_s.auth_packetcounter hts hpc
  have hfill := fillDigests_total hmacD (makeAuthImage addr (serializeTLVs bodyT) (babel_auth_bump_tspc ts_base now_s ifp_s.auth_timestamp ifp_s.auth_packetcounter).2 (babel_auth_bump_tspc ts_base now_s ifp_s.auth_timestamp ifp_s.auth_packetcounter).1 ((babel_esalist_derive env_s ksnd ifp_s.csalist now_s).take BABEL_MAXDIGESTSOUT)) ((babel_esalist_derive env_s ksnd ifp_s.csalist now_s).take BABEL_MAXDIGESTSOUT)
  have hmk := make_packet_success env_s ksnd (fun a m k => some (hmacD a m k)) ts_base ifp_s addr (serializeTLVs bodyT) now_s gs1 is1
    (((babel_esalist_derive env_s ksnd ifp_s.csalist now_s).take BABEL_MAXDIGESTSOUT).map (fun e => hmacD e.hash_algo (makeAuthImage addr (serializeTLVs bodyT) (babel_auth_bump_tspc ts_base now_s ifp_s.auth_timestamp ifp_s.auth_packetcounter).2 (babel_auth_bump_tspc ts_base now_s ifp_s.auth_timestamp ifp_s.auth_packetcounter).1 ((babel_esalist_derive env_s ksnd ifp_s.csalist now_s).take BABEL_MAXDIGESTSOUT)) e.key_secret)) hcs_s hfill
  have hret : (babel_auth_make_packet env_s ksnd (fun a m k => some (hmacD a m k)) ts_base ifp_s (some addr) (serializeTLVs bodyT) now_s gs1 is1).retLen = makeNewBodyLen addr (serializeTLVs bodyT) ((babel_esalist_derive env_s ksnd ifp_s.csalist now_s).take BABEL_MAXDIGESTSOUT) := by
    rw [hmk]
  have hbody : (babel_auth_make_packet env_s ksnd (fun a m k => some (hmacD a m k)) ts_base ifp_s (some addr) (serializeTLVs bodyT) now_s gs1 is1).bodyOut = (serializeTLVs bodyT) ++
      (makeFinalImage addr (serializeTLVs bodyT) (babel_auth_bump_tspc ts_base now_s ifp_s.auth_timestamp ifp_s.auth_packetcounter).2 (babel_auth_bump_tspc ts_base now_s ifp_s.auth_timestamp ifp_s.auth_packetcounter).1 ((babel_esalist_derive env_s ksnd ifp_s.csalist now_s).take BABEL_MAXDIGESTSOUT) (((babel_esalist_derive env_s ksnd ifp_s.csalist now_s).take BABEL_MAXDIGESTSOUT).map (fun e => hmacD e.hash_algo (makeAuthImage addr (serializeTLVs bodyT) (babel_auth_bump_tspc ts_base now_s ifp_s.auth_timestamp ifp_s.auth_packetcounter).2 (babel_auth_bump_tspc ts_base now_s ifp_s.auth_timestamp ifp_s.auth_packetcounter).1 ((babel_esalist_derive env_s ksnd ifp_s.csalist now_s).take BABEL_MAXDIGESTSOUT)) e.key_secret))).drop (4 + (serializeTLVs bodyT).length) := by
    rw [hmk]
  have hfinal_eq : (RTPROT_BABEL :: 2 :: be16 ((babel_auth_make_packet env_s ksnd (fun a m k => some (hmacD a m k)) ts_base ifp_s (some addr) (serializeTLVs bodyT) now_s gs1 is1).retLen % 65536) ++ (babel_auth_make_packet env_s ksnd (fun a m k => some (hmacD a m k)) ts_base ifp_s (some addr) (serializeTLVs bodyT) now_s gs1 is1).bodyOut) = (RTPROT_BABEL :: 2 :: be16 (makeNewBodyLen addr (serializeTLVs bodyT) ((babel_esalist_derive env_s ksnd ifp_s.csalist now_s).take BABEL_MAXDIGESTSOUT) % 65536) ++ serializeTLVs (bodyT ++ tspcViewTLV (babel_auth_bump_tspc ts_base now_s ifp_s.auth_timestamp ifp_s.auth_packetcounter).2 (babel_auth_bump_tspc ts_base now_s ifp_s.auth_timestamp ifp_s.auth_packetcounter).1 :: ((babel_esalist_derive env_s ksnd ifp_s.csalist now_s).take BABEL_MAXDIGESTSOUT).map (fun e => hmacFinalTLV e (hmacD e.hash_algo (makeAuthImage addr (serializeTLVs bodyT) (babel_auth_bump_tspc ts_base now_s ifp_s.auth_timestamp ifp_s.auth_packetcounter).2 (babel_auth_bump_tspc ts_base now_s ifp_s.auth_timestamp ifp_s.auth_packetcounter).1 ((babel_esalist_derive env_s ksnd ifp_s.csalist now_s).take BABEL_MAXDIGESTSOUT)) e.key_secret)))) := by
    rw [hret, hbody]
    exact round_trip_input_serialized addr bodyT (babel_auth_bump_tspc ts_base now_s ifp_s.auth_timestamp ifp_s.auth_packetcounter).2 (babel_auth_bump_tspc ts_base now_s ifp_s.auth_timestamp ifp_s.auth_packetcounter).1 ((babel_esalist_derive env_s ksnd ifp_s.csalist now_s).take BABEL_MAXDIGESTSOUT)
      (fun e => hmacD e.hash_algo (makeAuthImage addr (serializeTLVs bodyT) (babel_auth_bump_tspc ts_base now_s ifp_s.auth_timestamp ifp_s.auth_packetcounter).2 (babel_auth_bump_tspc ts_base now_s ifp_s.auth_timestamp ifp_s.auth_packetcounter).1 ((babel_esalist_derive env_s ksnd ifp_s.csalist now_s).take BABEL_MAXDIGESTSOUT)) e.key_secret)
  have hwfF : ∀ t ∈ (bodyT ++ tspcViewTLV (babel_auth_bump_tspc ts_base now_s ifp_s.auth_timestamp ifp_s.auth_packetcounter).2 (babel_auth_bump_tspc ts_base now_s ifp_s.auth_timestamp ifp_s.auth_packetcounter).1 :: ((babel_esalist_derive env_s ksnd ifp_s.csalist now_s).take BABEL_MAXDIGESTSOUT).map (fun e => hmacFinalTLV e (hmacD e.hash_algo (makeAuthImage addr (serializeTLVs bodyT) (babel_auth_bump_tspc ts_base now_s ifp_s.auth_timestamp ifp_s.auth_packetcounter).2 (babel_auth_bump_tspc ts_base now_s ifp_s.auth_timestamp ifp_s.auth_packetcounter).1 ((babel_esalist_derive env_s ksnd ifp_s.csalist now_s).take BABEL_MAXDIGESTSOUT)) e.key_secret))), wfTLV t := by
    intro t ht
    rcases List.mem_append.mp ht with h | h
    · exact hwfB t h
    · rcases List.mem_cons.mp h with rfl | h2
      · exact wf_tspcViewTLV _ _
      · obtain ⟨e, he, rfl⟩ := List.mem_map.mp h2
        exact wf_hmacFinalTLV e _ (hlen _ _ _) (fun b hb => hbyte _ _ _ b hb)
  have hfirst : firstTspcPair (bodyT ++ tspcViewTLV (babel_auth_bump_tspc ts_base now_s ifp_s.auth_timestamp ifp_s.auth_packetcounter).2 (babel_auth_bump_tspc ts_base now_s ifp_s.auth_timestamp ifp_s.auth_packetcounter).1 :: ((babel_esalist_derive env_s ksnd ifp_s.csalist now_s).take BABEL_MAXDIGESTSOUT).map (fun e => hmacFinalTLV e (hmacD e.hash_algo (makeAuthImage addr (serializeTLVs bodyT) (babel_auth_bump_tspc ts_base now_s ifp_s.auth_timestamp ifp_s.auth_packetcounter).2 (babel_auth_bump_tspc ts_base now_s ifp_s.auth_timestamp ifp_s.auth_packetcounter).1 ((babel_esalist_derive env_s ksnd ifp_s.csalist now_s).take BABEL_MAXDIGESTSOUT)) e.key_secret))) = some ((babel_auth_bump_tspc ts_base now_s ifp_s.auth_timestamp ifp_s.auth_packetcounter).2, (babel_auth_bump_tspc ts_base now_s ifp_s.auth_timestamp ifp_s.auth_packetcounter).1) := by
    rw [show firstTspcPair (bodyT ++ tspcViewTLV (babel_auth_bump_tspc ts_base now_s ifp_s.auth_timestamp ifp_s.auth_packetcounter).2 (babel_auth_bump_tspc ts_base now_s ifp_s.auth_timestamp ifp_s.auth_packetcounter).1 :: ((babel_esalist_derive env_s ksnd ifp_s.csalist now_s).take BABEL_MAXDIGESTSOUT).map (fun e => hmacFinalTLV e (hmacD e.hash_algo (makeAuthImage addr (serializeTLVs bodyT) (babel_auth_bump_tspc ts_base now_s ifp_s.auth_timestamp ifp_s.auth_packetcounter).2 (babel_auth_bump_tspc ts_base now_s ifp_s.auth_timestamp ifp_s.auth_packetcounter).1 ((babel_esalist_derive env_s ksnd ifp_s.csalist now_s).take BABEL_MAXDIGESTSOUT)) e.key_secret))) =
      firstTspcPair (bodyT ++ (tspcViewTLV (babel_auth_bump_tspc ts_base now_s ifp_s.auth_timestamp ifp_s.auth_packetcounter).2 (babel_auth_bump_tspc ts_base now_s ifp_s.auth_timestamp ifp_s.auth_packetcounter).1 ::
        ((babel_esalist_derive env_s ksnd ifp_s.csalist now_s).take BABEL_MAXDIGESTSOUT).map (fun e => hmacFinalTLV e (hmacD e.hash_algo (makeAuthImage addr (serializeTLVs bodyT) (babel_auth_bump_tspc ts_base now_s ifp_s.auth_timestamp ifp_s.auth_packetcounter).2 (babel_auth_bump_tspc ts_base now_s ifp_s.auth_timestamp ifp_s.auth_packetcounter).1 ((babel_esalist_derive env_s ksnd ifp_s.csalist now_s).take BABEL_MAXDIGESTSOUT)) e.key_secret)))) from rfl]
    rw [firstTspcPair_append_none bodyT hnoT]
    exact firstTspcPair_tspcView (babel_auth_bump_tspc ts_base now_s ifp_s.auth_timestamp ifp_s.auth_packetcounter).2 (babel_auth_bump_tspc ts_base now_s ifp_s.auth_timestamp ifp_s.auth_packetcounter).1 _ hpc2 hts2
  have haccept : tspcAccept (babel_auth_bump_tspc ts_base now_s ifp_s.auth_timestamp ifp_s.auth_packetcounter).2 (babel_auth_bump_tspc ts_base now_s ifp_s.auth_timestamp ifp_s.auth_packetcounter).1 (storedPcTs anml addr ifp_r.ifindex).1 (storedPcTs anml addr ifp_r.ifindex).2 := by
    have hst := hstored
    simp [tsPcLt] at hst
    simp only [tspcAccept]
    omega
  obtain ⟨off, hoff, -, -⟩ := ((check_tspc_packet (RTPROT_BABEL :: 2 :: be16 (makeNewBodyLen addr (serializeTLVs bodyT) ((babel_esalist_derive env_s ksnd ifp_s.csalist now_s).take BABEL_MAXDIGESTSOUT) % 65536)) (bodyT ++ tspcViewTLV (babel_auth_bump_tspc ts_base now_s ifp_s.auth_timestamp ifp_s.auth_packetcounter).2 (babel_auth_bump_tspc ts_base now_s ifp_s.auth_timestamp ifp_s.auth_packetcounter).1 :: ((babel_esalist_derive env_s ksnd ifp_s.csalist now_s).take BABEL_MAXDIGESTSOUT).map (fun e => hmacFinalTLV e (hmacD e.hash_algo (makeAuthImage addr (serializeTLVs bodyT) (babel_auth_bump_tspc ts_base now_s ifp_s.auth_timestamp ifp_s.auth_packetcounter).2 (babel_auth_bump_tspc ts_base now_s ifp_s.auth_timestamp ifp_s.auth_packetcounter).1 ((babel_esalist_derive env_s ksnd ifp_s.csalist now_s).take BABEL_MAXDIGESTSOUT)) e.key_secret)))
    (storedPcTs anml addr ifp_r.ifindex).1 (storedPcTs anml addr ifp_r.ifindex).2 (by simp [be16]) hwfF).2 (babel_auth_bump_tspc ts_base now_s ifp_s.auth_timestamp ifp_s.auth_packetcounter).2 (babel_auth_bump_tspc ts_base now_s ifp_s.auth_timestamp ifp_s.auth_packetcounter).1 hfirst).1 haccept
  rw [show (RTPROT_BABEL :: 2 :: be16 (makeNewBodyLen addr (serializeTLVs bodyT) ((babel_esalist_derive env_s ksnd ifp_s.csalist now_s).take BABEL_MAXDIGESTSOUT) % 65536)) ++ serializeTLVs (bodyT ++ tspcViewTLV (babel_auth_bump_tspc ts_base now_s ifp_s.auth_timestamp ifp_s.auth_packetcounter).2 (babel_auth_bump_tspc ts_base now_s ifp_s.auth_timestamp ifp_s.auth_packetcounter).1 :: ((babel_esalist_derive env_s ksnd ifp_s.csalist now_s).take BABEL_MAXDIGESTSOUT).map (fun e => hmacFinalTLV e (hmacD e.hash_algo (makeAuthImage addr (serializeTLVs bodyT) (babel_auth_bump_tspc ts_base now_s ifp_s.auth_timestamp ifp_s.auth_packetcounter).2 (babel_auth_bump_tspc ts_base now_s ifp_s.auth_timestamp ifp_s.auth_packetcounter).1 ((babel_esalist_derive env_s ksnd ifp_s.csalist now_s).take BABEL_MAXDIGESTSOUT)) e.key_secret))) = (RTPROT_BABEL :: 2 :: be16 (makeNewBodyLen addr (serializeTLVs bodyT) ((babel_esalist_derive env_s ksnd ifp_s.csalist now_s).take BABEL_MAXDIGESTSOUT) % 65536) ++ serializeTLVs (bodyT ++ tspcViewTLV (babel_auth_bump_tspc ts_base now_s ifp_s.auth_timestamp ifp_s.auth_packetcounter).2 (babel_auth_bump_tspc ts_base now_s ifp_s.auth_timestamp ifp_s.auth_packetcounter).1 :: ((babel_esalist_derive env_s ksnd ifp_s.csalist now_s).take BABEL_MAXDIGESTSOUT).map (fun e => hmacFinalTLV e (hmacD e.hash_algo (makeAuthImage addr (serializeTLVs bodyT) (babel_auth_bump_tspc ts_base now_s ifp_s.auth_timestamp ifp_s.auth_packetcounter).2 (babel_auth_bump_tspc ts_base now_s ifp_s.auth_timestamp ifp_s.auth_packetcounter).1 ((babel_esalist_derive env_s ksnd ifp_s.csalist now_s).take BABEL_MAXDIGESTSOUT)) e.key_secret)))) from rfl] at hoff
  have hd4 : (RTPROT_BABEL :: 2 :: be16 (makeNewBodyLen addr (serializeTLVs bodyT) ((babel_esalist_derive env_s ksnd ifp_s.csalist now_s).take BABEL_MAXDIGESTSOUT) % 65536) ++ serializeTLVs (bodyT ++ tspcViewTLV (babel_auth_bump_tspc ts_base now_s ifp_s.auth_timestamp ifp_s.auth_packetcounter).2 (babel_auth_bump_tspc ts_base now_s ifp_s.auth_timestamp ifp_s.auth_packetcounter).1 :: ((babel_esalist_derive env_s ksnd ifp_s.csalist now_s).take BABEL_MAXDIGESTSOUT).map (fun e => hmacFinalTLV e (hmacD e.hash_algo (makeAuthImage addr (serializeTLVs bodyT) (babel_auth_bump_tspc ts_base now_s ifp_s.auth_timestamp ifp_s.auth_packetcounter).2 (babel_auth_bump_tspc ts_base now_s ifp_s.auth_timestamp ifp_s.auth_packetcounter).1 ((babel_esalist_derive env_s ksnd ifp_s.csalist now_s).take BABEL_MAXDIGESTSOUT)) e.key_secret)))).drop 4 = serializeTLVs (bodyT ++ tspcViewTLV (babel_auth_bump_tspc ts_base now_s ifp_s.auth_timestamp ifp_s.auth_packetcounter).2 (babel_auth_bump_tspc ts_base now_s ifp_s.auth_timestamp ifp_s.auth_packetcounter).1 :: ((babel_esalist_derive env_s ksnd ifp_s.csalist now_s).take BABEL_MAXDIGESTSOUT).map (fun e => hmacFinalTLV e (hmacD e.hash_algo (makeAuthImage addr (serializeTLVs bodyT) (babel_auth_bump_tspc ts_base now_s ifp_s.auth_timestamp ifp_s.auth_packetcounter).2 (babel_auth_bump_tspc ts_base now_s ifp_s.auth_timestamp ifp_s.auth_packetcounter).1 ((babel_esalist_derive env_s ksnd ifp_s.csalist now_s).take BABEL_MAXDIGESTSOUT)) e.key_secret))) := by
    rw [show (RTPROT_BABEL :: 2 :: be16 (makeNewBodyLen addr (serializeTLVs bodyT) ((babel_esalist_derive env_s ksnd ifp_s.csalist now_s).take BABEL_MAXDIGESTSOUT) % 65536) ++ serializeTLVs (bodyT ++ tspcViewTLV (babel_auth_bump_tspc ts_base now_s ifp_s.auth_timestamp ifp_s.auth_packetcounter).2 (babel_auth_bump_tspc ts_base now_s ifp_s.auth_timestamp ifp_s.auth_packetcounter).1 :: ((babel_esalist_derive env_s ksnd ifp_s.csalist now_s).take BABEL_MAXDIGESTSOUT).map (fun e => hmacFinalTLV e (hmacD e.hash_algo (makeAuthImage addr (serializeTLVs bodyT) (babel_auth_bump_tspc ts_base now_s ifp_s.auth_timestamp ifp_s.auth_packetcounter).2 (babel_auth_bump_tspc ts_base now_s ifp_s.auth_timestamp ifp_s.auth_packetcounter).1 ((babel_esalist_derive env_s ksnd ifp_s.csalist now_s).take BABEL_MAXDIGESTSOUT)) e.key_secret)))) = (RTPROT_BABEL :: 2 :: be16 (makeNewBodyLen addr (serializeTLVs bodyT) ((babel_esalist_derive env_s ksnd ifp_s.csalist now_s).take BABEL_MAXDIGESTSOUT) % 65536)) ++ serializeTLVs (bodyT ++ tspcViewTLV (babel_auth_bump_tspc ts_base now_s ifp_s.auth_timestamp ifp_s.auth_packetcounter).2 (babel_auth_bump_tspc ts_base now_s ifp_s.auth_timestamp ifp_s.auth_packetcounter).1 :: ((babel_esalist_derive env_s ksnd ifp_s.csalist now_s).take BABEL_MAXDIGESTSOUT).map (fun e => hmacFinalTLV e (hmacD e.hash_algo (makeAuthImage addr (serializeTLVs bodyT) (babel_auth_bump_tspc ts_base now_s ifp_s.auth_timestamp ifp_s.auth_packetcounter).2 (babel_auth_bump_tspc ts_base now_s ifp_s.auth_timestamp ifp_s.auth_packetcounter).1 ((babel_esalist_derive env_s ksnd ifp_s.csalist now_s).take BABEL_MAXDIGESTSOUT)) e.key_secret))) from rfl]
    exact List.drop_left' (by simp [be16])
  have hpad : babel_auth_pad_packet (RTPROT_BABEL :: 2 :: be16 (makeNewBodyLen addr (serializeTLVs bodyT) ((babel_esalist_derive env_s ksnd ifp_s.csalist now_s).take BABEL_MAXDIGESTSOUT) % 65536) ++ serializeTLVs (bodyT ++ tspcViewTLV (babel_auth_bump_tspc ts_base now_s ifp_s.auth_timestamp ifp_s.auth_packetcounter).2 (babel_auth_bump_tspc ts_base now_s ifp_s.auth_timestamp ifp_s.auth_packetcounter).1 :: ((babel_esalist_derive env_s ksnd ifp_s.csalist now_s).take BABEL_MAXDIGESTSOUT).map (fun e => hmacFinalTLV e (hmacD e.hash_algo (makeAuthImage addr (serializeTLVs bodyT) (babel_auth_bump_tspc ts_base now_s ifp_s.auth_timestamp ifp_s.auth_packetcounter).2 (babel_auth_bump_tspc ts_base now_s ifp_s.auth_timestamp ifp_s.auth_packetcounter).1 ((babel_esalist_derive env_s ksnd ifp_s.csalist now_s).take BABEL_MAXDIGESTSOUT)) e.key_secret)))) addr = (makeAuthImage addr (serializeTLVs bodyT) (babel_auth_bump_tspc ts_base now_s ifp_s.auth_timestamp ifp_s.auth_packetcounter).2 (babel_auth_bump_tspc ts_base now_s ifp_s.auth_timestamp ifp_s.auth_packetcounter).1 ((babel_esalist_derive env_s ksnd ifp_s.csalist now_s).take BABEL_MAXDIGESTSOUT)) :=
    pad_final_eq_authImage addr bodyT (babel_auth_bump_tspc ts_base now_s ifp_s.auth_timestamp ifp_s.auth_packetcounter).2 (babel_auth_bump_tspc ts_base now_s ifp_s.auth_timestamp ifp_s.auth_packetcounter).1 ((babel_esalist_derive env_s ksnd ifp_s.csalist now_s).take BABEL_MAXDIGESTSOUT)
      (fun e => hmacD e.hash_algo (makeAuthImage addr (serializeTLVs bodyT) (babel_auth_bump_tspc ts_base now_s ifp_s.auth_timestamp ifp_s.auth_packetcounter).2 (babel_auth_bump_tspc ts_base now_s ifp_s.auth_timestamp ifp_s.auth_packetcounter).1 ((babel_esalist_derive env_s ksnd ifp_s.csalist now_s).take BABEL_MAXDIGESTSOUT)) e.key_secret) haddr hnoH hwfF
  have hjlen : j < (babel_esalist_derive env_r kacc ifp_r.csalist now_r).length := by
    by_contra hcon
    rw [List.getElem?_eq_none (by omega)] at hrecv
    cases hrecv
  have hgetj : (babel_esalist_derive env_r kacc ifp_r.csalist now_r).get ⟨j, hjlen⟩ = esar := by
    rw [List.get_eq_getElem]
    rw [List.getElem?_eq_getElem hjlen] at hrecv
    exact Option.some.inj hrecv
  have hkidlt : esa.key_id < 65536 :=
    esalist_key_id_lt env_s ksnd ifp_s.csalist now_s esa (List.mem_of_mem_take hsend)
  have hmemdig : hmacD esa.hash_algo (makeAuthImage addr (serializeTLVs bodyT) (babel_auth_bump_tspc ts_base now_s ifp_s.auth_timestamp ifp_s.auth_packetcounter).2 (babel_auth_bump_tspc ts_base now_s ifp_s.auth_timestamp ifp_s.auth_packetcounter).1 ((babel_esalist_derive env_s ksnd ifp_s.csalist now_s).take BABEL_MAXDIGESTSOUT)) esa.key_secret ∈
      hmacDigestsIn esa.hash_algo esa.key_id (bodyT ++ tspcViewTLV (babel_auth_bump_tspc ts_base now_s ifp_s.auth_timestamp ifp_s.auth_packetcounter).2 (babel_auth_bump_tspc ts_base now_s ifp_s.auth_timestamp ifp_s.auth_packetcounter).1 :: ((babel_esalist_derive env_s ksnd ifp_s.csalist now_s).take BABEL_MAXDIGESTSOUT).map (fun e => hmacFinalTLV e (hmacD e.hash_algo (makeAuthImage addr (serializeTLVs bodyT) (babel_auth_bump_tspc ts_base now_s ifp_s.auth_timestamp ifp_s.auth_packetcounter).2 (babel_auth_bump_tspc ts_base now_s ifp_s.auth_timestamp ifp_s.auth_packetcounter).1 ((babel_esalist_derive env_s ksnd ifp_s.csalist now_s).take BABEL_MAXDIGESTSOUT)) e.key_secret))) := by
    rw [show ((bodyT ++ tspcViewTLV (babel_auth_bump_tspc ts_base now_s ifp_s.auth_timestamp ifp_s.auth_packetcounter).2 (babel_auth_bump_tspc ts_base now_s ifp_s.auth_timestamp ifp_s.auth_packetcounter).1 :: ((babel_esalist_derive env_s ksnd ifp_s.csalist now_s).take BABEL_MAXDIGESTSOUT).map (fun e => hmacFinalTLV e (hmacD e.hash_algo (makeAuthImage addr (serializeTLVs bodyT) (babel_auth_bump_tspc ts_base now_s ifp_s.auth_timestamp ifp_s.auth_packetcounter).2 (babel_auth_bump_tspc ts_base now_s ifp_s.auth_timestamp ifp_s.auth_packetcounter).1 ((babel_esalist_derive env_s ksnd ifp_s.csalist now_s).take BABEL_MAXDIGESTSOUT)) e.key_secret))) : List TLV) =
      bodyT ++ (tspcViewTLV (babel_auth_bump_tspc ts_base now_s ifp_s.auth_timestamp ifp_s.auth_packetcounter).2 (babel_auth_bump_tspc ts_base now_s ifp_s.auth_timestamp ifp_s.auth_packetcounter).1 ::
        ((babel_esalist_derive env_s ksnd ifp_s.csalist now_s).take BABEL_MAXDIGESTSOUT).map (fun e => hmacFinalTLV e (hmacD e.hash_algo (makeAuthImage addr (serializeTLVs bodyT) (babel_auth_bump_tspc ts_base now_s ifp_s.auth_timestamp ifp_s.auth_packetcounter).2 (babel_auth_bump_tspc ts_base now_s ifp_s.auth_timestamp ifp_s.auth_packetcounter).1 ((babel_esalist_derive env_s ksnd ifp_s.csalist now_s).take BABEL_MAXDIGESTSOUT)) e.key_secret))) from rfl]
    rw [hmacDigestsIn_append]
    refine List.mem_append_right _ ?_
    simp only [tspcViewTLV, hmacDigestsIn]
    rw [if_neg (by intro hc; exact absurd hc.1 (by decide))]
    exact mem_hmacDigestsIn_map (fun e => hmacD e.hash_algo (makeAuthImage addr (serializeTLVs bodyT) (babel_auth_bump_tspc ts_base now_s ifp_s.auth_timestamp ifp_s.auth_packetcounter).2 (babel_auth_bump_tspc ts_base now_s ifp_s.auth_timestamp ifp_s.auth_packetcounter).1 ((babel_esalist_derive env_s ksnd ifp_s.csalist now_s).take BABEL_MAXDIGESTSOUT)) e.key_secret) esa
      hkidlt (hlen _ _ _) ((babel_esalist_derive env_s ksnd ifp_s.csalist now_s).take BABEL_MAXDIGESTSOUT) hsend
  have hok : (esaLoop (fun a m k => some (hmacD a m k)) (RTPROT_BABEL :: 2 :: be16 (makeNewBodyLen addr (serializeTLVs bodyT) ((babel_esalist_derive env_s ksnd ifp_s.csalist now_s).take BABEL_MAXDIGESTSOUT) % 65536) ++ serializeTLVs (bodyT ++ tspcViewTLV (babel_auth_bump_tspc ts_base now_s ifp_s.auth_timestamp ifp_s.auth_packetcounter).2 (babel_auth_bump_tspc ts_base now_s ifp_s.auth_timestamp ifp_s.auth_packetcounter).1 :: ((babel_esalist_derive env_s ksnd ifp_s.csalist now_s).take BABEL_MAXDIGESTSOUT).map (fun e => hmacFinalTLV e (hmacD e.hash_algo (makeAuthImage addr (serializeTLVs bodyT) (babel_auth_bump_tspc ts_base now_s ifp_s.auth_timestamp ifp_s.auth_packetcounter).2 (babel_auth_bump_tspc ts_base now_s ifp_s.auth_timestamp ifp_s.auth_packetcounter).1 ((babel_esalist_derive env_s ksnd ifp_s.csalist now_s).take BABEL_MAXDIGESTSOUT)) e.key_secret)))) (babel_auth_pad_packet (RTPROT_BABEL :: 2 :: be16 (makeNewBodyLen addr (serializeTLVs bodyT) ((babel_esalist_derive env_s ksnd ifp_s.csalist now_s).take BABEL_MAXDIGESTSOUT) % 65536) ++ serializeTLVs (bodyT ++ tspcViewTLV (babel_auth_bump_tspc ts_base now_s ifp_s.auth_timestamp ifp_s.auth_packetcounter).2 (babel_auth_bump_tspc ts_base now_s ifp_s.auth_timestamp ifp_s.auth_packetcounter).1 :: ((babel_esalist_derive env_s ksnd ifp_s.csalist now_s).take BABEL_MAXDIGESTSOUT).map (fun e => hmacFinalTLV e (hmacD e.hash_algo (makeAuthImage addr (serializeTLVs bodyT) (babel_auth_bump_tspc ts_base now_s ifp_s.auth_timestamp ifp_s.auth_packetcounter).2 (babel_auth_bump_tspc ts_base now_s ifp_s.auth_timestamp ifp_s.auth_packetcounter).1 ((babel_esalist_derive env_s ksnd ifp_s.csalist now_s).take BABEL_MAXDIGESTSOUT)) e.key_secret)))) addr) (babel_esalist_derive env_r kacc ifp_r.csalist now_r) 0).result = .ok := by
    refine esaLoop_ok_of_mem_digest hmacD (RTPROT_BABEL :: 2 :: be16 (makeNewBodyLen addr (serializeTLVs bodyT) ((babel_esalist_derive env_s ksnd ifp_s.csalist now_s).take BABEL_MAXDIGESTSOUT) % 65536) ++ serializeTLVs (bodyT ++ tspcViewTLV (babel_auth_bump_tspc ts_base now_s ifp_s.auth_timestamp ifp_s.auth_packetcounter).2 (babel_auth_bump_tspc ts_base now_s ifp_s.auth_timestamp ifp_s.auth_packetcounter).1 :: ((babel_esalist_derive env_s ksnd ifp_s.csalist now_s).take BABEL_MAXDIGESTSOUT).map (fun e => hmacFinalTLV e (hmacD e.hash_algo (makeAuthImage addr (serializeTLVs bodyT) (babel_auth_bump_tspc ts_base now_s ifp_s.auth_timestamp ifp_s.auth_packetcounter).2 (babel_auth_bump_tspc ts_base now_s ifp_s.auth_timestamp ifp_s.auth_packetcounter).1 ((babel_esalist_derive env_s ksnd ifp_s.csalist now_s).take BABEL_MAXDIGESTSOUT)) e.key_secret)))) (babel_auth_pad_packet (RTPROT_BABEL :: 2 :: be16 (makeNewBodyLen addr (serializeTLVs bodyT) ((babel_esalist_derive env_s ksnd ifp_s.csalist now_s).take BABEL_MAXDIGESTSOUT) % 65536) ++ serializeTLVs (bodyT ++ tspcViewTLV (babel_auth_bump_tspc ts_base now_s ifp_s.auth_timestamp ifp_s.auth_packetcounter).2 (babel_auth_bump_tspc ts_base now_s ifp_s.auth_timestamp ifp_s.auth_packetcounter).1 :: ((babel_esalist_derive env_s ksnd ifp_s.csalist now_s).take BABEL_MAXDIGESTSOUT).map (fun e => hmacFinalTLV e (hmacD e.hash_algo (makeAuthImage addr (serializeTLVs bodyT) (babel_auth_bump_tspc ts_base now_s ifp_s.auth_timestamp ifp_s.auth_packetcounter).2 (babel_auth_bump_tspc ts_base now_s ifp_s.auth_timestamp ifp_s.auth_packetcounter).1 ((babel_esalist_derive env_s ksnd ifp_s.csalist now_s).take BABEL_MAXDIGESTSOUT)) e.key_secret)))) addr) (bodyT ++ tspcViewTLV (babel_auth_bump_tspc ts_base now_s ifp_s.auth_timestamp ifp_s.auth_packetcounter).2 (babel_auth_bump_tspc ts_base now_s ifp_s.auth_timestamp ifp_s.auth_packetcounter).1 :: ((babel_esalist_derive env_s ksnd ifp_s.csalist now_s).take BABEL_MAXDIGESTSOUT).map (fun e => hmacFinalTLV e (hmacD e.hash_algo (makeAuthImage addr (serializeTLVs bodyT) (babel_auth_bump_tspc ts_base now_s ifp_s.auth_timestamp ifp_s.auth_packetcounter).2 (babel_auth_bump_tspc ts_base now_s ifp_s.auth_timestamp ifp_s.auth_packetcounter).1 ((babel_esalist_derive env_s ksnd ifp_s.csalist now_s).take BABEL_MAXDIGESTSOUT)) e.key_secret)))
      hwfF hd4 (babel_esalist_derive env_r kacc ifp_r.csalist now_r) 0 j hjlen (by omega) ?_
    rw [hgetj, halgo, hkid, hkey, hpad]
    exact hmemdig
  have hcheck := check_packet_hmac_ok env_r kacc (fun a m k => some (hmacD a m k)) ifp_r anml gs2 is2 addr (RTPROT_BABEL :: 2 :: be16 (makeNewBodyLen addr (serializeTLVs bodyT) ((babel_esalist_derive env_s ksnd ifp_s.csalist now_s).take BABEL_MAXDIGESTSOUT) % 65536) ++ serializeTLVs (bodyT ++ tspcViewTLV (babel_auth_bump_tspc ts_base now_s ifp_s.auth_timestamp ifp_s.auth_packetcounter).2 (babel_auth_bump_tspc ts_base now_s ifp_s.auth_timestamp ifp_s.auth_packetcounter).1 :: ((babel_esalist_derive env_s ksnd ifp_s.csalist now_s).take BABEL_MAXDIGESTSOUT).map (fun e => hmacFinalTLV e (hmacD e.hash_algo (makeAuthImage addr (serializeTLVs bodyT) (babel_auth_bump_tspc ts_base now_s ifp_s.auth_timestamp ifp_s.auth_packetcounter).2 (babel_auth_bump_tspc ts_base now_s ifp_s.auth_timestamp ifp_s.auth_packetcounter).1 ((babel_esalist_derive env_s ksnd ifp_s.csalist now_s).take BABEL_MAXDIGESTSOUT)) e.key_secret)))) now_r
    off hcs_r hoff hok
  rw [hfinal_eq, hcheck]
  exact ⟨rfl, rfl⟩

/-- Claim C1 counterexample: the round trip does not hold for every body.
A body that itself begins with a TS/PC TLV carrying the pair (0, 0) is
passed through verbatim by babel_auth_make_packet, the inbound walk finds
that TLV first, and the check rejects the packet — even though sender and
receiver share one keychain whose key is valid for send and accept, the
receiver has no ANM record, and the HMAC primitive is total. -/
theorem round_trip_counterexample :
    (babel_auth_check_packet [⟨"kc", [⟨5, [97]⟩]⟩] (fun kc _ => kc.keys) (fun a m k => some (List.replicate (hash_digest_length a) ((m.sum + k.sum) % 256))) ⟨1, [⟨"kc", 1⟩], true, 0, 0⟩ [] stats0 stats0 (List.replicate 16 1) (RTPROT_BABEL :: 2 :: be16 ((babel_auth_make_packet [⟨"kc", [⟨5, [97]⟩]⟩] (fun kc _ => kc.keys) (fun a m k => some (List.replicate (hash_digest_length a) ((m.sum + k.sum) % 256))) BABEL_TS_BASE_ZERO ⟨1, [⟨"kc", 1⟩], true, 0, 0⟩ (some (List.replicate 16 1)) [11, 6, 0, 0, 0, 0, 0, 0] 50 stats0 stats0).retLen % 65536) ++ (babel_auth_make_packet [⟨"kc", [⟨5, [97]⟩]⟩] (fun kc _ => kc.keys) (fun a m k => some (List.replicate (hash_digest_length a) ((m.sum + k.sum) % 256))) BABEL_TS_BASE_ZERO ⟨1, [⟨"kc", 1⟩], true, 0, 0⟩ (some (List.replicate 16 1)) [11, 6, 0, 0, 0, 0, 0, 0] 50 stats0 stats0).bodyOut) 60).result = Msg.ng := by
  simp [babel_auth_make_packet, fillDigests, makeAuthImage, makeFinalImage,
    makeNewBodyLen, placeholderTLV, digestTLV, padTrunc, tspcTLV,
    babel_auth_bump_tspc, babel_auth_check_packet, babel_auth_check_tspc,
    storedPcTs, babel_anm_lookup, babel_auth_pad_packet, babel_esalist_derive,
    deriveCsas, deriveKeys, keychain_lookup, listnode_add_sort, babel_esa_item_cmp,
    babel_esa_item_exists, keyBytes, babel_auth_try_hmac_tlvs, esaLoop,
    serializeTLVs, serializeTLV, checkTspcLoop, padLoop, tryHmacLoop, byteAt,
    getc, getw, getl, getwFrom, getlFrom, forward, be16, be32, stats0,
    hash_digest_length, MESSAGE_PAD1, MESSAGE_TSPC, MESSAGE_HMAC,
    BABEL_MAXDIGESTSIN, BABEL_MAXDIGESTSOUT, BABEL_TS_BASE_ZERO,
    BABEL_TS_BASE_UNIX, RTPROT_BABEL, List.replicate, List.getD]

theorem authenticated_round_trip_witness :
    (babel_auth_check_packet [⟨"kc", [⟨5, [97]⟩]⟩] (fun kc _ => kc.keys) (fun a m k => some (List.replicate (hash_digest_length a) ((m.sum + k.sum) % 256))) ⟨1, [⟨"kc", 1⟩], true, 0, 0⟩ [] stats0 stats0 (List.replicate 16 1) (RTPROT_BABEL :: 2 :: be16 ((babel_auth_make_packet [⟨"kc", [⟨5, [97]⟩]⟩] (fun kc _ => kc.keys) (fun a m k => some (List.replicate (hash_digest_length a) ((m.sum + k.sum) % 256))) BABEL_TS_BASE_ZERO ⟨1, [⟨"kc", 1⟩], true, 0, 0⟩ (some (List.replicate 16 1)) (serializeTLVs [TLV.raw 8 [1, 2]]) 50 stats0 stats0).retLen % 65536) ++ (babel_auth_make_packet [⟨"kc", [⟨5, [97]⟩]⟩] (fun kc _ => kc.keys) (fun a m k => some (List.replicate (hash_digest_length a) ((m.sum + k.sum) % 256))) BABEL_TS_BASE_ZERO ⟨1, [⟨"kc", 1⟩], true, 0, 0⟩ (some (List.replicate 16 1)) (serializeTLVs [TLV.raw 8 [1, 2]]) 50 stats0 stats0).bodyOut) 60).result = Msg.ok ∧ (babel_auth_check_packet [⟨"kc", [⟨5, [97]⟩]⟩] (fun kc _ => kc.keys) (fun a m k => some (List.replicate (hash_digest_length a) ((m.sum + k.sum) % 256))) ⟨1, [⟨"kc", 1⟩], true, 0, 0⟩ [] stats0 stats0 (List.replicate 16 1) (RTPROT_BABEL :: 2 :: be16 ((babel_auth_make_packet [⟨"kc", [⟨5, [97]⟩]⟩] (fun kc _ => kc.keys) (fun a m k => some (List.replicate (hash_digest_length a) ((m.sum + k.sum) % 256))) BABEL_TS_BASE_ZERO ⟨1, [⟨"kc", 1⟩], true, 0, 0⟩ (some (List.replicate 16 1)) (serializeTLVs [TLV.raw 8 [1, 2]]) 50 stats0 stats0).retLen % 65536) ++ (babel_auth_make_packet [⟨"kc", [⟨5, [97]⟩]⟩] (fun kc _ => kc.keys) (fun a m k => some (List.replicate (hash_digest_length a) ((m.sum + k.sum) % 256))) BABEL_TS_BASE_ZERO ⟨1, [⟨"kc", 1⟩], true, 0, 0⟩ (some (List.replicate 16 1)) (serializeTLVs [TLV.raw 8 [1, 2]]) 50 stats0 stats0).bodyOut) 60).retval = Msg.ok :=
  authenticated_round_trip [⟨"kc", [⟨5, [97]⟩]⟩] [⟨"kc", [⟨5, [97]⟩]⟩] (fun kc _ => kc.keys) (fun kc _ => kc.keys)
    (fun a m k => List.replicate (hash_digest_length a) ((m.sum + k.sum) % 256))
    BABEL_TS_BASE_ZERO 50 60 ⟨1, [⟨"kc", 1⟩], true, 0, 0⟩ ⟨1, [⟨"kc", 1⟩], true, 0, 0⟩ (List.replicate 16 1) [TLV.raw 8 [1, 2]] [] stats0 stats0
    stats0 stats0 0 (⟨0, 0, 1, 5, [97]⟩ : EsaItem) (⟨0, 0, 1, 5, [97]⟩ : EsaItem)
    (fun a m k => List.length_replicate _ _)
    (fun a m k b hb => by
      have hb2 := List.eq_of_mem_replicate hb
      omega)
    (by decide)
    (by decide)
    (by intro v hv; simp [MESSAGE_TSPC] at hv)
    (by intro v hv; simp [MESSAGE_HMAC] at hv)
    (by decide) (by decide) (by decide) (by decide) (by decide)
    rfl rfl rfl (by decide)

end BabelAuth
